import Mathlib

/-!
# AOF replay container codec (`aof-file-parser.js`)

A shallow embedding of `save` and `load` from `src/aof-file-parser.js`.

Conventions of the embedding

* A Node `Buffer` is a `List Nat` whose elements are byte values.
  `new Buffer(n)` is the zero-filled buffer of length `n`; `newBufferWith`
  makes the initial content a parameter, which tells the bytes `save` writes
  from the bytes it leaves as allocated.
* A JavaScript number holding an integer is an `Int`.  JavaScript numbers
  are IEEE 754 doubles: the arithmetic the codec performs on the game id
  (`Math.floor(x / 2^32)`, `x - h * 2^32`, `h * 2^32 + l`) rounds every
  result to the nearest double (`roundRatio`, `toDouble`), and so does the
  conversion of a version component to a number (`stringToNumber`).
* A JavaScript string is a `String`; an absent (`undefined`) property is
  `none`.
* A sparse JavaScript array is a `List (Option α)`: the list length is the
  array's `length` and `none` is a hole, which `forEach` skips.
* `save` hands its buffer to `fs.writeFile` and `load` obtains its buffer
  from `fs.readFileSync`; the embedding starts and ends at the buffer.
* An exception that escapes a function is a `Fault`.
-/

namespace AOF

/-! ## Platform: faults, byte order -/

/-- Exceptions escaping `save` or `load`. -/
inductive Fault where
  | rangeError
  | typeError
  deriving DecidableEq, Repr

/-- Big-endian bytes of the low 16 bits of `v`. -/
def be16 (v : Nat) : List Nat :=
  [v / 256 % 256, v % 256]

/-- Big-endian bytes of the low 32 bits of `v`. -/
def be32 (v : Nat) : List Nat :=
  [v / 16777216 % 256, v / 65536 % 256, v / 256 % 256, v % 256]

/-! ## Platform: numbers -/

/-- The quotient `a / b` rounded to the nearest integer, a tie going to the even
one. -/
def roundHalfEven (a b : Nat) : Nat :=
  let q := a / b
  let r := a % b
  if 2 * r < b then q
  else if b < 2 * r then q + 1
  else if q % 2 = 0 then q else q + 1

/-- The halvings of `n` that leave a positive number, at most as many as the
first argument allows. -/
def log2Aux : Nat → Nat → Nat
  | 0, _ => 0
  | fuel + 1, n => if n < 2 then 0 else log2Aux fuel (n / 2) + 1

/-- The position of the leading binary digit of `n`: the `e` with
`2^e ≤ n < 2^(e+1)`, and 0 for 0. -/
def log2 (n : Nat) : Nat := log2Aux n n

/-- The exponent `e` with `2^e ≤ a / b < 2^(e+1)`, for positive `a` and `b`. -/
def floorLog2 (a b : Nat) : Int :=
  let d : Int := (log2 a : Int) - (log2 b : Int)
  if b * 2 ^ d.toNat ≤ a * 2 ^ (-d).toNat then d else d - 1

/-- The double nearest to `a / b`, as a mantissa `m` and a binary exponent `p`
(the double is `m * 2^p`): 53 significant bits, a tie going to the even
mantissa, no exponent below -1074.  The exponent is not bounded above. -/
def roundRatio (a b : Nat) : Nat × Int :=
  if a = 0 then (0, 0)
  else
    let p : Int := max (floorLog2 a b - 52) (-1074)
    (roundHalfEven (a * 2 ^ (-p).toNat) (b * 2 ^ p.toNat), p)

/-- The double nearest to the integer `x`, the result a sum, a difference or a
product of integer-valued numbers has when its exact value is `x` (of
magnitude below `2^1024`): `x` itself up to 53 significant bits, else `x`
rounded to 53 significant bits, a tie going to the even mantissa. -/
def toDouble (x : Int) : Int :=
  let s := log2 x.natAbs - 52
  let r : Int := ((roundHalfEven x.natAbs (2 ^ s) * 2 ^ s : Nat) : Int)
  if x < 0 then -r else r

/-- `Math.floor(x / d)` for an integer-valued `x` and a positive integer `d`:
the quotient is rounded to a double, of which the floor is taken. -/
def floorQuotient (x : Int) (d : Nat) : Int :=
  let mp := roundRatio x.natAbs d
  let m : Int := if x < 0 then -(mp.1 : Int) else (mp.1 : Int)
  m * 2 ^ mp.2.toNat / 2 ^ (-mp.2).toNat

/-- A JavaScript number: NaN, an infinity, or the finite double
`± mant * 2^exp`. -/
inductive JsNumber where
  | nan
  | infinity (negative : Bool)
  | finite (negative : Bool) (mant : Nat) (exp : Int)
  deriving DecidableEq, Repr

/-- The number nearest to `± a / b`: the nearest double, or an infinity when
that double would be `2^1024` or more. -/
def JsNumber.ofRatio (negative : Bool) (a b : Nat) : JsNumber :=
  let mp := roundRatio a b
  if 1024 ≤ log2 (mp.1 * 2 ^ mp.2.toNat) then .infinity negative
  else .finite negative mp.1 mp.2

/-- The test `value > 255 || value < 0` of `writeUInt8`; it is false of NaN. -/
def JsNumber.outOfByteRange : JsNumber → Bool
  | .nan => false
  | .infinity _ => true
  | .finite negative m e =>
    if negative then decide (m ≠ 0)
    else decide (255 * 2 ^ (-e).toNat < m * 2 ^ e.toNat)

/-- The byte an element store keeps of a number (`ToUint8`): 0 for NaN and the
infinities, else the number truncated towards zero, modulo 256. -/
def JsNumber.toUint8 : JsNumber → Nat
  | .nan => 0
  | .infinity _ => 0
  | .finite negative m e =>
    let k := m * 2 ^ e.toNat / 2 ^ (-e).toNat
    if negative then (256 - k % 256) % 256 else k % 256

/-! ## Platform: `Buffer` -/

/-- `new Buffer(size)`: negative sizes are rejected. -/
def newBuffer (size : Int) : Except Fault (List Nat) :=
  if size < 0 then .error .rangeError else .ok (List.replicate size.toNat 0)

/-- `new Buffer(size)` with every byte holding `fill` until it is written: the
source does not say what an unwritten byte holds, and `newBuffer` is the case
`fill = 0`. -/
def newBufferWith (fill : Nat) (size : Int) : Except Fault (List Nat) :=
  if size < 0 then .error .rangeError else .ok (List.replicate size.toNat fill)

/-- `Buffer.concat([a, b])`. -/
def concat (a b : List Nat) : List Nat := a ++ b

/-- Overwrite `bs.length` bytes of `buff` starting at `offset`; fails when the
bytes do not fit. -/
def putBytes (buff : List Nat) (offset : Nat) (bs : List Nat) : Except Fault (List Nat) :=
  if offset + bs.length ≤ buff.length then
    .ok (buff.take offset ++ bs ++ buff.drop (offset + bs.length))
  else .error .rangeError

/-- `buff.writeUInt8(value, offset)`. -/
def writeUInt8 (buff : List Nat) (value : Int) (offset : Nat) : Except Fault (List Nat) :=
  if value < 0 ∨ 255 < value then .error .rangeError
  else putBytes buff offset [value.toNat]

/-- `buff.writeUInt16BE(value, offset)`. -/
def writeUInt16BE (buff : List Nat) (value : Int) (offset : Nat) : Except Fault (List Nat) :=
  if value < 0 ∨ 65535 < value then .error .rangeError
  else putBytes buff offset (be16 value.toNat)

/-- `buff.writeUInt32BE(value, offset)`. -/
def writeUInt32BE (buff : List Nat) (value : Int) (offset : Nat) : Except Fault (List Nat) :=
  if value < 0 ∨ 4294967295 < value then .error .rangeError
  else putBytes buff offset (be32 value.toNat)

/-- `buff.writeInt32BE(value, offset)`: two's complement. -/
def writeInt32BE (buff : List Nat) (value : Int) (offset : Nat) : Except Fault (List Nat) :=
  if value < -2147483648 ∨ 2147483647 < value then .error .rangeError
  else putBytes buff offset (be32 (value % 4294967296).toNat)

/-- `source.copy(target, targetStart, sourceStart, sourceEnd)`: copies as many
bytes as fit, never fails for `sourceStart ≤ source.length`. -/
def copy (source target : List Nat) (targetStart sourceStart sourceEnd : Nat) :
    Except Fault (List Nat) :=
  if source.length < sourceStart then .error .rangeError
  else if target.length ≤ targetStart ∨ sourceEnd ≤ sourceStart then .ok target
  else
    let bs := ((source.drop sourceStart).take (sourceEnd - sourceStart)).take
      (target.length - targetStart)
    .ok (target.take targetStart ++ bs ++ target.drop (targetStart + bs.length))

/-- `buff.write(string, offset, length, encoding)` once the string has been
decoded to `decoded`: at most `length` bytes, and no more than fit. -/
def writeDecoded (buff : List Nat) (decoded : List Nat) (offset length : Nat) :
    Except Fault (List Nat) :=
  if buff.length < offset then .error .rangeError
  else
    let bs := (decoded.take length).take (buff.length - offset)
    .ok (buff.take offset ++ bs ++ buff.drop (offset + bs.length))

/-- `buff.readUInt8(offset)`. -/
def readUInt8 (buff : List Nat) (offset : Nat) : Except Fault Int :=
  match buff.drop offset with
  | b :: _ => .ok (b : Int)
  | _ => .error .rangeError

/-- `buff.readUInt16BE(offset)`. -/
def readUInt16BE (buff : List Nat) (offset : Nat) : Except Fault Int :=
  match buff.drop offset with
  | b0 :: b1 :: _ => .ok ((b0 * 256 + b1 : Nat) : Int)
  | _ => .error .rangeError

/-- `buff.readUInt32BE(offset)`. -/
def readUInt32BE (buff : List Nat) (offset : Nat) : Except Fault Int :=
  match buff.drop offset with
  | b0 :: b1 :: b2 :: b3 :: _ =>
    .ok ((b0 * 16777216 + b1 * 65536 + b2 * 256 + b3 : Nat) : Int)
  | _ => .error .rangeError

/-- `buff.readInt32BE(offset)`: two's complement. -/
def readInt32BE (buff : List Nat) (offset : Nat) : Except Fault Int :=
  match buff.drop offset with
  | b0 :: b1 :: b2 :: b3 :: _ =>
    let u := b0 * 16777216 + b1 * 65536 + b2 * 256 + b3
    .ok (if u < 2147483648 then (u : Int) else (u : Int) - 4294967296)
  | _ => .error .rangeError

/-- The bytes `buff.toString(enc, start, end)` decodes: the range is clamped to
the buffer. -/
def slice (buff : List Nat) (start stop : Nat) : List Nat :=
  (buff.drop start).take (stop - start)

/-! ## Platform: text encodings -/

/-- The standard base64 alphabet. -/
def b64Alphabet : List Char :=
  "ABCDEFGHIJKLMNOPQRSTUVWXYZabcdefghijklmnopqrstuvwxyz0123456789+/".toList

/-- The base64 digit of a 6-bit value. -/
def b64Char (i : Nat) : Char := b64Alphabet.getD i 'A'

/-- `buff.toString('base64')` on the bytes `bs`: padded standard base64. -/
def base64Encode : List Nat → List Char
  | [] => []
  | [a] => [b64Char (a / 4), b64Char (a % 4 * 16), '=', '=']
  | [a, b] => [b64Char (a / 4), b64Char (a % 4 * 16 + b / 16), b64Char (b % 16 * 4), '=']
  | a :: b :: c :: rest =>
    b64Char (a / 4) :: b64Char (a % 4 * 16 + b / 16) :: b64Char (b % 16 * 4 + c / 64)
      :: b64Char (c % 64) :: base64Encode rest

/-- The UTF-16 code units of a text, which is how JavaScript holds it. -/
def utf16Units (s : List Char) : List Nat :=
  s.flatMap fun ch =>
    let v := ch.toNat
    if v < 65536 then [v] else [55296 + (v - 65536) / 1024, 56320 + (v - 65536) % 1024]

/-- The 6-bit value the base64 decoder gives a code unit, of which it looks at
the low 8 bits only: the standard alphabet, and `-` and `_` for 62 and 63. -/
def unbase64 (unit : Nat) : Option Nat :=
  let c := unit % 256
  if 65 ≤ c ∧ c ≤ 90 then some (c - 65)
  else if 97 ≤ c ∧ c ≤ 122 then some (c - 71)
  else if 48 ≤ c ∧ c ≤ 57 then some (c + 4)
  else if c = 43 ∨ c = 45 then some 62
  else if c = 47 ∨ c = 95 then some 63
  else none

/-- The 6-bit values the decoder reads: a code unit outside the alphabet is
skipped, and the first `=` ends the input. -/
def base64Sextets : List Nat → List Nat
  | [] => []
  | unit :: rest =>
    match unbase64 unit with
    | some v => v :: base64Sextets rest
    | none => if unit % 256 = 61 then [] else base64Sextets rest

/-- The bytes of a sequence of 6-bit values: three for each four values, and
one or two for a last group of two or three. -/
def sextetBytes : List Nat → List Nat
  | a :: b :: c :: d :: rest =>
    (a * 4 + b / 16) :: (b % 16 * 16 + c / 4) :: (c % 4 * 64 + d) :: sextetBytes rest
  | [a, b, c] => [a * 4 + b / 16, b % 16 * 16 + c / 4]
  | [a, b] => [a * 4 + b / 16]
  | _ => []

/-- The bytes `buff.write(str, .., 'base64')` decodes from a text: whatever the
text, the decoder does not fail. -/
def base64Decode (s : List Char) : List Nat :=
  sextetBytes (base64Sextets (utf16Units s))

/-- The text left by the two padding checks of `Buffer.byteLength(str, 'base64')`:
a trailing `=` is dropped, and a second one when more than one character is
left. -/
def stripPadding (s : List Char) : List Char :=
  let s1 := if s.getLast? = some '=' then s.dropLast else s
  if 1 < s1.length ∧ s1.getLast? = some '=' then s1.dropLast else s1

/-- `Buffer.byteLength(str, 'base64')`: computed from the length of the text (in
UTF-16 code units) and its trailing padding only. -/
def base64ByteLength (s : List Char) : Nat :=
  (utf16Units (stripPadding s)).length * 3 / 4

/-- UTF-8 bytes of one character. -/
def utf8EncodeChar (ch : Char) : List Nat :=
  let v := ch.toNat
  if v < 128 then [v]
  else if v < 2048 then [192 + v / 64, 128 + v % 64]
  else if v < 65536 then [224 + v / 4096, 128 + v / 64 % 64, 128 + v % 64]
  else [240 + v / 262144, 128 + v / 4096 % 64, 128 + v / 64 % 64, 128 + v % 64]

/-- UTF-8 bytes of a text, as written by `buff.write(str, .., 'utf8')`. -/
def utf8Encode (s : List Char) : List Nat :=
  s.flatMap utf8EncodeChar

/-- `Buffer.byteLength(str, 'utf8')`. -/
def utf8ByteLength (s : String) : Nat :=
  (utf8Encode s.toList).length

/-- The replacement character U+FFFD. -/
def replacementChar : Char := Char.ofNat 65533

/-- `buff.toString('utf8')`: the decoder of the Encoding Standard.  The state is
the code point under construction, the continuation bytes still needed and
the bounds allowed for the next continuation byte; an ill-formed sequence
yields U+FFFD and the offending byte is decoded again from the initial
state. -/
def utf8DecodeAux : List Nat → Nat → Nat → Nat → Nat → List Char
  | [], _, needed, _, _ => if needed = 0 then [] else [replacementChar]
  | b :: rest, cp, needed, lower, upper =>
    let start : List Char :=
      if b < 128 then Char.ofNat b :: utf8DecodeAux rest 0 0 128 191
      else if 194 ≤ b ∧ b ≤ 223 then utf8DecodeAux rest (b % 32) 1 128 191
      else if 224 ≤ b ∧ b ≤ 239 then
        utf8DecodeAux rest (b % 16) 2 (if b = 224 then 160 else 128) (if b = 237 then 159 else 191)
      else if 240 ≤ b ∧ b ≤ 244 then
        utf8DecodeAux rest (b % 8) 3 (if b = 240 then 144 else 128) (if b = 244 then 143 else 191)
      else replacementChar :: utf8DecodeAux rest 0 0 128 191
    if needed = 0 then start
    else if b < lower ∨ upper < b then replacementChar :: start
    else if needed = 1 then Char.ofNat (cp * 64 + b % 64) :: utf8DecodeAux rest 0 0 128 191
    else utf8DecodeAux rest (cp * 64 + b % 64) (needed - 1) 128 191

/-- Decode a byte sequence as UTF-8 from the initial decoder state. -/
def utf8Decode (bs : List Nat) : List Char :=
  utf8DecodeAux bs 0 0 128 191

/-- `str.split('.')`. -/
def splitDot : List Char → List (List Char)
  | [] => [[]]
  | ch :: rest =>
    if ch = '.' then [] :: splitDot rest
    else
      match splitDot rest with
      | [] => [[ch]]
      | w :: ws => (ch :: w) :: ws

/-- `StrWhiteSpaceChar`: white space and line terminators. -/
def isWhiteSpace (ch : Char) : Bool :=
  let v := ch.toNat
  (9 ≤ v && v ≤ 13) || v = 32 || v = 160 || v = 5760 || (8192 ≤ v && v ≤ 8202) || v = 8232
    || v = 8233 || v = 8239 || v = 8287 || v = 12288 || v = 65279

/-- The text without leading and trailing white space. -/
def trimWhiteSpace (s : List Char) : List Char :=
  ((s.dropWhile isWhiteSpace).reverse.dropWhile isWhiteSpace).reverse

/-- The value of a digit character in a radix up to 16, if it is one. -/
def digitVal (radix : Nat) (ch : Char) : Option Nat :=
  let v := ch.toNat
  let d :=
    if 48 ≤ v ∧ v ≤ 57 then v - 48
    else if 97 ≤ v ∧ v ≤ 102 then v - 87
    else if 65 ≤ v ∧ v ≤ 70 then v - 55
    else radix
  if d < radix then some d else none

/-- The value of a string of digits, most significant first. -/
def digitsValue (radix : Nat) : List Char → Nat → Option Nat
  | [], acc => some acc
  | ch :: rest, acc =>
    match digitVal radix ch with
    | some d => digitsValue radix rest (acc * radix + d)
    | none => none

/-- Whether the character is a decimal digit. -/
def isDecimalDigit (ch : Char) : Bool := (digitVal 10 ch).isSome

/-- `SignedInteger` of an exponent part: decimal digits with an optional sign. -/
def signedInteger (s : List Char) : Option Int :=
  match s with
  | [] => none
  | ch :: rest =>
    if ch = '+' then
      if rest = [] then none else (digitsValue 10 rest 0).map Int.ofNat
    else if ch = '-' then
      if rest = [] then none else (digitsValue 10 rest 0).map (fun n => -(n : Int))
    else (digitsValue 10 s 0).map Int.ofNat

/-- `StrUnsignedDecimalLiteral` other than `Infinity`: digits with an optional
fraction and an optional exponent part, as the digits read as one integer and
the power of ten it is multiplied by. -/
def unsignedDecimal (s : List Char) : Option (Nat × Int) :=
  let ip := s.takeWhile isDecimalDigit
  let r1 := s.dropWhile isDecimalDigit
  let fp := match r1 with
    | ch :: t => if ch = '.' then t.takeWhile isDecimalDigit else []
    | [] => []
  let r2 := match r1 with
    | ch :: t => if ch = '.' then t.dropWhile isDecimalDigit else r1
    | [] => []
  if ip = [] ∧ fp = [] then none
  else
    let ex : Option Int := match r2 with
      | [] => some 0
      | ch :: t => if ch = 'e' ∨ ch = 'E' then signedInteger t else none
    match digitsValue 10 (ip ++ fp) 0, ex with
    | some m, some e => some (m, e - (fp.length : Int))
    | _, _ => none

/-- The number of a `StrUnsignedDecimalLiteral` with the sign given. -/
def decimalLiteral (negative : Bool) (s : List Char) : JsNumber :=
  if s = "Infinity".toList then .infinity negative
  else
    match unsignedDecimal s with
    | some (m, e) => JsNumber.ofRatio negative (m * 10 ^ e.toNat) (10 ^ (-e).toNat)
    | none => .nan

/-- The number of the digits of a binary, octal or hexadecimal literal. -/
def radixLiteral (radix : Nat) (s : List Char) : JsNumber :=
  if s = [] then .nan
  else
    match digitsValue radix s 0 with
    | some v => JsNumber.ofRatio false v 1
    | none => .nan

/-- `+str`, the number a string is converted to: white space is trimmed; the
empty text is 0; `0x`, `0o` and `0b` literals and signed decimal literals have
their value, rounded to a double; any other text is NaN. -/
def stringToNumber (str : List Char) : JsNumber :=
  match trimWhiteSpace str with
  | [] => .finite false 0 0
  | ch :: rest =>
    if ch = '+' then decimalLiteral false rest
    else if ch = '-' then decimalLiteral true rest
    else
      match rest with
      | x :: t =>
        if ch = '0' ∧ (x = 'x' ∨ x = 'X') then radixLiteral 16 t
        else if ch = '0' ∧ (x = 'o' ∨ x = 'O') then radixLiteral 8 t
        else if ch = '0' ∧ (x = 'b' ∨ x = 'B') then radixLiteral 2 t
        else decimalLiteral false (ch :: rest)
      | [] => decimalLiteral false [ch]

/-- The number a string argument is coerced to by `writeUInt8` (`value = +value`):
an absent argument (`undefined`) is NaN. -/
def coerceNumber : Option (List Char) → JsNumber
  | none => .nan
  | some s => stringToNumber s

/-- `buff.writeUInt8(str, offset)` with a string (or absent) argument: the
argument is coerced to a number, which is rejected when it is above 255 or
below 0; NaN passes that test and is stored as 0. -/
def writeUInt8Str (buff : List Nat) (value : Option (List Char)) (offset : Nat) :
    Except Fault (List Nat) :=
  let v := coerceNumber value
  if v.outOfByteRange then .error .rangeError
  else putBytes buff offset [v.toUint8]

/-- `buff.write(key, offset, length, 'base64')`. -/
def writeBase64 (buff : List Nat) (key : List Char) (offset length : Nat) :
    Except Fault (List Nat) :=
  writeDecoded buff (base64Decode key) offset length

/-- The decimal text of an integer-valued number. -/
def numberToString : Int → String
  | .ofNat n => Nat.repr n
  | .negSucc n => "-" ++ Nat.repr (n + 1)

/-! ## Data model -/

/-- A keyframe or a chunk: `{ id, data }`. -/
structure Fragment where
  id : Int
  data : List Nat
  deriving DecidableEq, Repr

/-- An entry of `players`. -/
structure Player where
  id : Int
  name : String
  teamNr : Int
  leagueId : Int
  leagueRank : Int
  championId : Int
  spell1Id : Int
  spell2Id : Int
  deriving DecidableEq, Repr

/-- The `game` argument of `save`. -/
structure Game where
  regionId : Option Int
  gameId : Option Int
  riotVersion : Option String
  key : Option String
  endStartupChunkId : Option Int
  startGameChunkId : Option Int
  players : Option (List Player)
  keyframes : Option (List (Option Fragment))
  chunks : Option (List (Option Fragment))
  deriving DecidableEq, Repr

/-- The `replayMetadata` object built by `load`. -/
structure ReplayMetadata where
  fileVersion : Int
  regionId : Int
  gameId : Int
  riotVersion : String
  key : String
  complete : Int
  endStartupChunkId : Int
  startGameChunkId : Int
  players : List Player
  endGameChunkId : Int
  deriving DecidableEq, Repr

/-- The `replayData` object built by `load`. -/
structure ReplayData where
  keyframes : List (Option Fragment)
  chunks : List (Option Fragment)
  deriving DecidableEq, Repr

/-- What `save` does: it reports a failure through the callback before
anything is written, or hands `buff` to `fs.writeFile` (whose completion is
reported with `warnings`), or an exception escapes. -/
inductive SaveOutcome where
  | failed (error : String) (warnings : List String)
  | written (buff : List Nat) (warnings : List String)
  | thrown (fault : Fault)
  deriving DecidableEq, Repr

/-- What `load` does: it reports a failure through the callback, or reports
success with the two decoded objects, or an exception escapes. -/
inductive LoadOutcome where
  | failed (error : String)
  | ok (metadata : ReplayMetadata) (data : ReplayData)
  | thrown (fault : Fault)
  deriving DecidableEq, Repr

/-- `!x` for a numeric property. -/
def falsyNum : Option Int → Bool
  | none => true
  | some v => v == 0

/-- `!x` for a string property. -/
def falsyStr : Option String → Bool
  | none => true
  | some s => s == ""

/-- `arr[i] = v` on a sparse array. -/
def setSparse {α : Type} (arr : List (Option α)) (i : Nat) (v : α) : List (Option α) :=
  if i < arr.length then arr.set i (some v)
  else arr ++ List.replicate (i - arr.length) none ++ [some v]

/-! ## `save` -/

/-- Lines 7-13: the message left in `error` by the six checks. -/
def validationError (game : Game) : String :=
  let error := ""
  let error := if falsyNum game.regionId then "regionId missing" else error
  let error := if falsyNum game.gameId then "gameId missing" else error
  let error := if falsyStr game.riotVersion then "riotVersion missing" else error
  let error := if falsyStr game.key then "encryption key missing" else error
  let error := if falsyNum game.endStartupChunkId then "endStartupChunkId missing" else error
  let error := if falsyNum game.startGameChunkId then "startGameChunkId missing" else error
  error

/-- Lines 42-50: one `forEach` pass adding the data lengths and counting the
entries visited. -/
def countFragments : List (Option Fragment) → Nat → Nat → Nat × Nat
  | [], dataLength, total => (dataLength, total)
  | none :: rest, dataLength, total => countFragments rest dataLength total
  | some f :: rest, dataLength, total =>
    countFragments rest (dataLength + f.data.length) (total + 1)

/-- Lines 87-100: the bytes of one player, built in `tempBuff`, every byte of
which holds `fill` when it is allocated. -/
def writePlayerWith (fill : Nat) (p : Player) : Except Fault (List Nat) := do
  let len := utf8ByteLength p.name
  let tempBuff ← newBufferWith fill (20 + len)
  let d := 0
  let tempBuff ← writeInt32BE tempBuff p.id d
  let d := d + 4
  let tempBuff ← writeUInt8 tempBuff len d
  let d := d + 1
  let tempBuff ← writeDecoded tempBuff (utf8Encode p.name.toList) d len
  let d := d + len
  let tempBuff ← writeUInt8 tempBuff p.teamNr d
  let d := d + 1
  let tempBuff ← writeUInt8 tempBuff p.leagueId d
  let d := d + 1
  let tempBuff ← writeUInt8 tempBuff p.leagueRank d
  let d := d + 1
  let tempBuff ← writeInt32BE tempBuff p.championId d
  let d := d + 4
  let tempBuff ← writeInt32BE tempBuff p.spell1Id d
  let d := d + 4
  let tempBuff ← writeInt32BE tempBuff p.spell2Id d
  pure tempBuff

/-- Lines 86-103: the player loop, appending each `tempBuff`. -/
def writePlayersWith (fill : Nat) : List Player → List Nat → Nat → Except Fault (List Nat × Nat)
  | [], buff, c => pure (buff, c)
  | p :: ps, buff, c => do
    let tempBuff ← writePlayerWith fill p
    writePlayersWith fill ps (concat buff tempBuff) (c + tempBuff.length)

/-- Lines 110-119 and 123-132: the `forEach` writing every fragment. -/
def writeFragments : List (Option Fragment) → List Nat → Nat → Except Fault (List Nat × Nat)
  | [], buff, c => pure (buff, c)
  | none :: rest, buff, c => writeFragments rest buff c
  | some f :: rest, buff, c => do
    let buff ← writeUInt16BE buff f.id c
    let c := c + 2
    let buff ← writeInt32BE buff f.data.length c
    let c := c + 4
    let buff ← copy f.data buff c 0 f.data.length
    let c := c + f.data.length
    writeFragments rest buff c

/-- Line 61: `Math.floor(game.gameId / 4294967296)`. -/
def gameIdHigh (gameId : Int) : Int :=
  floorQuotient gameId 4294967296

/-- Line 62: `game.gameId - high * 4294967296`, the product and the difference
each rounded to a double. -/
def gameIdLow (gameId : Int) : Int :=
  toDouble (gameId - toDouble (gameIdHigh gameId * 4294967296))

/-- Line 53: the completeness flag. -/
def completeFlag (totalKeyframes totalChunks : Nat) (keyframes chunks : List (Option Fragment)) :
    Int :=
  if (totalKeyframes : Int) = (keyframes.length : Int) - 1
      ∧ (totalChunks : Int) = (chunks.length : Int) - 1 then 1 else 0

/-- Lines 36-132: the buffer built for a record that passed the checks,
together with the final value of the write cursor `c`; every byte of a buffer
the code allocates holds `fill` until it is written. -/
def encodeWith (fill : Nat) (regionId gameId : Int) (riotVersion key : String)
    (endStartupChunkId startGameChunkId : Int) (players : List Player)
    (keyframes chunks : List (Option Fragment)) : Except Fault (List Nat × Nat) := do
  let (dataLength, totalKeyframes) := countFragments keyframes 0 0
  let (dataLength, totalChunks) := countFragments chunks dataLength 0
  let complete := completeFlag totalKeyframes totalChunks keyframes chunks
  let c := 0
  let keyLen := base64ByteLength key.toList
  let buff ← newBufferWith fill (18 + keyLen)
  let high := gameIdHigh gameId
  let low := gameIdLow gameId
  let buff ← writeUInt8 buff 12 c
  let c := c + 1
  let splits := splitDot riotVersion.toList
  let buff ← writeUInt8 buff regionId c
  let c := c + 1
  let buff ← writeUInt32BE buff high c
  let c := c + 4
  let buff ← writeUInt32BE buff low c
  let c := c + 4
  let buff ← writeUInt8Str buff (splits.get? 0) c
  let c := c + 1
  let buff ← writeUInt8Str buff (splits.get? 1) c
  let c := c + 1
  let buff ← writeUInt8Str buff (splits.get? 2) c
  let c := c + 1
  let buff ← writeUInt8 buff keyLen c
  let c := c + 1
  let buff ← writeBase64 buff key.toList c keyLen
  let c := c + keyLen
  let buff ← writeUInt8 buff (if complete ≠ 0 then 1 else 0) c
  let c := c + 1
  let buff ← writeUInt8 buff endStartupChunkId c
  let c := c + 1
  let buff ← writeUInt8 buff startGameChunkId c
  let c := c + 1
  let buff ← writeUInt8 buff players.length c
  let c := c + 1
  let (buff, c) ← writePlayersWith fill players buff c
  let extension ← newBufferWith fill (4 + dataLength + (totalKeyframes + totalChunks) * 6)
  let buff := concat buff extension
  let buff ← writeUInt16BE buff totalKeyframes c
  let c := c + 2
  let (buff, c) ← writeFragments keyframes buff c
  let buff ← writeUInt16BE buff totalChunks c
  let c := c + 2
  let (buff, c) ← writeFragments chunks buff c
  pure (buff, c)

/-- Lines 36-132 with `new Buffer` giving zero-filled buffers. -/
def encode (regionId gameId : Int) (riotVersion key : String)
    (endStartupChunkId startGameChunkId : Int) (players : List Player)
    (keyframes chunks : List (Option Fragment)) : Except Fault (List Nat × Nat) :=
  encodeWith 0 regionId gameId riotVersion key endStartupChunkId startGameChunkId players
    keyframes chunks

/-- Line 21: the warnings collected before the fragment checks. -/
def playerWarnings (game : Game) : List String :=
  let warnings : List String := []
  if game.players = some [] then warnings ++ ["No players"] else warnings

/-- Line 22: `if (!game.players) game.players = [];`. -/
def defaultPlayers (game : Game) : Game :=
  if game.players = none then { game with players := some [] } else game

/-- Lines 36-141 on the record as it stands after line 22. -/
def saveChecked (game : Game) (warnings : List String) : SaveOutcome :=
  match game.regionId, game.gameId, game.riotVersion, game.key, game.endStartupChunkId,
      game.startGameChunkId, game.players, game.keyframes, game.chunks with
  | some regionId, some gameId, some riotVersion, some key, some endStartupChunkId,
      some startGameChunkId, some players, some keyframes, some chunks =>
    match encode regionId gameId riotVersion key endStartupChunkId startGameChunkId
        players keyframes chunks with
    | .ok (buff, _) => .written buff warnings
    | .error fault => .thrown fault
  | _, _, _, _, _, _, _, _, _ => .thrown .typeError

/-- The function `save`: the record as `save` leaves it, and the outcome. -/
def saveRun (game : Game) : Game × SaveOutcome :=
  let error := validationError game
  if error ≠ "" then (game, .failed error [])
  else
    let warnings := playerWarnings game
    let game := defaultPlayers game
    if game.keyframes = none ∨ game.keyframes.any (fun a => a.length = 0) then
      (game, .failed "No keyframes" [])
    else if game.chunks = none ∨ game.chunks.any (fun a => a.length = 0) then
      (game, .failed "No chunks" [])
    else (game, saveChecked game warnings)

/-- The outcome of `save(game, filename, cb)`. -/
def save (game : Game) : SaveOutcome :=
  (saveRun game).2

/-! ## `load` -/

/-- Lines 195-210: the player loop. -/
def readPlayers (buff : List Nat) : Nat → Nat → List Player → Except Fault (List Player × Nat)
  | 0, c, players => pure (players, c)
  | n + 1, c, players => do
    let id ← readInt32BE buff c
    let c := c + 4
    let len ← readUInt8 buff c
    let c := c + 1
    let name := String.mk (utf8Decode (slice buff c (c + len.toNat)))
    let c := c + len.toNat
    let teamNr ← readUInt8 buff c
    let c := c + 1
    let leagueId ← readUInt8 buff c
    let c := c + 1
    let leagueRank ← readUInt8 buff c
    let c := c + 1
    let championId ← readInt32BE buff c
    let c := c + 4
    let spell1Id ← readInt32BE buff c
    let c := c + 4
    let spell2Id ← readInt32BE buff c
    let c := c + 4
    readPlayers buff n c
      (players ++ [{ id := id, name := name, teamNr := teamNr, leagueId := leagueId,
                     leagueRank := leagueRank, championId := championId,
                     spell1Id := spell1Id, spell2Id := spell2Id }])

/-- Lines 214-218 and 243-247: the fragment count. -/
def readCount (fileVersion : Int) (buff : List Nat) (c : Nat) : Except Fault (Int × Nat) :=
  if fileVersion < 11 then do
    let num ← readUInt8 buff c
    pure (num, c + 1)
  else do
    let num ← readUInt16BE buff c
    pure (num, c + 2)

/-- Lines 221-227 and 250-256: the id of the fragment read in iteration `i`. -/
def readFragmentId (fileVersion : Int) (buff : List Nat) (i c : Nat) : Except Fault (Int × Nat) :=
  if fileVersion < 11 then do
    let id ← readUInt8 buff c
    pure (id, c + 1)
  else if fileVersion = 11 then
    pure ((i : Int) + 1, c + 1)
  else do
    let id ← readUInt16BE buff c
    pure (id, c + 2)

/-- Lines 219-233 and 248-262: the fragment loop; `n` iterations remain, `i` is
the loop counter. -/
def readFragments (fileVersion : Int) (buff : List Nat) :
    Nat → Nat → Nat → List (Option Fragment) → Except Fault (List (Option Fragment) × Nat)
  | 0, _, c, arr => pure (arr, c)
  | n + 1, i, c, arr => do
    let (id, c) ← readFragmentId fileVersion buff i c
    let len ← readInt32BE buff c
    let c := c + 4
    let data ← newBuffer len
    let data ← copy buff data 0 c (c + len.toNat)
    let c := c + len.toNat
    readFragments fileVersion buff n (i + 1) c (setSparse arr id.toNat { id := id, data := data })

/-- Line 177: `high * 4294967296 + low`, the product and the sum each rounded
to a double. -/
def joinGameId (high low : Int) : Int :=
  toDouble (toDouble (high * 4294967296) + low)

/-- Lines 172-178: the game id, one 32-bit value in revision 8 and two halves
otherwise. -/
def readGameId (fileVersion : Int) (buff : List Nat) (c : Nat) : Except Fault (Int × Nat) :=
  if fileVersion = 8 then do
    let gameId ← readUInt32BE buff c
    pure (gameId, c + 4)
  else do
    let high ← readUInt32BE buff c
    let c := c + 4
    let low ← readUInt32BE buff c
    let c := c + 4
    pure (joinGameId high low, c)

/-- The message of the error reported for a revision below 8. -/
def obsoleteFormatMessage : String :=
  "The file is using an old data format"

/-- The message of the error reported for revision 9. -/
def corruptFormatMessage : String :=
  "This file is using a corrupted data format. Please report this to an administrator of aof.gg"

/-- Lines 241-272: the chunk section.  `metadata` is the `replayMetadata` object
as built so far, which still lacks `endGameChunkId`. -/
def loadChunks (fileVersion : Int) (buff : List Nat) (c : Nat)
    (keyframes : List (Option Fragment)) (metadata : Int → ReplayMetadata) :
    Except Fault (Except String (ReplayMetadata × ReplayData) × Nat) := do
  let (num, c) ← readCount fileVersion buff c
  let (chunks, c) ← readFragments fileVersion buff num.toNat 0 c []
  if 0 < chunks.length then
    match chunks.getLast? with
    | some (some last) =>
      pure (.ok (metadata last.id, { keyframes := keyframes, chunks := chunks }), c)
    | _ => .error .typeError
  else
    pure (.error "No chunks", c)

/-- Lines 156-272: the callback arguments (`Except.error msg` for a reported
failure) together with the final value of the read cursor `c`. -/
def loadRun (buff : List Nat) :
    Except Fault (Except String (ReplayMetadata × ReplayData) × Nat) := do
  let c := 0
  let fileVersion ← readUInt8 buff c
  let c := c + 1
  if fileVersion < 8 then
    pure (.error obsoleteFormatMessage, c)
  else if fileVersion = 9 then
    pure (.error corruptFormatMessage, c)
  else
    let regionId ← readUInt8 buff c
    let c := c + 1
    let (gameId, c) ← readGameId fileVersion buff c
    let v0 ← readUInt8 buff c
    let c := c + 1
    let v1 ← readUInt8 buff c
    let c := c + 1
    let v2 ← readUInt8 buff c
    let c := c + 1
    let riotVersion := numberToString v0 ++ "." ++ numberToString v1 ++ "." ++ numberToString v2
    let len ← readUInt8 buff c
    let c := c + 1
    let key := String.mk (base64Encode (slice buff c (c + len.toNat)))
    let c := c + len.toNat
    let complete ← readUInt8 buff c
    let c := c + 1
    let endStartupChunkId ← readUInt8 buff c
    let c := c + 1
    let startGameChunkId ← readUInt8 buff c
    let c := c + 1
    let num ← readUInt8 buff c
    let c := c + 1
    let (players, c) ← readPlayers buff num.toNat c []
    let (num, c) ← readCount fileVersion buff c
    let (keyframes, c) ← readFragments fileVersion buff num.toNat 0 c []
    if keyframes.length = 0 then
      pure (.error "No keyframes", c)
    else
      loadChunks fileVersion buff c keyframes
        (fun endGameChunkId =>
          { fileVersion := fileVersion, regionId := regionId, gameId := gameId,
            riotVersion := riotVersion, key := key, complete := complete,
            endStartupChunkId := endStartupChunkId, startGameChunkId := startGameChunkId,
            players := players, endGameChunkId := endGameChunkId })

/-- The outcome of `load(file, cb)` when the file holds `buff`. -/
def load (buff : List Nat) : LoadOutcome :=
  match loadRun buff with
  | .ok (.ok (metadata, data), _) => .ok metadata data
  | .ok (.error msg, _) => .failed msg
  | .error fault => .thrown fault

/-! ## Statement vocabulary -/

/-- A numeric field that is absent or zero. -/
def AbsentNum (x : Option Int) : Prop :=
  x = none ∨ x = some 0

/-- A text field that is absent or empty. -/
def AbsentStr (x : Option String) : Prop :=
  x = none ∨ x = some ""

instance (x : Option Int) : Decidable (AbsentNum x) := by
  unfold AbsentNum; infer_instance

instance (x : Option String) : Decidable (AbsentStr x) := by
  unfold AbsentStr; infer_instance

/-- The six mandatory fields are all present and non-zero / non-empty. -/
def MandatoryPresent (game : Game) : Prop :=
  ¬ AbsentNum game.regionId ∧ ¬ AbsentNum game.gameId ∧ ¬ AbsentStr game.riotVersion
    ∧ ¬ AbsentStr game.key ∧ ¬ AbsentNum game.endStartupChunkId
    ∧ ¬ AbsentNum game.startGameChunkId

instance (game : Game) : Decidable (MandatoryPresent game) := by
  unfold MandatoryPresent; infer_instance

/-- The populated entries of a sparse collection, in ascending index order. -/
def populated (frags : List (Option Fragment)) : List Fragment :=
  frags.filterMap id

/-- An integer that a JavaScript number holds exactly: it is its own nearest
double. -/
def IsDouble (x : Int) : Prop :=
  toDouble x = x

instance (x : Int) : Decidable (IsDouble x) := by
  unfold IsDouble; infer_instance

/-- The record of the example scenario. -/
def exampleGame : Game :=
  { regionId := some 1, gameId := some 5000000000, riotVersion := some "7.10.154",
    key := some "YWJj", endStartupChunkId := some 1, startGameChunkId := some 1,
    players := some [{ id := 42, name := "Ahri", teamNr := 0, leagueId := 3, leagueRank := 1,
                       championId := 103, spell1Id := 4, spell2Id := 14 }],
    keyframes := some [none, some { id := 1, data := [1, 2, 3] }],
    chunks := some [none, some { id := 1, data := [0, 1, 2, 3, 4, 5, 6, 7, 8, 9] }] }

/-- The bytes `save` produces for `exampleGame`. -/
def exampleBytes : List Nat :=
  [12, 1, 0, 0, 0, 1, 42, 5, 242, 0, 7, 10, 154, 3, 97, 98, 99, 1, 1, 1, 1, 0, 0, 0, 42, 4, 65,
   104, 114, 105, 0, 3, 1, 0, 0, 0, 103, 0, 0, 0, 4, 0, 0, 0, 14, 0, 1, 0, 1, 0, 0, 0, 3, 1, 2, 3,
   0, 1, 0, 1, 0, 0, 0, 10, 0, 1, 2, 3, 4, 5, 6, 7, 8, 9]

/-- A record whose two collections have nominal length 1 and no populated entry. -/
def holesGame : Game :=
  { exampleGame with players := none, keyframes := some [none], chunks := some [none] }

/-- The bytes of `exampleBytes` with the game id field holding the halves 2097152
and 1 of 9007199254740993 (2^53 + 1). -/
def oddIdBytes : List Nat :=
  [12, 1, 0, 32, 0, 0, 0, 0, 0, 1, 7, 10, 154, 3, 97, 98, 99, 1, 1, 1, 1, 0, 0, 0, 42, 4, 65,
   104, 114, 105, 0, 3, 1, 0, 0, 0, 103, 0, 0, 0, 4, 0, 0, 0, 14, 0, 1, 0, 1, 0, 0, 0, 3, 1, 2, 3,
   0, 1, 0, 1, 0, 0, 0, 10, 0, 1, 2, 3, 4, 5, 6, 7, 8, 9]

/-- A buffer whose first bytes `pre` have been written and whose remaining `n`
bytes still hold `fill`. -/
def filled (fill : Nat) (pre : List Nat) (n : Nat) : List Nat :=
  pre ++ List.replicate n fill

/-- Two's complement big-endian bytes of a signed 32-bit value. -/
def int32Bytes (v : Int) : List Nat :=
  be32 (v % 4294967296).toNat

/-- The ranges `save` needs of a player: every field fits the field it is
written to. -/
def PlayerOk (p : Player) : Prop :=
  utf8ByteLength p.name ≤ 255 ∧
  (-2147483648 ≤ p.id ∧ p.id ≤ 2147483647) ∧
  (0 ≤ p.teamNr ∧ p.teamNr ≤ 255) ∧
  (0 ≤ p.leagueId ∧ p.leagueId ≤ 255) ∧
  (0 ≤ p.leagueRank ∧ p.leagueRank ≤ 255) ∧
  (-2147483648 ≤ p.championId ∧ p.championId ≤ 2147483647) ∧
  (-2147483648 ≤ p.spell1Id ∧ p.spell1Id ≤ 2147483647) ∧
  (-2147483648 ≤ p.spell2Id ∧ p.spell2Id ≤ 2147483647)

instance (p : Player) : Decidable (PlayerOk p) := by
  unfold PlayerOk; infer_instance

/-- The bytes of one player in the layout. -/
def playerBytes (p : Player) : List Nat :=
  int32Bytes p.id ++ [utf8ByteLength p.name] ++ utf8Encode p.name.toList
    ++ [p.teamNr.toNat, p.leagueId.toNat, p.leagueRank.toNat]
    ++ int32Bytes p.championId ++ int32Bytes p.spell1Id ++ int32Bytes p.spell2Id

/-- The ranges `save` needs of a fragment. -/
def FragmentOk (f : Fragment) : Prop :=
  (0 ≤ f.id ∧ f.id ≤ 65535) ∧ f.data.length ≤ 2147483647

/-- The bytes of one fragment in the revision-12 layout. -/
def fragmentBytes (f : Fragment) : List Nat :=
  be16 f.id.toNat ++ be32 f.data.length ++ f.data

/-- The total number of data bytes of a list of fragments. -/
def dataLengthSum (fs : List Fragment) : Nat :=
  (fs.map fun f => f.data.length).sum

/-- The byte a string (or absent) argument of `writeUInt8` is stored as. -/
def coercedByte (value : Option (List Char)) : Nat :=
  (coerceNumber value).toUint8

/-- The number the argument is coerced to passes the range check of
`writeUInt8`: it is NaN or lies in `0 .. 255`. -/
def CoercedOk (value : Option (List Char)) : Prop :=
  (coerceNumber value).outOfByteRange = false

instance (value : Option (List Char)) : Decidable (CoercedOk value) := by
  unfold CoercedOk; infer_instance

/-- The key field of the buffer after `buff.write(key, c, keyLen, 'base64')` on
a part of the buffer that has not been written yet: the decoded bytes (at most
`keyLen` of them), then the bytes of the field the write did not reach, which
hold `fill`. -/
def keyField (fill : Nat) (s : List Char) : List Nat :=
  (base64Decode s).take (base64ByteLength s)
    ++ List.replicate (base64ByteLength s - ((base64Decode s).take (base64ByteLength s)).length)
      fill

/-- The completeness byte: 1 when the number of populated entries is the nominal
length minus one in both collections, else 0. -/
def completeByte (keyframes chunks : List (Option Fragment)) : Nat :=
  if ((populated keyframes).length : Int) = (keyframes.length : Int) - 1
      ∧ ((populated chunks).length : Int) = (chunks.length : Int) - 1 then 1 else 0

/-- The revision-12 layout, field by field. -/
def revision12Layout (regionId high low v0 v1 v2 : Nat) (keyBytes : List Nat)
    (complete endStartupChunkId startGameChunkId : Nat) (players : List Player)
    (keyframes chunks : List Fragment) : List Nat :=
  [12, regionId] ++ be32 high ++ be32 low ++ [v0, v1, v2]
    ++ [keyBytes.length] ++ keyBytes
    ++ [complete, endStartupChunkId, startGameChunkId]
    ++ [players.length] ++ players.flatMap playerBytes
    ++ be16 keyframes.length ++ keyframes.flatMap fragmentBytes
    ++ be16 chunks.length ++ chunks.flatMap fragmentBytes

/-- The bytes `save` produces for a record, as a layout. -/
def encodedLayout (regionId gameId : Int) (riotVersion : String) (keyBytes : List Nat)
    (endStartupChunkId startGameChunkId : Int) (players : List Player)
    (keyframes chunks : List (Option Fragment)) : List Nat :=
  revision12Layout regionId.toNat (gameIdHigh gameId).toNat (gameIdLow gameId).toNat
    (coercedByte ((splitDot riotVersion.toList).get? 0))
    (coercedByte ((splitDot riotVersion.toList).get? 1))
    (coercedByte ((splitDot riotVersion.toList).get? 2))
    keyBytes (completeByte keyframes chunks) endStartupChunkId.toNat startGameChunkId.toNat
    players (populated keyframes) (populated chunks)

/-- Every value `save` writes fits the field it is written to. -/
structure EncodeOk (regionId gameId : Int) (riotVersion key : String) (keyBytes : List Nat)
    (endStartupChunkId startGameChunkId : Int) (players : List Player)
    (keyframes chunks : List (Option Fragment)) : Prop where
  regionId : 0 ≤ regionId ∧ regionId ≤ 255
  gameId : (0 ≤ gameIdHigh gameId ∧ gameIdHigh gameId ≤ 4294967295)
    ∧ (0 ≤ gameIdLow gameId ∧ gameIdLow gameId ≤ 4294967295)
  v0 : CoercedOk ((splitDot riotVersion.toList).get? 0)
  v1 : CoercedOk ((splitDot riotVersion.toList).get? 1)
  v2 : CoercedOk ((splitDot riotVersion.toList).get? 2)
  key : keyField 0 key.toList = keyBytes
  keyLen : keyBytes.length ≤ 255
  endStartup : 0 ≤ endStartupChunkId ∧ endStartupChunkId ≤ 255
  startGame : 0 ≤ startGameChunkId ∧ startGameChunkId ≤ 255
  playerCount : players.length ≤ 255
  players : ∀ p ∈ players, PlayerOk p
  keyframeCount : (populated keyframes).length ≤ 65535
  chunkCount : (populated chunks).length ≤ 65535
  keyframes : ∀ f ∈ populated keyframes, FragmentOk f
  chunks : ∀ f ∈ populated chunks, FragmentOk f

/-- What `save` needs to reach `fs.writeFile`, and the bytes it then hands over. -/
structure Encodable (game : Game) (buff : List Nat) : Prop where
  mandatory : MandatoryPresent game
  fields : ∃ regionId gameId riotVersion key endStartupChunkId startGameChunkId keyframes
      chunks keyBytes,
    game.regionId = some regionId ∧ game.gameId = some gameId ∧
    game.riotVersion = some riotVersion ∧ game.key = some key ∧
    game.endStartupChunkId = some endStartupChunkId ∧
    game.startGameChunkId = some startGameChunkId ∧
    game.keyframes = some keyframes ∧ keyframes ≠ [] ∧
    game.chunks = some chunks ∧ chunks ≠ [] ∧
    EncodeOk regionId gameId riotVersion key keyBytes endStartupChunkId startGameChunkId
      (game.players.getD []) keyframes chunks ∧
    buff = encodedLayout regionId gameId riotVersion keyBytes endStartupChunkId
      startGameChunkId (game.players.getD []) keyframes chunks

/-- The record of the example scenario with `endStartupChunkId` 2 and no roster. -/
def offsetGame : Game :=
  { exampleGame with endStartupChunkId := some 2, players := none }

/-- The record of the example scenario with a key that holds blanks and a
version whose second component is not a numeral. -/
def spacedKeyGame : Game :=
  { exampleGame with riotVersion := some "7.x.1", key := some "Y W J j" }

/-- The bytes `save` produces for `spacedKeyGame`. -/
def spacedKeyBytes : List Nat :=
  [12, 1, 0, 0, 0, 1, 42, 5, 242, 0, 7, 0, 1, 5, 97, 98, 99, 0, 0, 1, 1, 1, 1, 0, 0, 0, 42, 4,
   65, 104, 114, 105, 0, 3, 1, 0, 0, 0, 103, 0, 0, 0, 4, 0, 0, 0, 14, 0, 1, 0, 1, 0, 0, 0, 3, 1,
   2, 3, 0, 1, 0, 1, 0, 0, 0, 10, 0, 1, 2, 3, 4, 5, 6, 7, 8, 9]

/-- The bytes `save` produces for `holesGame`. -/
def holesBytes : List Nat :=
  [12, 1, 0, 0, 0, 1, 42, 5, 242, 0, 7, 10, 154, 3, 97, 98, 99, 1, 1, 1, 0, 0, 0, 0, 0]

/-- The id `load` gives the fragment read in iteration `i` whose id field holds
the bytes `idField`: the byte itself below revision 11, the position plus one
in revision 11, the big-endian 2-byte value from revision 12 on. -/
def fragmentIdOf (fileVersion : Int) (i : Nat) (idField : List Nat) : Int :=
  if fileVersion < 11 then ((idField.headD 0 : Nat) : Int)
  else if fileVersion = 11 then (i : Int) + 1
  else ((idField.headD 0 * 256 + idField.tail.headD 0 : Nat) : Int)

/-- The width of the id field of a fragment. -/
def idFieldWidth (fileVersion : Int) : Nat :=
  if fileVersion < 12 then 1 else 2

/-- A fragment in a stream: the bytes of its id field, its data length as a
signed 32-bit value and its data. -/
def itemBytes (item : List Nat × List Nat) : List Nat :=
  item.1 ++ be32 item.2.length ++ item.2

/-- The sparse collection obtained by storing the fragments of a stream in
order, each at the index equal to its id, starting with iteration `i`. -/
def storeItems (fileVersion : Int) :
    Nat → List (List Nat × List Nat) → List (Option Fragment) → List (Option Fragment)
  | _, [], arr => arr
  | i, item :: rest, arr =>
    storeItems fileVersion (i + 1) rest
      (setSparse arr (fragmentIdOf fileVersion i item.1).toNat
        { id := fragmentIdOf fileVersion i item.1, data := item.2 })

/-- The game id field of a stream: one 32-bit value in revision 8, the high and
the low half otherwise. -/
def gameIdField (fileVersion : Nat) (gameId : Nat) : List Nat :=
  if fileVersion = 8 then be32 gameId
  else be32 (gameId / 4294967296) ++ be32 (gameId % 4294967296)

/-- The count field of a fragment section: 1 byte below revision 11, else 2. -/
def countField (fileVersion : Nat) (n : Nat) : List Nat :=
  if fileVersion < 11 then [n] else be16 n

/-- A replay file of revision `fileVersion`, field by field; each fragment is
given by the bytes of its id field and its data. -/
def replayStream (fileVersion regionId gameId v0 v1 v2 : Nat) (keyBytes : List Nat)
    (complete endStartupChunkId startGameChunkId : Nat) (players : List Player)
    (keyframes chunks : List (List Nat × List Nat)) : List Nat :=
  [fileVersion, regionId] ++ gameIdField fileVersion gameId ++ [v0, v1, v2]
    ++ [keyBytes.length] ++ keyBytes
    ++ [complete, endStartupChunkId, startGameChunkId]
    ++ [players.length] ++ players.flatMap playerBytes
    ++ countField fileVersion keyframes.length ++ keyframes.flatMap itemBytes
    ++ countField fileVersion chunks.length ++ chunks.flatMap itemBytes

/-- The fields of a stream are such that `load` reads them back: the revision is
accepted, the game id and the counts fit their fields, the players are in
range, and every fragment has an id field of the width of the revision and
fewer than `2^31` data bytes. -/
structure StreamOk (fileVersion gameId : Nat) (players : List Player)
    (keyframes chunks : List (List Nat × List Nat)) : Prop where
  revision : 8 ≤ fileVersion ∧ fileVersion ≠ 9
  gameId : gameId < (if fileVersion = 8 then 4294967296 else 18446744073709551616)
  players : ∀ p ∈ players, PlayerOk p
  keyframeCount : keyframes.length < 65536
  chunkCount : chunks.length < 65536
  keyframes : ∀ it ∈ keyframes,
    it.1.length = idFieldWidth (fileVersion : Int) ∧ it.2.length ≤ 2147483647
  chunks : ∀ it ∈ chunks,
    it.1.length = idFieldWidth (fileVersion : Int) ∧ it.2.length ≤ 2147483647

/-- The game id `load` returns for the value held by the game id field: the value
itself in revision 8 and, from revision 10 on, the double nearest to the 64-bit
value of the two halves. -/
def decodedGameId (fileVersion gameId : Nat) : Int :=
  if fileVersion = 8 then (gameId : Int) else toDouble (gameId : Int)

/-- A sparse collection whose last entry is populated. -/
def LastSome (arr : List (Option Fragment)) : Prop :=
  ∃ last, arr.getLast? = some (some last)

/-- The dotted version text `load` builds from three bytes. -/
def versionText (v0 v1 v2 : Nat) : String :=
  numberToString (v0 : Int) ++ "." ++ numberToString (v1 : Int) ++ "." ++ numberToString (v2 : Int)

/-- A replay file up to the end of its keyframe section. -/
def streamHead (fileVersion regionId gameId v0 v1 v2 : Nat) (keyBytes : List Nat)
    (complete endStartupChunkId startGameChunkId : Nat) (players : List Player)
    (keyframes : List (List Nat × List Nat)) : List Nat :=
  [fileVersion, regionId] ++ gameIdField fileVersion gameId ++ [v0, v1, v2]
    ++ [keyBytes.length] ++ keyBytes
    ++ [complete, endStartupChunkId, startGameChunkId]
    ++ [players.length] ++ players.flatMap playerBytes
    ++ countField fileVersion keyframes.length ++ keyframes.flatMap itemBytes

/-- The metadata `load` has built when it reaches the chunk section of a stream. -/
def streamMetadata (fileVersion regionId gameId v0 v1 v2 : Nat) (keyBytes : List Nat)
    (complete endStartupChunkId startGameChunkId : Nat) (players : List Player)
    (endGameChunkId : Int) : ReplayMetadata :=
  { fileVersion := (fileVersion : Int), regionId := (regionId : Int),
    gameId := decodedGameId fileVersion gameId,
    riotVersion := versionText v0 v1 v2, key := String.mk (base64Encode keyBytes),
    complete := (complete : Int), endStartupChunkId := (endStartupChunkId : Int),
    startGameChunkId := (startGameChunkId : Int), players := players,
    endGameChunkId := endGameChunkId }

/-- The stream form of a fragment written by `save`: a 2-byte id field and the
data. -/
def fragmentItem (f : Fragment) : List Nat × List Nat :=
  (be16 f.id.toNat, f.data)

/-- The conditions on a replay record under which it survives `save` followed by
`load`; the named values are the fields of the record. -/
structure RoundTripInput (R : Game) (regionId gameId : Int) (a b c : Nat) (key : String)
    (keyBytes : List Nat) (endStartupChunkId startGameChunkId : Int)
    (keyframes chunks : List (Option Fragment)) : Prop where
  regionId : R.regionId = some regionId ∧ 1 ≤ regionId ∧ regionId ≤ 255
  gameId : R.gameId = some gameId ∧ 1 ≤ gameId ∧ gameId ≤ 18446744073709551615
    ∧ IsDouble gameId
  riotVersion : R.riotVersion = some (versionText a b c) ∧ a ≤ 255 ∧ b ≤ 255 ∧ c ≤ 255
  key : R.key = some key ∧ key ≠ "" ∧ base64Decode key.toList = keyBytes
    ∧ base64Encode keyBytes = key.toList ∧ keyBytes.length ≤ 255
  endStartup : R.endStartupChunkId = some endStartupChunkId
    ∧ 1 ≤ endStartupChunkId ∧ endStartupChunkId ≤ 255
  startGame : R.startGameChunkId = some startGameChunkId
    ∧ 1 ≤ startGameChunkId ∧ startGameChunkId ≤ 255
  players : (R.players.getD []).length ≤ 255 ∧ ∀ p ∈ R.players.getD [], PlayerOk p
  keyframes : R.keyframes = some keyframes ∧ populated keyframes ≠ [] ∧
    ∀ (j : Nat) f, keyframes[j]? = some (some f) →
      f.id = (j : Int) ∧ 1 ≤ f.id ∧ f.id ≤ 65535
  chunks : R.chunks = some chunks ∧ populated chunks ≠ [] ∧
    ∀ (j : Nat) f, chunks[j]? = some (some f) →
      f.id = (j : Int) ∧ 1 ≤ f.id ∧ f.id ≤ 65535

/-- Every populated fragment carries at most `2^31 - 1` data bytes, the largest
length the signed 32-bit length field can hold. -/
def DataFits (keyframes chunks : List (Option Fragment)) : Prop :=
  (∀ f ∈ populated keyframes, f.data.length ≤ 2147483647) ∧
  (∀ f ∈ populated chunks, f.data.length ≤ 2147483647)

/-- The data of a keyframe of `2^31` bytes. -/
def oversizedData : List Nat :=
  List.replicate 2147483648 0

/-- The record of the example scenario with a keyframe of `2^31` data bytes. -/
def oversizedGame : Game :=
  { exampleGame with keyframes := some [none, some { id := 1, data := oversizedData }] }

/-- The entries `load` builds for a revision-11 fragment section from the data
blobs alone: the blob read in iteration `i + j` gets the id `i + j + 1`. -/
def positional : List (List Nat) → Nat → List (Option Fragment)
  | [], _ => []
  | d :: ds, i => some { id := (i : Int) + 1, data := d } :: positional ds (i + 1)

/-- The sparse collection obtained by storing each fragment at the index equal
to its id, in order. -/
def storeFragments (fs : List Fragment) (arr : List (Option Fragment)) : List (Option Fragment) :=
  fs.foldl (fun a f => setSparse a f.id.toNat f) arr

/-- A 43-byte revision-12 buffer whose only chunk declares 10 data bytes at offset
36 while 3 bytes follow. -/
def truncatedBytes : List Nat :=
  [12, 1, 0, 0, 0, 1, 42, 5, 242, 0, 7, 10, 154, 3, 97, 98, 99, 1, 1, 1, 0, 0, 1, 0, 1, 0, 0, 0,
   3, 1, 2, 3, 0, 1, 0, 1, 0, 0, 0, 10, 7, 8, 9]

/-- The fragment `last` was stored by the final iteration of a fragment loop that
ended with the cursor at `c`: its data are the bytes the buffer holds from the
start of the data, followed by as many zero bytes as the cursor overshoots the
buffer. -/
def StoredLast (buff : List Nat) (arr : List (Option Fragment)) (c : Nat) (last : Fragment) :
    Prop :=
  (∃ before, arr = setSparse before last.id.toNat last) ∧
  c ≤ buff.length + last.data.length ∧
  last.data = (buff.drop (c - last.data.length)).take last.data.length
    ++ List.replicate (c - buff.length) 0

/-- The messages `load` reports through the callback. -/
def loadMessages : List String :=
  [obsoleteFormatMessage, corruptFormatMessage, "No keyframes", "No chunks"]

/-- Every populated entry of a sparse collection sits at the index equal to its id. -/
def IndexedById (arr : List (Option Fragment)) : Prop :=
  ∀ (i : Nat) (f : Fragment), arr[i]? = some (some f) → f.id = (i : Int)

/-- What a successful decode of `buff` went through: the accepted revision byte and,
from some cursor `cK` on, the keyframe count, the keyframe loop, the chunk count and
the chunk loop, which left the cursor at `c`. -/
structure Decoded (buff : List Nat) (md : ReplayMetadata) (rd : ReplayData) (c : Nat) :
    Prop where
  revision : ∃ b rest, buff = b :: rest ∧ md.fileVersion = (b : Int) ∧ 8 ≤ b ∧ b ≠ 9
  sections : ∃ (cK : Nat) (numK : Int) (c1 c2 : Nat) (numC : Int) (c3 : Nat),
    readCount md.fileVersion buff cK = .ok (numK, c1) ∧
    readFragments md.fileVersion buff numK.toNat 0 c1 [] = .ok (rd.keyframes, c2) ∧
    readCount md.fileVersion buff c2 = .ok (numC, c3) ∧
    readFragments md.fileVersion buff numC.toNat 0 c3 [] = .ok (rd.chunks, c)
  keyframes : rd.keyframes ≠ []
  lastChunk : ∃ last, rd.chunks.getLast? = some (some last) ∧ md.endGameChunkId = last.id

/-- The record of the example scenario with a gap at index 1 of the keyframes. -/
def gapGame : Game :=
  { exampleGame with
    keyframes := some [none, none, some { id := 2, data := [1, 2, 3] }] }

/-- The bytes `save` produces for `gapGame`. -/
def gapBytes : List Nat :=
  [12, 1, 0, 0, 0, 1, 42, 5, 242, 0, 7, 10, 154, 3, 97, 98, 99, 0, 1, 1, 1, 0, 0, 0, 42, 4, 65,
   104, 114, 105, 0, 3, 1, 0, 0, 0, 103, 0, 0, 0, 4, 0, 0, 0, 14, 0, 1, 0, 2, 0, 0, 0, 3, 1, 2, 3,
   0, 1, 0, 1, 0, 0, 0, 10, 0, 1, 2, 3, 4, 5, 6, 7, 8, 9]

/-- The bytes `save` produces for the example record with an empty roster. -/
def emptyRosterBytes : List Nat :=
  [12, 1, 0, 0, 0, 1, 42, 5, 242, 0, 7, 10, 154, 3, 97, 98, 99, 1, 1, 1, 0, 0, 1, 0, 1, 0,
   0, 0, 3, 1, 2, 3, 0, 1, 0, 1, 0, 0, 0, 10, 0, 1, 2, 3, 4, 5, 6, 7, 8, 9]

/-- The ids `load` reads from (or, in revision 11, makes up for) the fragments of a
stream section, in stream order, starting with iteration `i`. -/
def streamIds (fileVersion : Int) : Nat → List (List Nat × List Nat) → List Int
  | _, [] => []
  | i, item :: rest => fragmentIdOf fileVersion i item.1 :: streamIds fileVersion (i + 1) rest

/-- The metadata `load` returns for `exampleBytes`. -/
def exampleMetadata : ReplayMetadata :=
  { fileVersion := 12, regionId := 1, gameId := 5000000000, riotVersion := "7.10.154",
    key := "YWJj", complete := 1, endStartupChunkId := 1, startGameChunkId := 1,
    players := [{ id := 42, name := "Ahri", teamNr := 0, leagueId := 3, leagueRank := 1,
                  championId := 103, spell1Id := 4, spell2Id := 14 }],
    endGameChunkId := 1 }

/-- The data `load` returns for `exampleBytes`. -/
def exampleData : ReplayData :=
  { keyframes := [none, some { id := 1, data := [1, 2, 3] }],
    chunks := [none, some { id := 1, data := [0, 1, 2, 3, 4, 5, 6, 7, 8, 9] }] }

/-- The stream form of a fragment below revision 11: a 1-byte id field and the
data. -/
def legacyItem (f : Fragment) : List Nat × List Nat :=
  ([f.id.toNat], f.data)

/-- The bytes of one fragment below revision 11: the id byte, the data length as a
signed 32-bit value, the data. -/
def legacyBytes (f : Fragment) : List Nat :=
  [f.id.toNat] ++ be32 f.data.length ++ f.data

/-- The bytes of `exampleBytes` with the revision byte 13 in place of 12. -/
def revision13Bytes : List Nat :=
  [13, 1, 0, 0, 0, 1, 42, 5, 242, 0, 7, 10, 154, 3, 97, 98, 99, 1, 1, 1, 1, 0, 0, 0, 42, 4, 65,
   104, 114, 105, 0, 3, 1, 0, 0, 0, 103, 0, 0, 0, 4, 0, 0, 0, 14, 0, 1, 0, 1, 0, 0, 0, 3, 1, 2, 3,
   0, 1, 0, 1, 0, 0, 0, 10, 0, 1, 2, 3, 4, 5, 6, 7, 8, 9]

/-- The outcome with the `fileVersion` of the metadata replaced, if there is one. -/
def withFileVersion (v : Int) : LoadOutcome → LoadOutcome
  | .ok md rd => .ok { md with fileVersion := v } rd
  | o => o

/-! ## Theorems -/

theorem falsyNum_iff (x : Option Int) : falsyNum x = true ↔ AbsentNum x := by
  cases x with
  | none => simp [falsyNum, AbsentNum]
  | some v => simp [falsyNum, AbsentNum]

theorem falsyStr_iff (x : Option String) : falsyStr x = true ↔ AbsentStr x := by
  cases x with
  | none => simp [falsyStr, AbsentStr]
  | some v => simp [falsyStr, AbsentStr]

theorem validationError_eq_empty_iff (game : Game) :
    validationError game = "" ↔ MandatoryPresent game := by
  unfold validationError MandatoryPresent
  simp only [← falsyNum_iff, ← falsyStr_iff]
  cases falsyNum game.regionId <;> cases falsyNum game.gameId <;>
    cases falsyStr game.riotVersion <;> cases falsyStr game.key <;>
    cases falsyNum game.endStartupChunkId <;> cases falsyNum game.startGameChunkId <;> decide

theorem log2Aux_eq (fuel : Nat) : ∀ n, n ≤ fuel → log2Aux fuel n = Nat.log2 n := by
  induction fuel with
  | zero =>
    intro n h
    have h0 : n = 0 := by omega
    subst h0
    rw [log2Aux, Nat.log2]
    rfl
  | succ f ih =>
    intro n h
    rw [log2Aux, Nat.log2]
    by_cases h2 : n < 2
    · rw [if_pos h2, if_neg (by omega)]
    · rw [if_neg h2, if_pos (by omega), ih (n / 2) (by omega)]

theorem log2_eq (n : Nat) : log2 n = Nat.log2 n :=
  log2Aux_eq n n (le_refl n)

theorem log2_le (n : Nat) (h : n ≠ 0) : 2 ^ log2 n ≤ n := by
  rw [log2_eq]
  exact Nat.log2_self_le h

theorem lt_log2 (n : Nat) : n < 2 ^ (log2 n + 1) := by
  rw [log2_eq]
  exact Nat.lt_log2_self

theorem log2_lt_of_lt (n k : Nat) (h : n < 2 ^ k) (hk : 0 < k) : log2 n < k := by
  rw [log2_eq]
  by_cases h0 : n = 0
  · subst h0
    have : Nat.log2 0 = 0 := by rw [Nat.log2]; rfl
    omega
  · exact (Nat.log2_lt h0).2 h

theorem roundHalfEven_of_dvd (a b : Nat) (hb : 0 < b) (h : b ∣ a) : roundHalfEven a b = a / b := by
  unfold roundHalfEven
  have hr : a % b = 0 := Nat.mod_eq_zero_of_dvd h
  simp only [hr, Nat.mul_zero]
  rw [if_pos hb]

theorem toDouble_natCast (n : Nat) :
    toDouble (n : Int) = ((roundHalfEven n (2 ^ (log2 n - 52)) * 2 ^ (log2 n - 52) : Nat) : Int) := by
  unfold toDouble
  simp only [Int.natAbs_ofNat]
  rw [if_neg (by omega)]

theorem toDouble_of_dvd (n : Nat) (h : 2 ^ (log2 n - 52) ∣ n) : toDouble (n : Int) = (n : Int) := by
  rw [toDouble_natCast, roundHalfEven_of_dvd _ _ (Nat.pos_pow_of_pos _ (by decide)) h,
    Nat.div_mul_cancel h]

theorem toDouble_small (n : Nat) (h : n < 9007199254740992) : toDouble (n : Int) = (n : Int) := by
  apply toDouble_of_dvd
  have := log2_lt_of_lt n 53 (by norm_num; exact h) (by decide)
  have hs : log2 n - 52 = 0 := by omega
  rw [hs]
  simp

theorem dvd_of_isDouble (n : Nat) (h : IsDouble (n : Int)) : 2 ^ (log2 n - 52) ∣ n := by
  unfold IsDouble at h
  rw [toDouble_natCast] at h
  have h' : roundHalfEven n (2 ^ (log2 n - 52)) * 2 ^ (log2 n - 52) = n := by exact_mod_cast h
  exact Dvd.intro_left _ h'

theorem toDouble_shift (a k : Nat) (h : a < 9007199254740992) : toDouble ((a * 2 ^ k : Nat) : Int)
    = ((a * 2 ^ k : Nat) : Int) := by
  apply toDouble_of_dvd
  by_cases ha : a = 0
  · subst ha
    simp
  have hlt : a * 2 ^ k < 2 ^ (53 + k) := by
    rw [pow_add]
    exact Nat.mul_lt_mul_of_pos_right (by norm_num; exact h) (Nat.pos_pow_of_pos _ (by decide))
  have hl := log2_lt_of_lt _ _ hlt (by omega)
  have hle : log2 (a * 2 ^ k) - 52 ≤ k := by omega
  exact Dvd.dvd.mul_left (pow_dvd_pow 2 hle) a

theorem joinGameId_halves (g : Nat) (h : g < 18446744073709551616) :
    joinGameId ((g / 4294967296 : Nat) : Int) ((g % 4294967296 : Nat) : Int)
      = toDouble (g : Int) := by
  unfold joinGameId
  have hq : g / 4294967296 < 9007199254740992 := by omega
  have h1 : ((g / 4294967296 : Nat) : Int) * 4294967296
      = ((g / 4294967296 * 2 ^ 32 : Nat) : Int) := by
    push_cast; norm_num
  have h2 : (2 : Nat) ^ 32 = 4294967296 := by norm_num
  have h3 : ((g / 4294967296 * 2 ^ 32 : Nat) : Int) + ((g % 4294967296 : Nat) : Int)
      = (g : Int) := by
    rw [h2]
    have := Nat.div_add_mod g 4294967296
    omega
  rw [h1, toDouble_shift _ 32 hq, h3]

theorem log2_two_pow_32 : log2 4294967296 = 32 := by decide

theorem floorLog2_two_pow_32 (g : Nat) (h0 : g ≠ 0) :
    floorLog2 g 4294967296 = (log2 g : Int) - 32 := by
  unfold floorLog2
  rw [log2_two_pow_32]
  have hle := log2_le g h0
  simp only [Nat.cast_ofNat]
  rw [if_pos]
  by_cases h : 32 ≤ log2 g
  · have e1 : ((log2 g : Int) - 32).toNat = log2 g - 32 := by omega
    have e2 : (-((log2 g : Int) - 32)).toNat = 0 := by omega
    rw [e1, e2, pow_zero, Nat.mul_one]
    have e3 : 4294967296 * 2 ^ (log2 g - 32) = 2 ^ log2 g := by
      have : (4294967296 : Nat) = 2 ^ 32 := by norm_num
      rw [this, ← pow_add]
      congr 1
      omega
    rw [e3]
    exact hle
  · have e1 : ((log2 g : Int) - 32).toNat = 0 := by omega
    have e2 : (-((log2 g : Int) - 32)).toNat = 32 - log2 g := by omega
    rw [e1, e2, pow_zero, Nat.mul_one]
    have e3 : (4294967296 : Nat) = 2 ^ log2 g * 2 ^ (32 - log2 g) := by
      have : (4294967296 : Nat) = 2 ^ 32 := by norm_num
      rw [this, ← pow_add]
      congr 1
      omega
    rw [e3]
    exact Nat.mul_le_mul_right _ hle

theorem roundRatio_two_pow_32 (g : Nat) (h0 : g ≠ 0) (h : g < 18446744073709551616)
    (hd : IsDouble (g : Int)) :
    roundRatio g 4294967296
      = (g * 2 ^ (84 - log2 g) / 4294967296, (log2 g : Int) - 84) := by
  have hl : log2 g < 64 := log2_lt_of_lt g 64 (by norm_num; exact h) (by decide)
  unfold roundRatio
  rw [if_neg h0, floorLog2_two_pow_32 g h0]
  have hp : max ((log2 g : Int) - 32 - 52) (-1074) = (log2 g : Int) - 84 := by
    rw [max_eq_left (by omega)]
    omega
  simp only [hp]
  have e1 : ((log2 g : Int) - 84).toNat = 0 := by omega
  have e2 : (-((log2 g : Int) - 84)).toNat = 84 - log2 g := by omega
  rw [e1, e2, pow_zero, Nat.mul_one]
  have hdvd : 4294967296 ∣ g * 2 ^ (84 - log2 g) := by
    have h32 : (4294967296 : Nat) = 2 ^ 32 := by norm_num
    rw [h32]
    by_cases hs : log2 g ≤ 52
    · exact Dvd.dvd.mul_left (pow_dvd_pow 2 (by omega)) g
    · obtain ⟨q, hq⟩ := dvd_of_isDouble g hd
      have e : g * 2 ^ (84 - log2 g) = 2 ^ 32 * q := by
        have e3 : (2 : Nat) ^ 32 = 2 ^ (log2 g - 52) * 2 ^ (84 - log2 g) := by
          rw [← pow_add]
          congr 1
          omega
        rw [e3]
        have e4 : ∀ a b : Nat, g = 2 ^ a * q → g * 2 ^ b = 2 ^ a * 2 ^ b * q := by
          intro a b hg
          rw [hg]
          ring
        exact e4 _ _ hq
      rw [e]
      exact Dvd.intro _ rfl
  rw [roundHalfEven_of_dvd _ _ (by decide) hdvd]

theorem gameIdHigh_of_double (g : Nat) (h : g < 18446744073709551616)
    (hd : IsDouble (g : Int)) : gameIdHigh (g : Int) = ((g / 4294967296 : Nat) : Int) := by
  unfold gameIdHigh floorQuotient
  simp only [Int.natAbs_ofNat]
  by_cases h0 : g = 0
  · subst h0
    rfl
  have hl : log2 g < 64 := log2_lt_of_lt g 64 (by norm_num; exact h) (by decide)
  rw [roundRatio_two_pow_32 g h0 h hd]
  simp only []
  rw [if_neg (by omega)]
  have e1 : ((log2 g : Int) - 84).toNat = 0 := by omega
  have e2 : (-((log2 g : Int) - 84)).toNat = 84 - log2 g := by omega
  rw [e1, e2, pow_zero, Int.mul_one]
  have e3 : ((2 : Int) ^ (84 - log2 g)) = (((2 : Nat) ^ (84 - log2 g) : Nat) : Int) := by
    push_cast; rfl
  rw [e3, ← Int.ofNat_ediv, Nat.div_div_eq_div_mul,
    Nat.mul_div_mul_right _ _ (Nat.pos_pow_of_pos _ (by decide))]

theorem gameIdLow_of_double (g : Nat) (h : g < 18446744073709551616)
    (hd : IsDouble (g : Int)) : gameIdLow (g : Int) = ((g % 4294967296 : Nat) : Int) := by
  unfold gameIdLow
  rw [gameIdHigh_of_double g h hd]
  have hq : g / 4294967296 < 9007199254740992 := by omega
  have h2 : (2 : Nat) ^ 32 = 4294967296 := by norm_num
  have h1 : ((g / 4294967296 : Nat) : Int) * 4294967296
      = ((g / 4294967296 * 2 ^ 32 : Nat) : Int) := by
    push_cast; norm_num
  have h3 : (g : Int) - ((g / 4294967296 * 2 ^ 32 : Nat) : Int)
      = ((g % 4294967296 : Nat) : Int) := by
    rw [h2]
    have := Nat.div_add_mod g 4294967296
    omega
  rw [h1, toDouble_shift _ 32 hq, h3, toDouble_small _ (by omega)]

@[simp] theorem defaultPlayers_regionId (game : Game) :
    (defaultPlayers game).regionId = game.regionId := by
  unfold defaultPlayers; split <;> rfl

@[simp] theorem defaultPlayers_gameId (game : Game) :
    (defaultPlayers game).gameId = game.gameId := by
  unfold defaultPlayers; split <;> rfl

@[simp] theorem defaultPlayers_riotVersion (game : Game) :
    (defaultPlayers game).riotVersion = game.riotVersion := by
  unfold defaultPlayers; split <;> rfl

@[simp] theorem defaultPlayers_key (game : Game) :
    (defaultPlayers game).key = game.key := by
  unfold defaultPlayers; split <;> rfl

@[simp] theorem defaultPlayers_endStartupChunkId (game : Game) :
    (defaultPlayers game).endStartupChunkId = game.endStartupChunkId := by
  unfold defaultPlayers; split <;> rfl

@[simp] theorem defaultPlayers_startGameChunkId (game : Game) :
    (defaultPlayers game).startGameChunkId = game.startGameChunkId := by
  unfold defaultPlayers; split <;> rfl

@[simp] theorem defaultPlayers_keyframes (game : Game) :
    (defaultPlayers game).keyframes = game.keyframes := by
  unfold defaultPlayers; split <;> rfl

@[simp] theorem defaultPlayers_chunks (game : Game) :
    (defaultPlayers game).chunks = game.chunks := by
  unfold defaultPlayers; split <;> rfl

@[simp] theorem defaultPlayers_players (game : Game) :
    (defaultPlayers game).players = some (game.players.getD []) := by
  unfold defaultPlayers
  cases h : game.players <;> simp [h]

theorem saveRun_of_not_mandatory (game : Game) (h : ¬ MandatoryPresent game) :
    saveRun game = (game, .failed (validationError game) []) := by
  have h' : validationError game ≠ "" := fun e => h ((validationError_eq_empty_iff game).1 e)
  simp [saveRun, h']

theorem saveRun_no_keyframes (game : Game) (h : MandatoryPresent game)
    (hk : game.keyframes = none ∨ game.keyframes = some []) :
    saveRun game = (defaultPlayers game, .failed "No keyframes" []) := by
  have hv : validationError game = "" := (validationError_eq_empty_iff game).2 h
  rcases hk with hk | hk <;> simp [saveRun, hv, hk]

theorem saveRun_no_chunks (game : Game) (h : MandatoryPresent game)
    (kfs : List (Option Fragment)) (hk : game.keyframes = some kfs) (hkl : kfs ≠ [])
    (hc : game.chunks = none ∨ game.chunks = some []) :
    saveRun game = (defaultPlayers game, .failed "No chunks" []) := by
  have hv : validationError game = "" := (validationError_eq_empty_iff game).2 h
  rcases hc with hc | hc <;> simp [saveRun, hv, hk, hkl, hc]

theorem saveRun_checked (game : Game) (h : MandatoryPresent game)
    (kfs chs : List (Option Fragment)) (hk : game.keyframes = some kfs) (hkl : kfs ≠ [])
    (hc : game.chunks = some chs) (hcl : chs ≠ []) :
    saveRun game = (defaultPlayers game, saveChecked (defaultPlayers game) (playerWarnings game)) := by
  have hv : validationError game = "" := (validationError_eq_empty_iff game).2 h
  simp [saveRun, hv, hk, hkl, hc, hcl]

theorem validationError_names_missing (game : Game) (h : ¬ MandatoryPresent game) :
    (validationError game = "regionId missing" ∧ AbsentNum game.regionId) ∨
    (validationError game = "gameId missing" ∧ AbsentNum game.gameId) ∨
    (validationError game = "riotVersion missing" ∧ AbsentStr game.riotVersion) ∨
    (validationError game = "encryption key missing" ∧ AbsentStr game.key) ∨
    (validationError game = "endStartupChunkId missing" ∧ AbsentNum game.endStartupChunkId) ∨
    (validationError game = "startGameChunkId missing" ∧ AbsentNum game.startGameChunkId) := by
  revert h
  unfold validationError MandatoryPresent
  simp only [← falsyNum_iff, ← falsyStr_iff]
  cases falsyNum game.regionId <;> cases falsyNum game.gameId <;>
    cases falsyStr game.riotVersion <;> cases falsyStr game.key <;>
    cases falsyNum game.endStartupChunkId <;> cases falsyNum game.startGameChunkId <;> decide

/-- C5: when at least one of the six mandatory fields is absent or zero / empty,
`save` reports a failure whose message names a field that is missing, with an
empty warnings list and nothing written; a record missing only `regionId` fails
with `regionId missing`. -/
theorem save_missing_field (game : Game)
    (h : AbsentNum game.regionId ∨ AbsentNum game.gameId ∨ AbsentStr game.riotVersion
      ∨ AbsentStr game.key ∨ AbsentNum game.endStartupChunkId
      ∨ AbsentNum game.startGameChunkId) :
    (∃ msg, save game = .failed msg [] ∧
      ((msg = "regionId missing" ∧ AbsentNum game.regionId) ∨
       (msg = "gameId missing" ∧ AbsentNum game.gameId) ∨
       (msg = "riotVersion missing" ∧ AbsentStr game.riotVersion) ∨
       (msg = "encryption key missing" ∧ AbsentStr game.key) ∨
       (msg = "endStartupChunkId missing" ∧ AbsentNum game.endStartupChunkId) ∨
       (msg = "startGameChunkId missing" ∧ AbsentNum game.startGameChunkId))) ∧
    ((¬ AbsentNum game.gameId ∧ ¬ AbsentStr game.riotVersion ∧ ¬ AbsentStr game.key
        ∧ ¬ AbsentNum game.endStartupChunkId ∧ ¬ AbsentNum game.startGameChunkId) →
      save game = .failed "regionId missing" []) := by
  have hm : ¬ MandatoryPresent game := by
    unfold MandatoryPresent
    tauto
  have hs : save game = .failed (validationError game) [] := by
    simp [save, saveRun_of_not_mandatory game hm]
  refine ⟨⟨validationError game, hs, validationError_names_missing game hm⟩, ?_⟩
  intro hp
  rw [hs]
  rcases validationError_names_missing game hm with h1 | h1 | h1 | h1 | h1 | h1
  · rw [h1.1]
  all_goals tauto

theorem save_missing_field_witness :
    (∃ msg, save { exampleGame with regionId := none } = .failed msg [] ∧
      ((msg = "regionId missing" ∧ AbsentNum ({ exampleGame with regionId := none } : Game).regionId) ∨
       (msg = "gameId missing" ∧ AbsentNum ({ exampleGame with regionId := none } : Game).gameId) ∨
       (msg = "riotVersion missing"
          ∧ AbsentStr ({ exampleGame with regionId := none } : Game).riotVersion) ∨
       (msg = "encryption key missing"
          ∧ AbsentStr ({ exampleGame with regionId := none } : Game).key) ∨
       (msg = "endStartupChunkId missing"
          ∧ AbsentNum ({ exampleGame with regionId := none } : Game).endStartupChunkId) ∨
       (msg = "startGameChunkId missing"
          ∧ AbsentNum ({ exampleGame with regionId := none } : Game).startGameChunkId))) ∧
    save { exampleGame with regionId := none } = .failed "regionId missing" [] :=
  ⟨(save_missing_field { exampleGame with regionId := none } (Or.inl (Or.inl rfl))).1,
   (save_missing_field { exampleGame with regionId := none } (Or.inl (Or.inl rfl))).2
     (by decide)⟩

/-- C6: with the six mandatory fields present, `save` fails with `No keyframes`
when the keyframe collection is absent or has length 0, and otherwise with
`No chunks` when the chunk collection is absent or has length 0; the warnings
returned are empty in both cases and nothing is written. -/
theorem save_no_fragments (game : Game) (h : MandatoryPresent game) :
    ((game.keyframes = none ∨ ∃ kfs, game.keyframes = some kfs ∧ kfs.length = 0) →
      save game = .failed "No keyframes" []) ∧
    ((∃ kfs, game.keyframes = some kfs ∧ kfs.length ≠ 0) →
      (game.chunks = none ∨ ∃ chs, game.chunks = some chs ∧ chs.length = 0) →
      save game = .failed "No chunks" []) := by
  constructor
  · intro hk
    have hk' : game.keyframes = none ∨ game.keyframes = some [] := by
      rcases hk with hk | ⟨kfs, hk, hl⟩
      · exact Or.inl hk
      · exact Or.inr (by rw [hk, List.length_eq_zero.1 hl])
    simp [save, saveRun_no_keyframes game h hk']
  · rintro ⟨kfs, hk, hl⟩ hc
    have hc' : game.chunks = none ∨ game.chunks = some [] := by
      rcases hc with hc | ⟨chs, hc, hcl⟩
      · exact Or.inl hc
      · exact Or.inr (by rw [hc, List.length_eq_zero.1 hcl])
    have hkl : kfs ≠ [] := fun e => hl (by rw [e]; rfl)
    simp [save, saveRun_no_chunks game h kfs hk hkl hc']

theorem save_no_fragments_witness :
    save { exampleGame with players := some [], keyframes := some [] }
      = .failed "No keyframes" [] ∧
    save { exampleGame with players := some [], chunks := none } = .failed "No chunks" [] :=
  ⟨(save_no_fragments { exampleGame with players := some [], keyframes := some [] }
      (by decide)).1 (Or.inr ⟨[], rfl, rfl⟩),
   (save_no_fragments { exampleGame with players := some [], chunks := none } (by decide)).2
      ⟨_, rfl, by decide⟩ (Or.inl rfl)⟩

theorem loadRun_cons_lt (b : Nat) (rest : List Nat) (h : b < 8) :
    loadRun (b :: rest) = .ok (.error obsoleteFormatMessage, 1) := by
  have h' : ((b : Int) < 8) := by omega
  simp [loadRun, readUInt8, bind, Except.bind, pure, Except.pure, h']

theorem loadRun_cons_nine (rest : List Nat) :
    loadRun (9 :: rest) = .ok (.error corruptFormatMessage, 1) := by
  simp [loadRun, readUInt8, bind, Except.bind, pure, Except.pure]

/-- C3: for every non-empty buffer, `load` reports the obsolete-format error when
the first byte is below 8 and the corrupt-format error when it is 9, whatever the
remaining bytes are; the outcome carries no metadata or data. -/
theorem load_rejects_obsolete_and_corrupt (b : Nat) (rest : List Nat) :
    (b < 8 → load (b :: rest) = .failed "The file is using an old data format") ∧
    (b = 9 → load (b :: rest) = .failed
      "This file is using a corrupted data format. Please report this to an administrator of aof.gg") := by
  constructor
  · intro h
    simp [load, loadRun_cons_lt b rest h, obsoleteFormatMessage]
  · intro h
    subst h
    simp [load, loadRun_cons_nine rest, corruptFormatMessage]

theorem load_rejects_obsolete_and_corrupt_witness :
    load [7, 200, 3] = .failed "The file is using an old data format" ∧
    load [9] = .failed
      "This file is using a corrupted data format. Please report this to an administrator of aof.gg" :=
  ⟨(load_rejects_obsolete_and_corrupt 7 [200, 3]).1 (by decide),
   (load_rejects_obsolete_and_corrupt 9 []).2 rfl⟩

/-- C10, counterexample: the game id 9007199254740993 (2^53 + 1) lies in
`0 .. 2^64 - 1`, its quotient and remainder by 2^32 are 2097152 and 1, and the
decoder's reconstruction `high * 2^32 + low` of these halves is
9007199254740992, not the game id: the sum is rounded to a double, and `load`
returns 9007199254740992 for a buffer that holds these halves.  No JavaScript
number holds this game id (the nearest one is 2^53).  For the game id 2^64 - 1
the quotient computed as `save` computes it is 2^32, which is not the integer
quotient 2^32 - 1 and does not fit an unsigned 32-bit field. -/
theorem gameId_recombination_rounds :
    (0 : Int) ≤ 9007199254740993 ∧ (9007199254740993 : Int) < 2 ^ 64 ∧
    gameIdHigh 9007199254740993 = 2097152 ∧ gameIdLow 9007199254740993 = 1 ∧
    (9007199254740993 : Int) / 2 ^ 32 = 2097152 ∧ (9007199254740993 : Int) % 2 ^ 32 = 1 ∧
    joinGameId 2097152 1 = 9007199254740992 ∧
    joinGameId (gameIdHigh 9007199254740993) (gameIdLow 9007199254740993)
      ≠ 9007199254740993 ∧
    load oddIdBytes = .ok
      { fileVersion := 12, regionId := 1, gameId := 9007199254740992, riotVersion := "7.10.154",
        key := "YWJj", complete := 1, endStartupChunkId := 1, startGameChunkId := 1,
        players := [{ id := 42, name := "Ahri", teamNr := 0, leagueId := 3, leagueRank := 1,
                      championId := 103, spell1Id := 4, spell2Id := 14 }],
        endGameChunkId := 1 }
      { keyframes := [none, some { id := 1, data := [1, 2, 3] }],
        chunks := [none, some { id := 1, data := [0, 1, 2, 3, 4, 5, 6, 7, 8, 9] }] } ∧
    ¬ IsDouble 9007199254740993 ∧
    gameIdHigh 18446744073709551615 = 4294967296 ∧
    (18446744073709551615 : Int) / 2 ^ 32 = 4294967295 := by
  decide

/-- C10, amended: for a game id in `0 .. 2^64 - 1` that a JavaScript number holds
exactly (an integer of at most 53 significant bits), the halves computed by
`save` are the quotient and the remainder of the division by `2^32`, both fit an
unsigned 32-bit field, and the decoder's recombination gives the game id back. -/
theorem gameId_split_exact (g : Nat) (h : g < 2 ^ 64) (hd : IsDouble (g : Int)) :
    gameIdHigh (g : Int) = ((g / 2 ^ 32 : Nat) : Int) ∧
    gameIdLow (g : Int) = ((g % 2 ^ 32 : Nat) : Int) ∧
    0 ≤ gameIdHigh (g : Int) ∧ gameIdHigh (g : Int) < 2 ^ 32 ∧
    0 ≤ gameIdLow (g : Int) ∧ gameIdLow (g : Int) < 2 ^ 32 ∧
    joinGameId (gameIdHigh (g : Int)) (gameIdLow (g : Int)) = (g : Int) := by
  have h' : g < 18446744073709551616 := by norm_num at h; exact h
  have e32 : (2 : Nat) ^ 32 = 4294967296 := by norm_num
  have i32 : (2 : Int) ^ 32 = 4294967296 := by norm_num
  rw [gameIdHigh_of_double g h' hd, gameIdLow_of_double g h' hd, joinGameId_halves g h', e32,
    i32]
  refine ⟨rfl, rfl, ?_, ?_, ?_, ?_, hd⟩ <;> omega

theorem gameId_split_exact_witness :
    gameIdHigh ((18446744073709549568 : Nat) : Int)
      = ((18446744073709549568 / 2 ^ 32 : Nat) : Int) ∧
    gameIdLow ((18446744073709549568 : Nat) : Int)
      = ((18446744073709549568 % 2 ^ 32 : Nat) : Int) ∧
    0 ≤ gameIdHigh ((18446744073709549568 : Nat) : Int) ∧
    gameIdHigh ((18446744073709549568 : Nat) : Int) < 2 ^ 32 ∧
    0 ≤ gameIdLow ((18446744073709549568 : Nat) : Int) ∧
    gameIdLow ((18446744073709549568 : Nat) : Int) < 2 ^ 32 ∧
    joinGameId (gameIdHigh ((18446744073709549568 : Nat) : Int))
        (gameIdLow ((18446744073709549568 : Nat) : Int))
      = ((18446744073709549568 : Nat) : Int) :=
  gameId_split_exact 18446744073709549568 (by norm_num) (by decide)

theorem bind_eq_ok {ε α β : Type} (x : Except ε α) (f : α → Except ε β) (b : β) :
    (x >>= f) = .ok b ↔ ∃ a, x = .ok a ∧ f a = .ok b := by
  cases x with
  | error e => simp [bind, Except.bind]
  | ok a => simp [bind, Except.bind]

theorem ok_bind {ε α β : Type} (a : α) (f : α → Except ε β) :
    ((Except.ok a : Except ε α) >>= f) = f a := rfl

theorem filled_zero {fill : Nat} (pre : List Nat) : filled fill pre 0 = pre := by
  simp [filled]

theorem filled_length {fill : Nat} (pre : List Nat) (n : Nat) : (filled fill pre n).length = pre.length + n := by
  simp [filled]

theorem newBuffer_natCast (n : Nat) : newBuffer (n : Int) = .ok (filled 0 [] n) := by
  simp [newBuffer, filled]

theorem newBufferWith_eq (fill : Nat) (z : Int) (n : Nat) (h : z = (n : Int)) :
    newBufferWith fill z = .ok (filled fill [] n) := by
  subst h
  simp [newBufferWith, filled]

theorem putBytes_filled {fill : Nat} (pre : List Nat) (n c : Nat) (bs : List Nat) (hc : c = pre.length)
    (hn : bs.length ≤ n) :
    putBytes (filled fill pre n) c bs = .ok (filled fill (pre ++ bs) (n - bs.length)) := by
  subst hc
  have h1 : pre.length + bs.length ≤ (filled fill pre n).length := by
    rw [filled_length]; omega
  unfold putBytes
  rw [if_pos h1]
  congr 1
  unfold filled
  rw [List.take_left, List.drop_append, List.drop_replicate]

theorem putBytes_inv (buff buff' : List Nat) (c : Nat) (bs : List Nat)
    (h : putBytes buff c bs = .ok buff') : c + bs.length ≤ buff.length := by
  unfold putBytes at h
  split at h
  · assumption
  · cases h

theorem writeUInt8_filled {fill : Nat} (pre : List Nat) (n c : Nat) (v : Int) (hc : c = pre.length)
    (hn : 1 ≤ n) (h0 : 0 ≤ v) (h1 : v ≤ 255) :
    writeUInt8 (filled fill pre n) v c = .ok (filled fill (pre ++ [v.toNat]) (n - 1)) := by
  unfold writeUInt8
  rw [if_neg (by omega)]
  exact putBytes_filled pre n c [v.toNat] hc hn

theorem writeUInt8_inv (buff buff' : List Nat) (c : Nat) (v : Int)
    (h : writeUInt8 buff v c = .ok buff') : 0 ≤ v ∧ v ≤ 255 := by
  unfold writeUInt8 at h
  split at h
  · cases h
  · omega

theorem writeUInt16BE_filled {fill : Nat} (pre : List Nat) (n c : Nat) (v : Int) (hc : c = pre.length)
    (hn : 2 ≤ n) (h0 : 0 ≤ v) (h1 : v ≤ 65535) :
    writeUInt16BE (filled fill pre n) v c = .ok (filled fill (pre ++ be16 v.toNat) (n - 2)) := by
  unfold writeUInt16BE
  rw [if_neg (by omega)]
  exact putBytes_filled pre n c (be16 v.toNat) hc hn

theorem writeUInt16BE_inv (buff buff' : List Nat) (c : Nat) (v : Int)
    (h : writeUInt16BE buff v c = .ok buff') : 0 ≤ v ∧ v ≤ 65535 := by
  unfold writeUInt16BE at h
  split at h
  · cases h
  · omega

theorem writeUInt32BE_filled {fill : Nat} (pre : List Nat) (n c : Nat) (v : Int) (hc : c = pre.length)
    (hn : 4 ≤ n) (h0 : 0 ≤ v) (h1 : v ≤ 4294967295) :
    writeUInt32BE (filled fill pre n) v c = .ok (filled fill (pre ++ be32 v.toNat) (n - 4)) := by
  unfold writeUInt32BE
  rw [if_neg (by omega)]
  exact putBytes_filled pre n c (be32 v.toNat) hc hn

theorem writeUInt32BE_inv (buff buff' : List Nat) (c : Nat) (v : Int)
    (h : writeUInt32BE buff v c = .ok buff') : 0 ≤ v ∧ v ≤ 4294967295 := by
  unfold writeUInt32BE at h
  split at h
  · cases h
  · omega

theorem writeInt32BE_filled {fill : Nat} (pre : List Nat) (n c : Nat) (v : Int) (hc : c = pre.length)
    (hn : 4 ≤ n) (h0 : -2147483648 ≤ v) (h1 : v ≤ 2147483647) :
    writeInt32BE (filled fill pre n) v c
      = .ok (filled fill (pre ++ be32 (v % 4294967296).toNat) (n - 4)) := by
  unfold writeInt32BE
  rw [if_neg (by omega)]
  exact putBytes_filled pre n c _ hc hn

theorem writeInt32BE_inv (buff buff' : List Nat) (c : Nat) (v : Int)
    (h : writeInt32BE buff v c = .ok buff') : -2147483648 ≤ v ∧ v ≤ 2147483647 := by
  unfold writeInt32BE at h
  split at h
  · cases h
  · omega

theorem writeDecoded_filled {fill : Nat} (pre : List Nat) (n c len : Nat) (decoded : List Nat)
    (hc : c = pre.length) (hl : decoded.length = len) (hn : len ≤ n) :
    writeDecoded (filled fill pre n) decoded c len = .ok (filled fill (pre ++ decoded) (n - len)) := by
  subst hc hl
  unfold writeDecoded
  rw [if_neg (by rw [filled_length]; omega)]
  have h2 : (List.take decoded.length decoded).take ((filled fill pre n).length - pre.length)
      = decoded := by
    rw [List.take_length, List.take_of_length_le]
    rw [filled_length]; omega
  simp only [h2]
  unfold filled
  rw [List.take_left, List.drop_append, List.drop_replicate]

theorem writeDecoded_short {fill : Nat} (pre : List Nat) (n c len : Nat) (decoded : List Nat)
    (hc : c = pre.length) (hn : len ≤ n) :
    writeDecoded (filled fill pre n) decoded c len
      = .ok (filled fill
          (pre ++ (decoded.take len ++ List.replicate (len - (decoded.take len).length) fill))
          (n - len)) := by
  subst hc
  have hl : (decoded.take len).length ≤ len := by
    rw [List.length_take]
    omega
  unfold writeDecoded
  rw [if_neg (by rw [filled_length]; omega)]
  have h2 : (List.take len decoded).take ((filled fill pre n).length - pre.length)
      = decoded.take len := by
    rw [List.take_of_length_le]
    rw [filled_length]; omega
  simp only [h2]
  unfold filled
  rw [List.take_left, List.drop_append, List.drop_replicate]
  have e : n - (decoded.take len).length
      = (len - (decoded.take len).length) + (n - len) := by omega
  rw [e, List.replicate_add]
  simp only [List.append_assoc]

theorem copy_filled {fill : Nat} (pre : List Nat) (n c : Nat) (data : List Nat) (hc : c = pre.length)
    (hn : data.length ≤ n) :
    copy data (filled fill pre n) c 0 data.length = .ok (filled fill (pre ++ data) (n - data.length)) := by
  subst hc
  unfold copy
  rw [if_neg (by omega)]
  split
  · rename_i h
    have hd : data = [] := by
      rcases h with h | h
      · rw [filled_length] at h
        exact List.length_eq_zero.1 (by omega)
      · exact List.length_eq_zero.1 (by omega)
    subst hd
    simp
  · rename_i h
    have h2 : ((List.drop 0 data).take (data.length - 0)).take
        ((filled fill pre n).length - pre.length) = data := by
      rw [List.drop_zero, Nat.sub_zero, List.take_length, List.take_of_length_le]
      rw [filled_length]; omega
    simp only [h2]
    unfold filled
    rw [List.take_left, List.drop_append, List.drop_replicate]

@[simp] theorem be16_length (v : Nat) : (be16 v).length = 2 := rfl

@[simp] theorem be32_length (v : Nat) : (be32 v).length = 4 := rfl

@[simp] theorem int32Bytes_length (v : Int) : (int32Bytes v).length = 4 := rfl

theorem newBuffer_eq (z : Int) (n : Nat) (h : z = (n : Int)) :
    newBuffer z = .ok (filled 0 [] n) := by
  subst h
  exact newBuffer_natCast n

theorem playerBytes_length (p : Player) :
    (playerBytes p).length = 20 + utf8ByteLength p.name := by
  simp [playerBytes, utf8ByteLength]
  omega

theorem writePlayer_ok (fill : Nat) (p : Player) (h : PlayerOk p) :
    writePlayerWith fill p = .ok (playerBytes p) := by
  obtain ⟨hlen, hid, ht, hl, hr, hc, hs1, hs2⟩ := h
  simp only [writePlayerWith]
  rw [newBufferWith_eq fill _ (20 + utf8ByteLength p.name) (by push_cast; rfl), ok_bind]
  rw [writeInt32BE_filled _ _ _ _ (by rfl) (by omega) hid.1 hid.2, ok_bind]
  rw [writeUInt8_filled _ _ _ _ (by simp) (by omega) (by omega) (by omega), ok_bind]
  rw [writeDecoded_filled _ _ _ _ _ (by simp) (by rfl) (by omega), ok_bind]
  rw [writeUInt8_filled _ _ _ _ (by simp [utf8ByteLength]; omega) (by omega) ht.1 ht.2, ok_bind]
  rw [writeUInt8_filled _ _ _ _ (by simp [utf8ByteLength]; omega) (by omega) hl.1 hl.2, ok_bind]
  rw [writeUInt8_filled _ _ _ _ (by simp [utf8ByteLength]; omega) (by omega) hr.1 hr.2, ok_bind]
  rw [writeInt32BE_filled _ _ _ _ (by simp [utf8ByteLength]; omega) (by omega) hc.1 hc.2, ok_bind]
  rw [writeInt32BE_filled _ _ _ _ (by simp [utf8ByteLength]; omega) (by omega) hs1.1 hs1.2,
    ok_bind]
  rw [writeInt32BE_filled _ _ _ _ (by simp [utf8ByteLength]; omega) (by omega) hs2.1 hs2.2,
    ok_bind]
  simp only [pure, Except.pure]
  have hz : 20 + utf8ByteLength p.name - 4 - 1 - utf8ByteLength p.name - 1 - 1 - 1 - 4 - 4 - 4
      = 0 := by omega
  rw [hz, filled_zero]
  simp [playerBytes, int32Bytes]

theorem writePlayer_inv (fill : Nat) (p : Player) (t : List Nat)
    (h : writePlayerWith fill p = .ok t) : PlayerOk p := by
  simp only [writePlayerWith, bind_eq_ok] at h
  obtain ⟨b0, -, b1, h1, b2, h2, b3, -, b4, h4, b5, h5, b6, h6, b7, h7, b8, h8, b9, h9, -⟩ := h
  have := writeInt32BE_inv _ _ _ _ h1
  have := writeUInt8_inv _ _ _ _ h2
  have := writeUInt8_inv _ _ _ _ h4
  have := writeUInt8_inv _ _ _ _ h5
  have := writeUInt8_inv _ _ _ _ h6
  have := writeInt32BE_inv _ _ _ _ h7
  have := writeInt32BE_inv _ _ _ _ h8
  have := writeInt32BE_inv _ _ _ _ h9
  unfold PlayerOk
  omega

theorem writePlayers_ok (fill : Nat) (ps : List Player) (h : ∀ p ∈ ps, PlayerOk p)
    (buff : List Nat) (c : Nat) :
    writePlayersWith fill ps buff c
      = .ok (buff ++ ps.flatMap playerBytes, c + (ps.flatMap playerBytes).length) := by
  induction ps generalizing buff c with
  | nil => simp [writePlayersWith, pure, Except.pure]
  | cons p ps ih =>
    simp only [writePlayersWith]
    rw [writePlayer_ok fill p (h p (List.mem_cons_self _ _)), ok_bind]
    rw [ih (fun q hq => h q (List.mem_cons_of_mem _ hq))]
    simp [concat, Nat.add_assoc]

theorem writePlayers_inv (fill : Nat) (ps : List Player) (buff : List Nat) (c : Nat)
    (r : List Nat × Nat) (h : writePlayersWith fill ps buff c = .ok r) :
    ∀ p ∈ ps, PlayerOk p := by
  induction ps generalizing buff c with
  | nil => simp
  | cons p ps ih =>
    simp only [writePlayersWith, bind_eq_ok] at h
    obtain ⟨t, ht, h⟩ := h
    intro q hq
    rcases List.mem_cons.1 hq with rfl | hq
    · exact writePlayer_inv _ _ _ ht
    · exact ih _ _ h q hq

theorem countFragments_eq (frags : List (Option Fragment)) (d t : Nat) :
    countFragments frags d t
      = (d + dataLengthSum (populated frags), t + (populated frags).length) := by
  induction frags generalizing d t with
  | nil => simp [countFragments, populated, dataLengthSum]
  | cons a rest ih =>
    cases a with
    | none => simpa [countFragments, populated] using ih d t
    | some f =>
      simp only [countFragments, ih]
      simp [populated, dataLengthSum]
      omega

theorem fragmentsBytes_length (fs : List Fragment) :
    (fs.flatMap fragmentBytes).length = dataLengthSum fs + 6 * fs.length := by
  induction fs with
  | nil => simp [dataLengthSum]
  | cons f fs ih =>
    simp only [List.flatMap_cons, List.length_append, ih]
    simp [fragmentBytes, dataLengthSum]
    omega

theorem populated_cons_none (rest : List (Option Fragment)) :
    populated (none :: rest) = populated rest := by
  simp [populated]

theorem populated_cons_some (f : Fragment) (rest : List (Option Fragment)) :
    populated (some f :: rest) = f :: populated rest := by
  simp [populated]

theorem writeFragments_ok {fill : Nat} (frags : List (Option Fragment))
    (h : ∀ f ∈ populated frags, FragmentOk f) (pre : List Nat) (n c : Nat)
    (hc : c = pre.length) (hn : ((populated frags).flatMap fragmentBytes).length ≤ n) :
    writeFragments frags (filled fill pre n) c
      = .ok (filled fill (pre ++ (populated frags).flatMap fragmentBytes)
          (n - ((populated frags).flatMap fragmentBytes).length),
        c + ((populated frags).flatMap fragmentBytes).length) := by
  induction frags generalizing pre n c with
  | nil => simp [writeFragments, populated, pure, Except.pure]
  | cons a rest ih =>
    cases a with
    | none =>
      simp only [writeFragments, populated_cons_none] at *
      exact ih h pre n c hc hn
    | some f =>
      simp only [populated_cons_some, List.flatMap_cons, List.length_append] at *
      have hf : FragmentOk f := h f (List.mem_cons_self _ _)
      obtain ⟨hid, hlen⟩ := hf
      have hfl : (fragmentBytes f).length = 6 + f.data.length := by
        simp [fragmentBytes]; omega
      have hb : be32 (((f.data.length : Int) % 4294967296).toNat) = be32 f.data.length := by
        congr 1; omega
      simp only [writeFragments]
      rw [writeUInt16BE_filled _ _ _ _ hc (by omega) hid.1 hid.2, ok_bind]
      rw [writeInt32BE_filled _ _ _ _ (by simp; omega) (by omega) (by omega) (by omega),
        ok_bind, hb]
      rw [copy_filled _ _ _ _ (by simp; omega) (by omega), ok_bind]
      rw [ih (fun g hg => h g (List.mem_cons_of_mem _ hg)) _ _ _ (by simp; omega) (by omega)]
      simp only [fragmentBytes, List.append_assoc, List.length_append, be16_length,
        be32_length]
      congr 2
      · congr 1; omega
      · omega

theorem writeFragments_inv (frags : List (Option Fragment)) (buff : List Nat) (c : Nat)
    (r : List Nat × Nat) (h : writeFragments frags buff c = .ok r) :
    ∀ f ∈ populated frags, FragmentOk f := by
  induction frags generalizing buff c with
  | nil => simp [populated]
  | cons a rest ih =>
    cases a with
    | none =>
      simp only [writeFragments, populated_cons_none] at *
      exact ih _ _ h
    | some f =>
      simp only [writeFragments, bind_eq_ok] at h
      obtain ⟨b1, h1, b2, h2, b3, -, h⟩ := h
      have := writeUInt16BE_inv _ _ _ _ h1
      have := writeInt32BE_inv _ _ _ _ h2
      intro g hg
      rw [populated_cons_some] at hg
      rcases List.mem_cons.1 hg with rfl | hg
      · unfold FragmentOk; omega
      · exact ih _ _ h g hg

theorem writeUInt8Str_filled {fill : Nat} (pre : List Nat) (n c : Nat)
    (value : Option (List Char)) (hc : c = pre.length) (hn : 1 ≤ n) (hv : CoercedOk value) :
    writeUInt8Str (filled fill pre n) value c
      = .ok (filled fill (pre ++ [coercedByte value]) (n - 1)) := by
  unfold writeUInt8Str coercedByte
  unfold CoercedOk at hv
  simp only [hv]
  exact putBytes_filled pre n c _ hc hn

theorem writeUInt8Str_inv (buff buff' : List Nat) (c : Nat) (value : Option (List Char))
    (h : writeUInt8Str buff value c = .ok buff') : CoercedOk value := by
  unfold writeUInt8Str at h
  unfold CoercedOk
  simp only [] at h
  split at h
  · cases h
  · rename_i hv
    simpa using hv

theorem keyField_length (fill : Nat) (s : List Char) :
    (keyField fill s).length = base64ByteLength s := by
  unfold keyField
  rw [List.length_append, List.length_replicate, List.length_take]
  omega

theorem base64ByteLength_of_decode {fill : Nat} (s : List Char) (kb : List Nat)
    (h : keyField fill s = kb) : base64ByteLength s = kb.length := by
  rw [← h, keyField_length]

theorem writeBase64_filled {fill : Nat} (pre : List Nat) (n c : Nat) (key : List Char)
    (hc : c = pre.length) (hn : base64ByteLength key ≤ n) :
    writeBase64 (filled fill pre n) key c (base64ByteLength key)
      = .ok (filled fill (pre ++ keyField fill key) (n - base64ByteLength key)) := by
  unfold writeBase64 keyField
  exact writeDecoded_short pre n c (base64ByteLength key) (base64Decode key) hc hn

theorem stripPadding_cons (c : Char) (rest : List Char) (h : 3 ≤ rest.length) :
    stripPadding (c :: rest) = c :: stripPadding rest := by
  rcases rest with _ | ⟨a, _ | ⟨b, _ | ⟨d, rest⟩⟩⟩
  · simp at h
  · simp at h
  · simp at h
  · unfold stripPadding
    simp only [List.getLast?_cons_cons]
    by_cases h1 : (d :: rest).getLast? = some '='
    · simp only [h1, if_true, List.dropLast_cons₂]
      rcases hr : (d :: rest).dropLast with _ | ⟨x, l⟩
      · by_cases hb : b = '=' <;> simp [hb]
      · simp only [List.getLast?_cons_cons, List.length_cons]
        by_cases h2 : (x :: l).getLast? = some '='
        · simp [h2, List.dropLast_cons₂]
        · simp [h2]
    · simp only [h1, if_false, List.getLast?_cons_cons, List.length_cons]
      simp

theorem b64Char_small : ∀ i < 64, (b64Char i).toNat < 128 ∧ b64Char i ≠ '=' := by decide

theorem b64Char_ascii (i : Nat) : (b64Char i).toNat < 128 ∧ b64Char i ≠ '=' := by
  by_cases h : i < 64
  · exact b64Char_small i h
  · have e : b64Char i = 'A' := by
      unfold b64Char
      rw [List.getD_eq_getElem?_getD, List.getElem?_eq_none (by
        have : b64Alphabet.length = 64 := by decide
        omega)]
      rfl
    rw [e]
    decide

theorem utf16Units_length (s : List Char) (h : ∀ c ∈ s, c.toNat < 65536) :
    (utf16Units s).length = s.length := by
  induction s with
  | nil => rfl
  | cons c s ih =>
    have hc := h c (List.mem_cons_self _ _)
    have ih' := ih (fun d hd => h d (List.mem_cons_of_mem _ hd))
    unfold utf16Units at ih' ⊢
    rw [List.flatMap_cons, List.length_append, ih']
    simp only [hc, if_true, List.length_cons, List.length_nil]
    omega

theorem stripPadding_subset (s : List Char) : ∀ c ∈ stripPadding s, c ∈ s := by
  intro c hc
  unfold stripPadding at hc
  simp only [] at hc
  split at hc
  · split at hc
    · exact List.mem_of_mem_dropLast (List.mem_of_mem_dropLast hc)
    · exact List.mem_of_mem_dropLast hc
  · split at hc
    · exact List.mem_of_mem_dropLast hc
    · exact hc

theorem base64Encode_bmp (bs : List Nat) : ∀ c ∈ base64Encode bs, c.toNat < 65536 := by
  obtain ⟨n, hn⟩ : ∃ n, bs.length = n := ⟨_, rfl⟩
  induction n using Nat.strong_induction_on generalizing bs with
  | _ n ih =>
    have hb : ∀ i, (b64Char i).toNat < 65536 := fun i => by
      have := (b64Char_ascii i).1
      omega
    rcases bs with _ | ⟨a, _ | ⟨b, _ | ⟨c, rest⟩⟩⟩
    · simp [base64Encode]
    · intro ch hch
      simp only [base64Encode, List.mem_cons, List.mem_singleton, List.mem_nil_iff, or_false] at hch
      rcases hch with rfl | rfl | rfl | rfl
      · exact hb _
      · exact hb _
      · decide
      · decide
    · intro ch hch
      simp only [base64Encode, List.mem_cons, List.mem_singleton, List.mem_nil_iff, or_false] at hch
      rcases hch with rfl | rfl | rfl | rfl
      · exact hb _
      · exact hb _
      · exact hb _
      · decide
    · intro ch hch
      simp only [base64Encode, List.mem_cons] at hch
      rcases hch with rfl | rfl | rfl | rfl | hch
      · exact hb _
      · exact hb _
      · exact hb _
      · exact hb _
      · exact ih rest.length (by subst hn; simp only [List.length_cons]; omega) rest rfl ch hch

theorem base64Encode_length (bs : List Nat) (h : bs ≠ []) : 4 ≤ (base64Encode bs).length := by
  rcases bs with _ | ⟨a, _ | ⟨b, _ | ⟨c, rest⟩⟩⟩
  · exact (h rfl).elim
  · simp [base64Encode]
  · simp [base64Encode]
  · simp [base64Encode]

theorem stripPadding_encode_length (bs : List Nat) :
    (stripPadding (base64Encode bs)).length * 3 / 4 = bs.length := by
  obtain ⟨n, hn⟩ : ∃ n, bs.length = n := ⟨_, rfl⟩
  induction n using Nat.strong_induction_on generalizing bs with
  | _ n ih =>
    rcases bs with _ | ⟨a, _ | ⟨b, _ | ⟨c, rest⟩⟩⟩
    · simp [base64Encode, stripPadding]
    · simp [base64Encode, stripPadding]
    · have h3 := (b64Char_ascii (b % 16 * 4)).2
      simp [base64Encode, stripPadding, h3]
    · by_cases hr : rest = []
      · subst hr
        have h3 := (b64Char_ascii (c % 64)).2
        have h3' : ¬ ('=' = b64Char (c % 64)) := fun e => h3 e.symm
        simp [base64Encode, stripPadding, h3, h3']
      · have hl := base64Encode_length rest hr
        have ih' := ih rest.length (by subst hn; simp only [List.length_cons]; omega) rest rfl
        simp only [base64Encode]
        rw [stripPadding_cons _ _ (by simp only [List.length_cons]; omega),
          stripPadding_cons _ _ (by simp only [List.length_cons]; omega),
          stripPadding_cons _ _ (by simp only [List.length_cons]; omega),
          stripPadding_cons _ _ (by omega)]
        simp only [List.length_cons]
        omega

theorem base64ByteLength_encode (bs : List Nat) :
    base64ByteLength (base64Encode bs) = bs.length := by
  unfold base64ByteLength
  rw [utf16Units_length _ (fun c hc => base64Encode_bmp bs c (stripPadding_subset _ c hc))]
  exact stripPadding_encode_length bs

theorem keyField_canonical (fill : Nat) (key : List Char) (keyBytes : List Nat)
    (hd : base64Decode key = keyBytes) (he : base64Encode keyBytes = key) :
    keyField fill key = keyBytes := by
  unfold keyField
  have hl : base64ByteLength key = keyBytes.length := by
    rw [← he]
    exact base64ByteLength_encode keyBytes
  rw [hd, hl, List.take_length]
  simp

theorem sextetBytes_length (l : List Nat) : (sextetBytes l).length = l.length * 3 / 4 := by
  obtain ⟨n, hn⟩ : ∃ n, l.length = n := ⟨_, rfl⟩
  induction n using Nat.strong_induction_on generalizing l with
  | _ n ih =>
    rcases l with _ | ⟨a, _ | ⟨b, _ | ⟨c, _ | ⟨d, rest⟩⟩⟩⟩
    · rfl
    · simp [sextetBytes]
    · simp [sextetBytes]
    · simp [sextetBytes]
    · have ih' := ih rest.length (by subst hn; simp only [List.length_cons]; omega) rest rfl
      simp only [sextetBytes, List.length_cons, ih']
      omega

theorem unbase64_ne_sign (unit v : Nat) (h : unbase64 unit = some v) : unit % 256 ≠ 61 := by
  intro e
  unfold unbase64 at h
  simp only [e] at h
  simp at h

theorem base64Sextets_length_le (units : List Nat) :
    (base64Sextets units).length ≤ (units.filter (fun x => decide (x % 256 ≠ 61))).length := by
  induction units with
  | nil => simp [base64Sextets]
  | cons x rest ih =>
    unfold base64Sextets
    split
    · rename_i v hv
      have hx := unbase64_ne_sign x v hv
      rw [List.filter_cons_of_pos (by simpa using hx)]
      simp only [List.length_cons]
      omega
    · by_cases hx : x % 256 = 61
      · rw [if_pos hx]
        simp
      · rw [if_neg hx, List.filter_cons_of_pos (by simpa using hx)]
        simp only [List.length_cons]
        omega

theorem utf16Units_append (a b : List Char) :
    utf16Units (a ++ b) = utf16Units a ++ utf16Units b := by
  unfold utf16Units
  rw [List.flatMap_append]

theorem utf16Units_padding (pad : List Char) (h : ∀ c ∈ pad, c = '=') :
    (utf16Units pad).filter (fun x => decide (x % 256 ≠ 61)) = [] := by
  induction pad with
  | nil => rfl
  | cons c pad ih =>
    have hc := h c (List.mem_cons_self _ _)
    subst hc
    have ih' := ih (fun d hd => h d (List.mem_cons_of_mem _ hd))
    unfold utf16Units at ih' ⊢
    rw [List.flatMap_cons, List.filter_append, ih']
    rfl

theorem stripPadding_decompose (s : List Char) :
    ∃ pad, s = stripPadding s ++ pad ∧ ∀ c ∈ pad, c = '=' := by
  have hlast : ∀ l : List Char, l.getLast? = some '=' → l = l.dropLast ++ ['='] := by
    intro l hl
    exact (List.dropLast_append_getLast? '=' (by rw [hl]; rfl)).symm
  unfold stripPadding
  simp only []
  by_cases h1 : s.getLast? = some '='
  · rw [if_pos h1]
    by_cases h2 : 1 < s.dropLast.length ∧ s.dropLast.getLast? = some '='
    · rw [if_pos h2]
      refine ⟨['=', '='], ?_, by simp⟩
      have e1 := hlast s h1
      have e2 := hlast s.dropLast h2.2
      calc s = s.dropLast ++ ['='] := e1
        _ = (s.dropLast.dropLast ++ ['=']) ++ ['='] := by rw [← e2]
        _ = s.dropLast.dropLast ++ ['=', '='] := by simp
    · rw [if_neg h2]
      exact ⟨['='], hlast s h1, by simp⟩
  · rw [if_neg h1]
    by_cases h2 : 1 < s.length ∧ s.getLast? = some '='
    · exact (h1 h2.2).elim
    · rw [if_neg h2]
      exact ⟨[], by simp, by simp⟩

theorem base64Decode_length_le (s : List Char) :
    (base64Decode s).length ≤ base64ByteLength s := by
  unfold base64Decode base64ByteLength
  rw [sextetBytes_length]
  obtain ⟨pad, hs, hpad⟩ := stripPadding_decompose s
  have h1 := base64Sextets_length_le (utf16Units s)
  have h2 : (utf16Units s).filter (fun x => decide (x % 256 ≠ 61))
      = (utf16Units (stripPadding s)).filter (fun x => decide (x % 256 ≠ 61)) := by
    conv_lhs => rw [hs]
    rw [utf16Units_append, List.filter_append, utf16Units_padding pad hpad, List.append_nil]
  have h3 := List.length_filter_le (fun x => decide (x % 256 ≠ 61))
    (utf16Units (stripPadding s))
  rw [h2] at h1
  have h4 : (base64Sextets (utf16Units s)).length ≤ (utf16Units (stripPadding s)).length :=
    le_trans h1 h3
  omega

theorem keyField_eq (fill : Nat) (s : List Char) :
    keyField fill s = base64Decode s
      ++ List.replicate (base64ByteLength s - (base64Decode s).length) fill := by
  unfold keyField
  rw [List.take_of_length_le (base64Decode_length_le s)]

theorem concat_filled_nil {fill : Nat} (pre : List Nat) (n : Nat) :
    concat pre (filled fill [] n) = filled fill pre n := by
  simp [concat, filled]

theorem completeFlag_byte (keyframes chunks : List (Option Fragment)) :
    ((if completeFlag (0 + (populated keyframes).length) (0 + (populated chunks).length)
        keyframes chunks ≠ 0 then 1 else 0 : Int)).toNat = completeByte keyframes chunks := by
  unfold completeFlag completeByte
  simp only [Nat.zero_add]
  split <;> simp

theorem encodeWith_ok (fill : Nat) (regionId gameId : Int) (riotVersion key : String)
    (keyBytes : List Nat) (endStartupChunkId startGameChunkId : Int) (players : List Player)
    (keyframes chunks : List (Option Fragment))
    (h : EncodeOk regionId gameId riotVersion key keyBytes endStartupChunkId startGameChunkId
      players keyframes chunks) :
    encodeWith fill regionId gameId riotVersion key endStartupChunkId startGameChunkId players
        keyframes chunks
      = .ok (encodedLayout regionId gameId riotVersion (keyField fill key.toList)
              endStartupChunkId startGameChunkId players keyframes chunks,
             (encodedLayout regionId gameId riotVersion (keyField fill key.toList)
              endStartupChunkId startGameChunkId players keyframes chunks).length) := by
  have hkl0 := base64ByteLength_of_decode key.toList keyBytes h.key
  have hkl : base64ByteLength key.toList = (keyField fill key.toList).length :=
    (keyField_length fill key.toList).symm
  have hkn : (keyField fill key.toList).length ≤ 255 := by
    have := h.keyLen
    omega
  generalize hkf : keyField fill key.toList = kf at hkl hkn ⊢
  have hpc := h.playerCount
  have hkc := h.keyframeCount
  have hcc := h.chunkCount
  have hkb := fragmentsBytes_length (populated keyframes)
  have hcb := fragmentsBytes_length (populated chunks)
  have hhi := h.gameId.1
  have hlo := h.gameId.2
  simp only [encodeWith, countFragments_eq]
  rw [hkl]
  rw [newBufferWith_eq fill _ (18 + kf.length) (by push_cast; rfl), ok_bind]
  rw [writeUInt8_filled _ _ _ _ (by rfl) (by omega) (by omega) (by omega), ok_bind]
  rw [writeUInt8_filled _ _ _ _ (by rfl) (by omega) h.regionId.1 h.regionId.2, ok_bind]
  rw [writeUInt32BE_filled _ _ _ _ (by rfl) (by omega) hhi.1 hhi.2, ok_bind]
  rw [writeUInt32BE_filled _ _ _ _ (by rfl) (by omega) hlo.1 hlo.2, ok_bind]
  rw [writeUInt8Str_filled _ _ _ _ (by rfl) (by omega) h.v0, ok_bind]
  rw [writeUInt8Str_filled _ _ _ _ (by rfl) (by omega) h.v1, ok_bind]
  rw [writeUInt8Str_filled _ _ _ _ (by rfl) (by omega) h.v2, ok_bind]
  rw [writeUInt8_filled _ _ _ _ (by rfl) (by omega) (by omega) (by omega), ok_bind]
  rw [← hkl, writeBase64_filled _ _ _ _ (by rfl) (by omega), ok_bind]
  rw [hkf, hkl]
  rw [writeUInt8_filled _ _ _ _ (by simp; omega) (by omega) (by split <;> omega)
    (by split <;> omega), ok_bind, completeFlag_byte]
  rw [writeUInt8_filled _ _ _ _ (by simp; omega) (by omega) h.endStartup.1 h.endStartup.2,
    ok_bind]
  rw [writeUInt8_filled _ _ _ _ (by simp; omega) (by omega) h.startGame.1 h.startGame.2,
    ok_bind]
  rw [writeUInt8_filled _ _ _ _ (by simp; omega) (by omega) (by omega) (by omega), ok_bind]
  have hz : 18 + kf.length - 1 - 1 - 4 - 4 - 1 - 1 - 1 - 1 - kf.length - 1 - 1 - 1 - 1
      = 0 := by omega
  rw [hz, filled_zero, writePlayers_ok fill _ h.players, ok_bind]
  simp only []
  rw [newBufferWith_eq fill _ (4 + (dataLengthSum (populated keyframes)
      + dataLengthSum (populated chunks))
      + ((populated keyframes).length + (populated chunks).length) * 6)
    (by push_cast; ring), ok_bind, concat_filled_nil]
  rw [writeUInt16BE_filled _ _ _ _ (by simp; omega) (by omega) (by omega) (by omega), ok_bind]
  rw [writeFragments_ok _ h.keyframes _ _ _ (by simp; omega) (by omega), ok_bind]
  simp only []
  rw [writeUInt16BE_filled _ _ _ _ (by simp; omega) (by omega) (by omega) (by omega), ok_bind]
  rw [writeFragments_ok _ h.chunks _ _ _ (by simp; omega) (by omega), ok_bind]
  simp only [pure, Except.pure]
  have hz2 : 4 + (dataLengthSum (populated keyframes) + dataLengthSum (populated chunks))
      + ((populated keyframes).length + (populated chunks).length) * 6 - 2
      - ((populated keyframes).flatMap fragmentBytes).length - 2
      - ((populated chunks).flatMap fragmentBytes).length = 0 := by omega
  rw [hz2, filled_zero]
  have hE : encodedLayout regionId gameId riotVersion kf endStartupChunkId
      startGameChunkId players keyframes chunks
      = [] ++ [Int.toNat 12] ++ [regionId.toNat] ++ be32 (gameIdHigh gameId).toNat
        ++ be32 (gameIdLow gameId).toNat
        ++ [coercedByte ((splitDot riotVersion.toList).get? 0)]
        ++ [coercedByte ((splitDot riotVersion.toList).get? 1)]
        ++ [coercedByte ((splitDot riotVersion.toList).get? 2)]
        ++ [((kf.length : Int)).toNat] ++ kf ++ [completeByte keyframes chunks]
        ++ [endStartupChunkId.toNat] ++ [startGameChunkId.toNat]
        ++ [((players.length : Int)).toNat] ++ players.flatMap playerBytes
        ++ be16 (((0 + (populated keyframes).length : Nat) : Int)).toNat
        ++ (populated keyframes).flatMap fragmentBytes
        ++ be16 (((0 + (populated chunks).length : Nat) : Int)).toNat
        ++ (populated chunks).flatMap fragmentBytes := by
    simp [encodedLayout, revision12Layout]
  rw [hE]
  refine congrArg Except.ok (Prod.ext rfl ?_)
  simp only [List.length_append, List.length_cons, List.length_nil, be32_length, be16_length]

theorem encode_ok (regionId gameId : Int) (riotVersion key : String) (keyBytes : List Nat)
    (endStartupChunkId startGameChunkId : Int) (players : List Player)
    (keyframes chunks : List (Option Fragment))
    (h : EncodeOk regionId gameId riotVersion key keyBytes endStartupChunkId startGameChunkId
      players keyframes chunks) :
    encode regionId gameId riotVersion key endStartupChunkId startGameChunkId players
        keyframes chunks
      = .ok (encodedLayout regionId gameId riotVersion keyBytes endStartupChunkId
              startGameChunkId players keyframes chunks,
             (encodedLayout regionId gameId riotVersion keyBytes endStartupChunkId
              startGameChunkId players keyframes chunks).length) := by
  unfold encode
  rw [encodeWith_ok 0 _ _ _ _ _ _ _ _ _ _ h, h.key]

theorem encodeWith_inv (fill : Nat) (regionId gameId : Int) (riotVersion key : String)
    (endStartupChunkId startGameChunkId : Int) (players : List Player)
    (keyframes chunks : List (Option Fragment)) (r : List Nat × Nat)
    (h : encodeWith fill regionId gameId riotVersion key endStartupChunkId startGameChunkId
        players keyframes chunks = .ok r) :
    EncodeOk regionId gameId riotVersion key (keyField 0 key.toList) endStartupChunkId
      startGameChunkId players keyframes chunks := by
  simp only [encodeWith, countFragments_eq, bind_eq_ok] at h
  obtain ⟨b0, -, b1, -, b2, h2, b3, h3, b4, h4, b5, h5, b6, h6, b7, h7, b8, h8, b9, h9, b10, -,
    b11, h11, b12, h12, b13, h13, r14, h14, b15, -, b16, h16, r17, h17, b18, h18, r19, h19, -⟩
    := h
  have hkl := keyField_length 0 key.toList
  have := writeUInt8_inv _ _ _ _ h2
  have hhi := writeUInt32BE_inv _ _ _ _ h3
  have hlo := writeUInt32BE_inv _ _ _ _ h4
  have := writeUInt8_inv _ _ _ _ h8
  have := writeUInt8_inv _ _ _ _ h11
  have := writeUInt8_inv _ _ _ _ h12
  have := writeUInt8_inv _ _ _ _ h13
  have := writeUInt16BE_inv _ _ _ _ h16
  have := writeUInt16BE_inv _ _ _ _ h18
  constructor
  · omega
  · exact ⟨hhi, hlo⟩
  · exact writeUInt8Str_inv _ _ _ _ h5
  · exact writeUInt8Str_inv _ _ _ _ h6
  · exact writeUInt8Str_inv _ _ _ _ h7
  · rfl
  · omega
  · omega
  · omega
  · omega
  · exact writePlayers_inv _ _ _ _ _ h14
  · omega
  · omega
  · exact writeFragments_inv _ _ _ _ h17
  · exact writeFragments_inv _ _ _ _ h19

theorem encode_inv (regionId gameId : Int) (riotVersion key : String)
    (endStartupChunkId startGameChunkId : Int) (players : List Player)
    (keyframes chunks : List (Option Fragment)) (r : List Nat × Nat)
    (h : encode regionId gameId riotVersion key endStartupChunkId startGameChunkId players
        keyframes chunks = .ok r) :
    ∃ keyBytes, EncodeOk regionId gameId riotVersion key keyBytes endStartupChunkId
      startGameChunkId players keyframes chunks :=
  ⟨_, encodeWith_inv 0 _ _ _ _ _ _ _ _ _ _ h⟩

theorem encode_eq_ok_iff (regionId gameId : Int) (riotVersion key : String)
    (endStartupChunkId startGameChunkId : Int) (players : List Player)
    (keyframes chunks : List (Option Fragment)) (r : List Nat × Nat) :
    encode regionId gameId riotVersion key endStartupChunkId startGameChunkId players
        keyframes chunks = .ok r ↔
    ∃ keyBytes, EncodeOk regionId gameId riotVersion key keyBytes endStartupChunkId
        startGameChunkId players keyframes chunks ∧
      r = (encodedLayout regionId gameId riotVersion keyBytes endStartupChunkId
            startGameChunkId players keyframes chunks,
           (encodedLayout regionId gameId riotVersion keyBytes endStartupChunkId
            startGameChunkId players keyframes chunks).length) := by
  constructor
  · intro h
    obtain ⟨keyBytes, hok⟩ := encode_inv _ _ _ _ _ _ _ _ _ _ h
    refine ⟨keyBytes, hok, ?_⟩
    rw [encode_ok _ _ _ _ _ _ _ _ _ _ hok] at h
    injection h with h
    exact h.symm
  · rintro ⟨keyBytes, hok, rfl⟩
    exact encode_ok _ _ _ _ _ _ _ _ _ _ hok

theorem present_num (x : Option Int) (h : ¬ AbsentNum x) : ∃ v, x = some v ∧ v ≠ 0 := by
  cases x with
  | none => exact (h (Or.inl rfl)).elim
  | some v => exact ⟨v, rfl, fun e => h (Or.inr (by rw [e]))⟩

theorem present_str (x : Option String) (h : ¬ AbsentStr x) : ∃ v, x = some v ∧ v ≠ "" := by
  cases x with
  | none => exact (h (Or.inl rfl)).elim
  | some v => exact ⟨v, rfl, fun e => h (Or.inr (by rw [e]))⟩

theorem save_written_iff (game : Game) (buff : List Nat) (warnings : List String) :
    save game = .written buff warnings ↔
      Encodable game buff ∧ warnings = playerWarnings game := by
  by_cases hm : MandatoryPresent game
  swap
  · constructor
    · intro h
      simp [save, saveRun_of_not_mandatory game hm] at h
    · rintro ⟨h, -⟩
      exact (hm h.mandatory).elim
  obtain ⟨hr, hg, hv, hk, he, hs⟩ := hm
  have hm : MandatoryPresent game := ⟨hr, hg, hv, hk, he, hs⟩
  obtain ⟨regionId, hr, -⟩ := present_num _ hr
  obtain ⟨gameId, hg, -⟩ := present_num _ hg
  obtain ⟨riotVersion, hv, -⟩ := present_str _ hv
  obtain ⟨key, hk, -⟩ := present_str _ hk
  obtain ⟨endStartupChunkId, he, -⟩ := present_num _ he
  obtain ⟨startGameChunkId, hs, -⟩ := present_num _ hs
  have hnk : (game.keyframes = none ∨ game.keyframes = some []) ∨
      ∃ kfs, game.keyframes = some kfs ∧ kfs ≠ [] := by
    rcases hkf : game.keyframes with _ | kfs
    · simp
    · by_cases hkn : kfs = [] <;> simp [hkn]
  rcases hnk with hnk | ⟨kfs, hkf, hkn⟩
  · constructor
    · intro h
      simp [save, saveRun_no_keyframes game hm hnk] at h
    · rintro ⟨⟨-, _, _, _, _, _, _, kfs, _, _, _, _, _, _, _, _, h1, h2, _⟩, -⟩
      rcases hnk with hnk | hnk <;> simp_all
  have hnc : (game.chunks = none ∨ game.chunks = some []) ∨
      ∃ chs, game.chunks = some chs ∧ chs ≠ [] := by
    rcases hch : game.chunks with _ | chs
    · simp
    · by_cases hcn : chs = [] <;> simp [hcn]
  rcases hnc with hnc | ⟨chs, hch, hcn⟩
  · constructor
    · intro h
      simp [save, saveRun_no_chunks game hm kfs hkf hkn hnc] at h
    · rintro ⟨⟨-, _, _, _, _, _, _, _, chs, _, _, _, _, _, _, _, _, _, h1, h2, _⟩, -⟩
      rcases hnc with hnc | hnc <;> simp_all
  have hsave : save game = saveChecked (defaultPlayers game) (playerWarnings game) := by
    simp [save, saveRun_checked game hm kfs chs hkf hkn hch hcn]
  rw [hsave]
  unfold saveChecked
  simp only [defaultPlayers_regionId, defaultPlayers_gameId, defaultPlayers_riotVersion,
    defaultPlayers_key, defaultPlayers_endStartupChunkId, defaultPlayers_startGameChunkId,
    defaultPlayers_players, defaultPlayers_keyframes, defaultPlayers_chunks,
    hr, hg, hv, hk, he, hs, hkf, hch]
  constructor
  · intro h
    split at h
    · rename_i b c henc
      injection h with h1 h2
      subst h1 h2
      obtain ⟨keyBytes, hok, hb⟩ := (encode_eq_ok_iff _ _ _ _ _ _ _ _ _ _).1 henc
      injection hb with hb1 hb2
      exact ⟨⟨hm, regionId, gameId, riotVersion, key, endStartupChunkId, startGameChunkId, kfs,
        chs, keyBytes, hr, hg, hv, hk, he, hs, hkf, hkn, hch, hcn, hok, hb1⟩, rfl⟩
    · cases h
  · rintro ⟨⟨-, r', g', v', k', e', s', kfs', chs', keyBytes, hr', hg', hv', hk', he', hs', hkf',
      -, hch', -, hok, hb⟩, hw⟩
    rw [hr] at hr'; rw [hg] at hg'; rw [hv] at hv'; rw [hk] at hk'; rw [he] at he'
    rw [hs] at hs'; rw [hkf] at hkf'; rw [hch] at hch'
    injection hr' with hr'; injection hg' with hg'; injection hv' with hv'
    injection hk' with hk'; injection he' with he'; injection hs' with hs'
    injection hkf' with hkf'; injection hch' with hch'
    subst hr' hg' hv' hk' he' hs' hkf' hch' hb hw
    rw [encode_ok _ _ _ _ _ _ _ _ _ _ hok]

theorem getElem?_append_cons (pre : List Nat) (x : Nat) (rest : List Nat) (i : Nat)
    (hi : i = pre.length) : (pre ++ x :: rest)[i]? = some x := by
  subst hi
  rw [List.getElem?_append_right (le_refl _)]
  simp

/-- C2, counterexample: the key `Y W J j` decodes to the 3 raw bytes 97, 98, 99
while `Buffer.byteLength` is 5; `save` writes the record, and its output is not
the revision-12 layout of the record with these raw key bytes: the key length
byte is 5 and two more bytes, both 0, follow the raw key bytes. -/
theorem save_key_field_longer_than_key :
    save spacedKeyGame = .written spacedKeyBytes [] ∧
    base64Decode "Y W J j".toList = [97, 98, 99] ∧
    base64ByteLength "Y W J j".toList = 5 ∧
    spacedKeyBytes ≠ revision12Layout 1 1 705032704 7 0 1 [97, 98, 99] 1 1 1
      [{ id := 42, name := "Ahri", teamNr := 0, leagueId := 3, leagueRank := 1,
         championId := 103, spell1Id := 4, spell2Id := 14 }]
      [{ id := 1, data := [1, 2, 3] }] [{ id := 1, data := [0, 1, 2, 3, 4, 5, 6, 7, 8, 9] }] ∧
    spacedKeyBytes = revision12Layout 1 1 705032704 7 0 1 [97, 98, 99, 0, 0] 1 1 1
      [{ id := 42, name := "Ahri", teamNr := 0, leagueId := 3, leagueRank := 1,
         championId := 103, spell1Id := 4, spell2Id := 14 }]
      [{ id := 1, data := [1, 2, 3] }] [{ id := 1, data := [0, 1, 2, 3, 4, 5, 6, 7, 8, 9] }] := by
  decide

/-- C2, amended: whenever `save` produces bytes they are exactly the revision-12
layout of the record, but for the key field: 12, `regionId`, the two big-endian
halves of `gameId`, the three version bytes (each the byte the component is
stored as, which is 0 for a component that is not a number), the key length
byte, which holds `Buffer.byteLength(key, 'base64')`, followed by that many
bytes, namely the raw bytes the key decodes to and then, for each byte of that
length the decoded key does not reach, a byte `save` never writes (a zero
byte, the buffer being zero-filled), the completeness byte,
`endStartupChunkId`, `startGameChunkId`, the player count and the players in
roster order, then the count of populated keyframes and each populated keyframe
in ascending index order, then the same for the chunks; every value lies in the
range of its field and nothing else is emitted. -/
theorem save_bytes_are_revision12_layout (game : Game) (buff : List Nat)
    (warnings : List String) (h : save game = .written buff warnings) :
    ∃ regionId gameId riotVersion key endStartupChunkId startGameChunkId keyframes chunks
        keyBytes,
      game.regionId = some regionId ∧ game.gameId = some gameId ∧
      game.riotVersion = some riotVersion ∧ game.key = some key ∧
      game.endStartupChunkId = some endStartupChunkId ∧
      game.startGameChunkId = some startGameChunkId ∧
      game.keyframes = some keyframes ∧ game.chunks = some chunks ∧
      (base64Decode key.toList).length ≤ base64ByteLength key.toList ∧
      keyBytes = base64Decode key.toList ++ List.replicate
        (base64ByteLength key.toList - (base64Decode key.toList).length) 0 ∧
      EncodeOk regionId gameId riotVersion key keyBytes endStartupChunkId startGameChunkId
        (game.players.getD []) keyframes chunks ∧
      buff = revision12Layout regionId.toNat (gameIdHigh gameId).toNat (gameIdLow gameId).toNat
        (coercedByte ((splitDot riotVersion.toList).get? 0))
        (coercedByte ((splitDot riotVersion.toList).get? 1))
        (coercedByte ((splitDot riotVersion.toList).get? 2))
        keyBytes (completeByte keyframes chunks) endStartupChunkId.toNat
        startGameChunkId.toNat (game.players.getD []) (populated keyframes)
        (populated chunks) := by
  obtain ⟨⟨-, r, g, v, k, e, s, kfs, chs, kb, hr, hg, hv, hk, he, hs, hkf, -, hch, -, hok, hb⟩, -⟩ :=
    (save_written_iff game buff warnings).1 h
  exact ⟨r, g, v, k, e, s, kfs, chs, kb, hr, hg, hv, hk, he, hs, hkf, hch,
    base64Decode_length_le k.toList, by rw [← hok.key, keyField_eq], hok, hb⟩

theorem save_bytes_are_revision12_layout_witness :
    ∃ regionId gameId riotVersion key endStartupChunkId startGameChunkId keyframes chunks
        keyBytes,
      spacedKeyGame.regionId = some regionId ∧ spacedKeyGame.gameId = some gameId ∧
      spacedKeyGame.riotVersion = some riotVersion ∧ spacedKeyGame.key = some key ∧
      spacedKeyGame.endStartupChunkId = some endStartupChunkId ∧
      spacedKeyGame.startGameChunkId = some startGameChunkId ∧
      spacedKeyGame.keyframes = some keyframes ∧ spacedKeyGame.chunks = some chunks ∧
      (base64Decode key.toList).length ≤ base64ByteLength key.toList ∧
      keyBytes = base64Decode key.toList ++ List.replicate
        (base64ByteLength key.toList - (base64Decode key.toList).length) 0 ∧
      EncodeOk regionId gameId riotVersion key keyBytes endStartupChunkId startGameChunkId
        (spacedKeyGame.players.getD []) keyframes chunks ∧
      spacedKeyBytes = revision12Layout regionId.toNat (gameIdHigh gameId).toNat
        (gameIdLow gameId).toNat
        (coercedByte ((splitDot riotVersion.toList).get? 0))
        (coercedByte ((splitDot riotVersion.toList).get? 1))
        (coercedByte ((splitDot riotVersion.toList).get? 2))
        keyBytes (completeByte keyframes chunks) endStartupChunkId.toNat
        startGameChunkId.toNat (spacedKeyGame.players.getD []) (populated keyframes)
        (populated chunks) :=
  save_bytes_are_revision12_layout spacedKeyGame spacedKeyBytes [] (by decide)

/-- C7, the code at the failing input: the record `holesGame`, whose keyframe and
chunk collections have nominal length 1 and no populated entry, passes the
checks of `save`, which hands over a buffer and reports success; the two count
fields of that buffer (offsets 21 and 23) are 0, and `load` rejects the buffer
with `No keyframes`. -/
theorem save_writes_what_load_rejects :
    holesGame.keyframes = some [none] ∧ holesGame.chunks = some [none] ∧
    (populated ([none] : List (Option Fragment))).length = 0 ∧
    save holesGame = .written holesBytes [] ∧
    holesBytes.drop 21 = [0, 0, 0, 0] ∧
    load holesBytes = .failed "No keyframes" := by
  decide

/-- C8, counterexample: in the record below both populated counts equal the nominal
length minus 1, the key has 3 bytes, and the byte of the output at offset
`15 + 3` is 2 (the `endStartupChunkId`), neither 1 nor 0; the completeness byte
is the one at offset `14 + 3`. -/
theorem complete_byte_not_at_offset_15 :
    save offsetGame = .written
      [12, 1, 0, 0, 0, 1, 42, 5, 242, 0, 7, 10, 154, 3, 97, 98, 99, 1, 2, 1, 0, 0, 1, 0, 1, 0,
       0, 0, 3, 1, 2, 3, 0, 1, 0, 1, 0, 0, 0, 10, 0, 1, 2, 3, 4, 5, 6, 7, 8, 9] [] ∧
    base64ByteLength "YWJj".toList = 3 ∧
    ((populated [none, some { id := 1, data := [1, 2, 3] }]).length : Int) = (2 : Int) - 1 ∧
    ((populated [none, some { id := 1, data := [0, 1, 2, 3, 4, 5, 6, 7, 8, 9] }]).length : Int)
      = (2 : Int) - 1 ∧
    ([12, 1, 0, 0, 0, 1, 42, 5, 242, 0, 7, 10, 154, 3, 97, 98, 99, 1, 2, 1, 0, 0, 1, 0, 1, 0,
       0, 0, 3, 1, 2, 3, 0, 1, 0, 1, 0, 0, 0, 10, 0, 1, 2, 3, 4, 5, 6, 7, 8, 9] : List Nat)[15 + 3]?
      = some 2 := by
  decide

/-- C8, amended: for every record that passes validation and is written, the byte at
offset `14 + key length` is 1 if the number of populated keyframes equals the
keyframe collection's nominal length minus 1 and the number of populated chunks
equals the chunk collection's nominal length minus 1, and 0 in every other case. -/
theorem complete_byte_at_offset_14 (game : Game) (buff : List Nat) (warnings : List String)
    (key : String) (keyframes chunks : List (Option Fragment))
    (h : save game = .written buff warnings) (hk : game.key = some key)
    (hkf : game.keyframes = some keyframes) (hch : game.chunks = some chunks) :
    buff[14 + base64ByteLength key.toList]? = some
      (if ((populated keyframes).length : Int) = (keyframes.length : Int) - 1
          ∧ ((populated chunks).length : Int) = (chunks.length : Int) - 1 then 1 else 0) := by
  obtain ⟨⟨-, r, g, v, k, e, s, kfs, chs, kb, -, -, -, hk', -, -, hkf', -, hch', -, hok, hb⟩, -⟩ :=
    (save_written_iff game buff warnings).1 h
  rw [hk] at hk'; rw [hkf] at hkf'; rw [hch] at hch'
  injection hk' with hk'; injection hkf' with hkf'; injection hch' with hch'
  subst hk' hkf' hch' hb
  rw [base64ByteLength_of_decode _ _ hok.key]
  unfold encodedLayout revision12Layout
  simp only [List.append_assoc]
  have hpre : ∀ rest : List Nat,
      [12, r.toNat] ++ (be32 (gameIdHigh g).toNat ++ (be32 (gameIdLow g).toNat
        ++ ([coercedByte ((splitDot v.toList).get? 0),
             coercedByte ((splitDot v.toList).get? 1),
             coercedByte ((splitDot v.toList).get? 2)]
          ++ ([kb.length] ++ (kb ++ ([completeByte keyframes chunks, e.toNat, s.toNat] ++ rest))))))
      = ([12, r.toNat] ++ be32 (gameIdHigh g).toNat ++ be32 (gameIdLow g).toNat
          ++ [coercedByte ((splitDot v.toList).get? 0),
             coercedByte ((splitDot v.toList).get? 1),
             coercedByte ((splitDot v.toList).get? 2)] ++ [kb.length] ++ kb)
        ++ completeByte keyframes chunks :: ([e.toNat, s.toNat] ++ rest) := by
    intro rest; simp
  rw [hpre, getElem?_append_cons _ _ _ _ (by simp; omega)]
  rfl

theorem complete_byte_at_offset_14_witness :
    ([12, 1, 0, 0, 0, 1, 42, 5, 242, 0, 7, 10, 154, 3, 97, 98, 99, 1, 2, 1, 0, 0, 1, 0, 1, 0,
       0, 0, 3, 1, 2, 3, 0, 1, 0, 1, 0, 0, 0, 10, 0, 1, 2, 3, 4, 5, 6, 7, 8, 9] : List Nat)[
        14 + base64ByteLength "YWJj".toList]? = some
      (if ((populated [none, some { id := 1, data := [1, 2, 3] }]).length : Int)
            = (([none, some { id := 1, data := [1, 2, 3] }] : List (Option Fragment)).length : Int) - 1
          ∧ ((populated [none, some { id := 1, data := [0, 1, 2, 3, 4, 5, 6, 7, 8, 9] }]).length : Int)
            = (([none, some { id := 1, data := [0, 1, 2, 3, 4, 5, 6, 7, 8, 9] }] :
                List (Option Fragment)).length : Int) - 1 then 1 else 0) :=
  complete_byte_at_offset_14 offsetGame _ [] "YWJj" _ _ (by decide) rfl rfl rfl

theorem char_toNat_valid (ch : Char) :
    ch.toNat < 55296 ∨ (57343 < ch.toNat ∧ ch.toNat < 1114112) := by
  have h := ch.valid
  simpa [UInt32.isValidChar, Nat.isValidChar, Char.toNat] using h

theorem utf8DecodeAux_start (b : Nat) (rest : List Nat) (lower upper : Nat) (cp : Nat) :
    utf8DecodeAux (b :: rest) cp 0 lower upper =
      if b < 128 then Char.ofNat b :: utf8DecodeAux rest 0 0 128 191
      else if 194 ≤ b ∧ b ≤ 223 then utf8DecodeAux rest (b % 32) 1 128 191
      else if 224 ≤ b ∧ b ≤ 239 then
        utf8DecodeAux rest (b % 16) 2 (if b = 224 then 160 else 128) (if b = 237 then 159 else 191)
      else if 240 ≤ b ∧ b ≤ 244 then
        utf8DecodeAux rest (b % 8) 3 (if b = 240 then 144 else 128) (if b = 244 then 143 else 191)
      else replacementChar :: utf8DecodeAux rest 0 0 128 191 := by
  rw [utf8DecodeAux]
  simp

theorem utf8DecodeAux_last (b : Nat) (rest : List Nat) (lower upper : Nat) (cp : Nat)
    (h : lower ≤ b ∧ b ≤ upper) :
    utf8DecodeAux (b :: rest) cp 1 lower upper
      = Char.ofNat (cp * 64 + b % 64) :: utf8DecodeAux rest 0 0 128 191 := by
  rw [utf8DecodeAux]
  have h1 : ¬ (b < lower ∨ upper < b) := by omega
  simp [h1]

theorem utf8DecodeAux_cont (b : Nat) (rest : List Nat) (lower upper : Nat) (cp n : Nat)
    (h : lower ≤ b ∧ b ≤ upper) :
    utf8DecodeAux (b :: rest) cp (n + 2) lower upper
      = utf8DecodeAux rest (cp * 64 + b % 64) (n + 1) 128 191 := by
  rw [utf8DecodeAux]
  have h1 : ¬ (b < lower ∨ upper < b) := by omega
  simp [h1]

theorem utf8DecodeAux_encodeChar (ch : Char) (rest : List Nat) :
    utf8DecodeAux (utf8EncodeChar ch ++ rest) 0 0 128 191
      = ch :: utf8DecodeAux rest 0 0 128 191 := by
  have hv := char_toNat_valid ch
  have hc : ∀ n, n = ch.toNat → Char.ofNat n = ch := by
    intro n hn; rw [hn]; exact Char.ofNat_toNat ch
  unfold utf8EncodeChar
  simp only []
  split_ifs with h1 h2 h3
  · rw [List.singleton_append, utf8DecodeAux_start, if_pos h1, hc _ rfl]
  · simp only [List.cons_append, List.nil_append]
    rw [utf8DecodeAux_start, if_neg (by omega), if_pos (by omega),
      utf8DecodeAux_last _ _ _ _ _ (by omega), hc _ (by omega)]
  · simp only [List.cons_append, List.nil_append]
    rw [utf8DecodeAux_start, if_neg (by omega), if_neg (by omega), if_pos (by omega),
      utf8DecodeAux_cont _ _ _ _ _ 0 (by split_ifs <;> omega),
      utf8DecodeAux_last _ _ _ _ _ (by omega), hc _ (by omega)]
  · simp only [List.cons_append, List.nil_append]
    rw [utf8DecodeAux_start, if_neg (by omega), if_neg (by omega), if_neg (by omega),
      if_pos (by omega),
      utf8DecodeAux_cont _ _ _ _ _ 1 (by split_ifs <;> omega),
      utf8DecodeAux_cont _ _ _ _ _ 0 (by omega),
      utf8DecodeAux_last _ _ _ _ _ (by omega), hc _ (by omega)]

theorem utf8Decode_encode (s : List Char) : utf8Decode (utf8Encode s) = s := by
  unfold utf8Decode utf8Encode
  induction s with
  | nil => simp [utf8DecodeAux]
  | cons ch s ih =>
    rw [List.flatMap_cons, utf8DecodeAux_encodeChar, ih]

theorem drop_append_of_drop (buff : List Nat) (c k : Nat) (bs rest : List Nat)
    (h : buff.drop c = bs ++ rest) (hk : k = bs.length) : buff.drop (c + k) = rest := by
  subst hk
  rw [← List.drop_drop, h, List.drop_left]

theorem drop_cons_of_drop (buff : List Nat) (c : Nat) (b : Nat) (rest : List Nat)
    (h : buff.drop c = b :: rest) : buff.drop (c + 1) = rest :=
  drop_append_of_drop buff c 1 [b] rest h rfl

theorem slice_of_drop (buff : List Nat) (c k : Nat) (bs rest : List Nat)
    (h : buff.drop c = bs ++ rest) (hk : k = bs.length) : slice buff c (c + k) = bs := by
  subst hk
  unfold slice
  rw [h, Nat.add_sub_cancel_left, List.take_left]

theorem readUInt8_of_drop (buff : List Nat) (c : Nat) (b : Nat) (rest : List Nat)
    (h : buff.drop c = b :: rest) : readUInt8 buff c = .ok (b : Int) := by
  unfold readUInt8
  rw [h]

theorem readUInt16BE_of_drop (buff : List Nat) (c : Nat) (v : Nat) (rest : List Nat)
    (h : buff.drop c = be16 v ++ rest) (hv : v < 65536) :
    readUInt16BE buff c = .ok (v : Int) := by
  unfold readUInt16BE
  rw [h]
  simp only [be16, List.cons_append, List.nil_append]
  congr 2
  omega

theorem readUInt32BE_of_drop (buff : List Nat) (c : Nat) (v : Nat) (rest : List Nat)
    (h : buff.drop c = be32 v ++ rest) (hv : v < 4294967296) :
    readUInt32BE buff c = .ok (v : Int) := by
  unfold readUInt32BE
  rw [h]
  simp only [be32, List.cons_append, List.nil_append]
  congr 2
  omega

theorem readInt32BE_of_drop (buff : List Nat) (c : Nat) (v : Int) (rest : List Nat)
    (h : buff.drop c = int32Bytes v ++ rest) (h0 : -2147483648 ≤ v) (h1 : v ≤ 2147483647) :
    readInt32BE buff c = .ok v := by
  unfold readInt32BE
  rw [h]
  simp only [int32Bytes, be32, List.cons_append, List.nil_append]
  congr 1
  split <;> omega

theorem readInt32BE_length_of_drop (buff : List Nat) (c : Nat) (n : Nat) (rest : List Nat)
    (h : buff.drop c = be32 n ++ rest) (h1 : n ≤ 2147483647) :
    readInt32BE buff c = .ok (n : Int) := by
  unfold readInt32BE
  rw [h]
  simp only [be32, List.cons_append, List.nil_append]
  congr 1
  split <;> omega

theorem copy_load (buff : List Nat) (c n : Nat) (hc : c ≤ buff.length) :
    copy buff (filled 0 [] n) 0 c (c + n)
      = .ok ((buff.drop c).take n ++ List.replicate (n - ((buff.drop c).take n).length) 0) := by
  unfold copy
  rw [if_neg (by omega)]
  simp only [filled, List.nil_append, List.length_replicate]
  split
  · rename_i h
    have hn : n = 0 := by omega
    subst hn
    simp
  · rename_i h
    simp only [Nat.add_sub_cancel_left, Nat.sub_zero, List.take_zero, List.nil_append,
      Nat.zero_add, List.take_take, Nat.min_self, List.drop_replicate]

theorem length_of_drop (buff : List Nat) (c : Nat) (bs rest : List Nat)
    (h : buff.drop c = bs ++ rest) (hne : 0 < bs.length) : c + bs.length ≤ buff.length := by
  have h1 := congrArg List.length h
  rw [List.length_drop, List.length_append] at h1
  omega

theorem copy_load_of_drop (buff : List Nat) (c : Nat) (data rest : List Nat)
    (h : buff.drop c = data ++ rest) (hc : c ≤ buff.length) :
    copy buff (filled 0 [] data.length) 0 c (c + data.length) = .ok data := by
  rw [copy_load buff c data.length hc, h, List.take_left]
  simp

theorem readPlayers_stream (ps : List Player) (hok : ∀ p ∈ ps, PlayerOk p) (buff : List Nat)
    (c : Nat) (rest : List Nat) (acc : List Player)
    (hd : buff.drop c = ps.flatMap playerBytes ++ rest) :
    readPlayers buff ps.length c acc
      = .ok (acc ++ ps, c + (ps.flatMap playerBytes).length) := by
  induction ps generalizing c acc with
  | nil => simp [readPlayers, pure, Except.pure]
  | cons p ps ih =>
    obtain ⟨hlen, hid, ht, hl, hr, hch, hs1, hs2⟩ := hok p (List.mem_cons_self _ _)
    have h0 : buff.drop c = int32Bytes p.id ++ (utf8ByteLength p.name ::
        (utf8Encode p.name.toList ++ (p.teamNr.toNat :: p.leagueId.toNat :: p.leagueRank.toNat ::
          (int32Bytes p.championId ++ (int32Bytes p.spell1Id ++ (int32Bytes p.spell2Id
            ++ (ps.flatMap playerBytes ++ rest))))))) := by
      rw [hd]; simp [playerBytes]
    have h1 := drop_append_of_drop _ _ 4 _ _ h0 rfl
    have h2 := drop_cons_of_drop _ _ _ _ h1
    have h3 := drop_append_of_drop _ _ (utf8ByteLength p.name) _ _ h2 rfl
    have h4 := drop_cons_of_drop _ _ _ _ h3
    have h5 := drop_cons_of_drop _ _ _ _ h4
    have h6 := drop_cons_of_drop _ _ _ _ h5
    have h7 := drop_append_of_drop _ _ 4 _ _ h6 rfl
    have h8 := drop_append_of_drop _ _ 4 _ _ h7 rfl
    have h9 := drop_append_of_drop _ _ 4 _ _ h8 rfl
    simp only [List.length_cons, readPlayers]
    rw [readInt32BE_of_drop _ _ _ _ h0 hid.1 hid.2, ok_bind]
    rw [readUInt8_of_drop _ _ _ _ h1, ok_bind]
    simp only [Int.toNat_ofNat]
    rw [slice_of_drop _ _ (utf8ByteLength p.name) _ _ h2 rfl, utf8Decode_encode]
    rw [readUInt8_of_drop _ _ _ _ h3, ok_bind]
    rw [readUInt8_of_drop _ _ _ _ h4, ok_bind]
    rw [readUInt8_of_drop _ _ _ _ h5, ok_bind]
    rw [readInt32BE_of_drop _ _ _ _ h6 hch.1 hch.2, ok_bind]
    rw [readInt32BE_of_drop _ _ _ _ h7 hs1.1 hs1.2, ok_bind]
    rw [readInt32BE_of_drop _ _ _ _ h8 hs2.1 hs2.2, ok_bind]
    rw [ih (fun q hq => hok q (List.mem_cons_of_mem _ hq)) _ _ h9]
    have hp : Player.mk p.id (String.mk p.name.toList) (p.teamNr.toNat : Int)
        (p.leagueId.toNat : Int) (p.leagueRank.toNat : Int) p.championId p.spell1Id p.spell2Id
        = p := by
      rw [Int.toNat_of_nonneg ht.1, Int.toNat_of_nonneg hl.1, Int.toNat_of_nonneg hr.1]
      cases p
      rfl
    rw [hp]
    have hpl := playerBytes_length p
    simp only [List.flatMap_cons, List.length_append, List.append_assoc, List.singleton_append]
    congr 2
    omega

theorem readFragmentId_of_drop (fileVersion : Int) (buff : List Nat) (i c : Nat)
    (idField rest : List Nat) (hd : buff.drop c = idField ++ rest)
    (hw : idField.length = idFieldWidth fileVersion) :
    readFragmentId fileVersion buff i c
      = .ok (fragmentIdOf fileVersion i idField, c + idField.length) := by
  unfold readFragmentId fragmentIdOf
  unfold idFieldWidth at hw
  by_cases h1 : fileVersion < 11
  · rw [if_pos h1, if_pos h1]
    rw [if_pos (by omega)] at hw
    obtain ⟨b, rfl⟩ := List.length_eq_one.1 hw
    rw [readUInt8_of_drop _ _ _ _ hd, ok_bind]
    rfl
  · rw [if_neg h1, if_neg h1]
    by_cases h2 : fileVersion = 11
    · rw [if_pos h2, if_pos h2]
      rw [if_pos (by omega)] at hw
      rw [hw]
      rfl
    · rw [if_neg h2, if_neg h2]
      rw [if_neg (by omega)] at hw
      obtain ⟨b0, b1, rfl⟩ := List.length_eq_two.1 hw
      unfold readUInt16BE
      rw [hd]
      rfl

theorem readFragments_stream (fileVersion : Int) (items : List (List Nat × List Nat))
    (hitems : ∀ it ∈ items, it.1.length = idFieldWidth fileVersion ∧ it.2.length ≤ 2147483647)
    (buff : List Nat) (c i : Nat) (arr : List (Option Fragment)) (rest : List Nat)
    (hd : buff.drop c = items.flatMap itemBytes ++ rest) :
    readFragments fileVersion buff items.length i c arr
      = .ok (storeItems fileVersion i items arr, c + (items.flatMap itemBytes).length) := by
  induction items generalizing c i arr with
  | nil => simp [readFragments, storeItems, pure, Except.pure]
  | cons it items ih =>
    obtain ⟨hw, hl⟩ := hitems it (List.mem_cons_self _ _)
    have h0 : buff.drop c = it.1 ++ (be32 it.2.length ++ (it.2
        ++ (items.flatMap itemBytes ++ rest))) := by
      rw [hd]; simp [itemBytes]
    have h1 := drop_append_of_drop _ _ it.1.length _ _ h0 rfl
    have h2 := drop_append_of_drop _ _ 4 _ _ h1 rfl
    have h3 := drop_append_of_drop _ _ it.2.length _ _ h2 rfl
    have hc := length_of_drop _ _ _ _ h1 (by simp)
    simp only [List.length_cons, readFragments]
    rw [readFragmentId_of_drop _ _ _ _ _ _ h0 hw, ok_bind]
    simp only []
    rw [readInt32BE_length_of_drop _ _ _ _ h1 hl, ok_bind, newBuffer_natCast, ok_bind]
    simp only [Int.toNat_ofNat]
    rw [copy_load_of_drop _ _ _ _ h2 (by simp at hc; omega), ok_bind]
    rw [ih (fun q hq => hitems q (List.mem_cons_of_mem _ hq)) _ _ _ h3]
    simp only [storeItems, List.flatMap_cons, List.length_append, itemBytes, be32_length]
    congr 2
    omega

theorem setSparse_length {α : Type} (arr : List (Option α)) (i : Nat) (v : α) :
    (setSparse arr i v).length = max arr.length (i + 1) := by
  unfold setSparse
  split
  · simp; omega
  · simp; omega

theorem setSparse_getElem? {α : Type} (arr : List (Option α)) (i : Nat) (v : α) (j : Nat) :
    (setSparse arr i v)[j]?.join = if j = i then some v else arr[j]?.join := by
  unfold setSparse
  split
  · rename_i h
    rw [List.getElem?_set]
    by_cases hj : j = i
    · subst hj; simp [h]
    · have : ¬ i = j := fun e => hj e.symm
      simp [hj, this]
  · rename_i h
    have hlen : (arr ++ List.replicate (i - arr.length) none).length = i := by
      simp; omega
    rw [List.getElem?_append, hlen]
    by_cases hlt : j < i
    · rw [if_pos hlt, if_neg (by omega), List.getElem?_append]
      by_cases hlt2 : j < arr.length
      · rw [if_pos hlt2]
      · rw [if_neg hlt2, List.getElem?_eq_none (l := arr) (by omega),
          List.getElem?_replicate, if_pos (by omega)]
        rfl
    · rw [if_neg hlt, List.getElem?_eq_none (l := arr) (by omega)]
      by_cases hj : j = i
      · subst hj
        simp
      · rw [if_neg hj, List.getElem?_eq_none (by simp; omega)]

theorem readGameId_of_drop (fileVersion : Nat) (buff : List Nat) (c gameId : Nat)
    (rest : List Nat) (hd : buff.drop c = gameIdField fileVersion gameId ++ rest)
    (hg : gameId < (if fileVersion = 8 then 4294967296 else 18446744073709551616)) :
    readGameId (fileVersion : Int) buff c
      = .ok (decodedGameId fileVersion gameId, c + (gameIdField fileVersion gameId).length) := by
  unfold readGameId decodedGameId
  unfold gameIdField at hd ⊢
  by_cases h8 : fileVersion = 8
  · rw [if_pos h8] at hd hg
    rw [if_pos (by omega), if_pos h8, if_pos h8, readUInt32BE_of_drop _ _ _ _ hd hg, ok_bind]
    rfl
  · rw [if_neg h8] at hd hg
    rw [List.append_assoc] at hd
    have h1 := drop_append_of_drop _ _ 4 _ _ hd rfl
    rw [if_neg (by omega), if_neg h8, if_neg h8, readUInt32BE_of_drop _ _ _ _ hd (by omega),
      ok_bind]
    simp only []
    rw [readUInt32BE_of_drop _ _ _ _ h1 (by omega), ok_bind]
    simp only [pure, Except.pure, List.length_append, be32_length]
    rw [joinGameId_halves gameId hg]

theorem readCount_of_drop (fileVersion : Nat) (buff : List Nat) (c n : Nat) (rest : List Nat)
    (hd : buff.drop c = countField fileVersion n ++ rest) (hn : n < 65536) :
    readCount (fileVersion : Int) buff c
      = .ok ((n : Int), c + (countField fileVersion n).length) := by
  unfold readCount
  unfold countField at hd ⊢
  by_cases h : fileVersion < 11
  · rw [if_pos h] at hd
    rw [if_pos (by omega), if_pos h, readUInt8_of_drop _ _ _ _ hd, ok_bind]
    rfl
  · rw [if_neg h] at hd
    rw [if_neg (by omega), if_neg h, readUInt16BE_of_drop _ _ _ _ hd hn, ok_bind]
    rfl

theorem setSparse_lastSome (arr : List (Option Fragment)) (i : Nat) (v : Fragment)
    (h : arr = [] ∨ LastSome arr) : LastSome (setSparse arr i v) := by
  unfold setSparse
  split
  · rename_i hlt
    rcases h with h | ⟨last, h⟩
    · subst h; simp at hlt
    · rw [List.getLast?_eq_getElem?] at h
      unfold LastSome
      rw [List.getLast?_eq_getElem?, List.length_set, List.getElem?_set]
      by_cases hi : i = arr.length - 1
      · rw [if_pos hi]
        simp [hlt]
      · rw [if_neg hi]
        exact ⟨last, h⟩
  · exact ⟨v, by simp⟩

theorem storeItems_lastSome (fileVersion : Int) (items : List (List Nat × List Nat)) (i : Nat)
    (arr : List (Option Fragment)) (h : (arr = [] ∧ items ≠ []) ∨ LastSome arr) :
    LastSome (storeItems fileVersion i items arr) := by
  induction items generalizing i arr with
  | nil =>
    rcases h with ⟨-, h⟩ | h
    · exact (h rfl).elim
    · exact h
  | cons it items ih =>
    unfold storeItems
    apply ih
    right
    apply setSparse_lastSome
    rcases h with ⟨h, -⟩ | h
    · exact Or.inl h
    · exact Or.inr h

theorem lastSome_length (arr : List (Option Fragment)) (h : LastSome arr) : 0 < arr.length := by
  obtain ⟨last, h⟩ := h
  cases arr with
  | nil => simp at h
  | cons _ _ => simp

theorem replayStream_eq_head (fileVersion regionId gameId v0 v1 v2 : Nat) (keyBytes : List Nat)
    (complete endStartupChunkId startGameChunkId : Nat) (players : List Player)
    (keyframes chunks : List (List Nat × List Nat)) :
    replayStream fileVersion regionId gameId v0 v1 v2 keyBytes complete endStartupChunkId
        startGameChunkId players keyframes chunks
      = streamHead fileVersion regionId gameId v0 v1 v2 keyBytes complete endStartupChunkId
          startGameChunkId players keyframes
        ++ (countField fileVersion chunks.length ++ chunks.flatMap itemBytes) := by
  simp [replayStream, streamHead]

theorem loadRun_head (fileVersion regionId gameId v0 v1 v2 : Nat) (keyBytes : List Nat)
    (complete endStartupChunkId startGameChunkId : Nat) (players : List Player)
    (keyframes : List (List Nat × List Nat)) (rest : List Nat)
    (hrev : 8 ≤ fileVersion ∧ fileVersion ≠ 9)
    (hgame : gameId < (if fileVersion = 8 then 4294967296 else 18446744073709551616))
    (hplayers : ∀ p ∈ players, PlayerOk p) (hcount : keyframes.length < 65536)
    (hitems : ∀ it ∈ keyframes,
      it.1.length = idFieldWidth (fileVersion : Int) ∧ it.2.length ≤ 2147483647) :
    loadRun (streamHead fileVersion regionId gameId v0 v1 v2 keyBytes complete
        endStartupChunkId startGameChunkId players keyframes ++ rest)
      = if keyframes = [] then
          .ok (.error "No keyframes", (streamHead fileVersion regionId gameId v0 v1 v2 keyBytes
            complete endStartupChunkId startGameChunkId players keyframes).length)
        else
          loadChunks (fileVersion : Int)
            (streamHead fileVersion regionId gameId v0 v1 v2 keyBytes complete
              endStartupChunkId startGameChunkId players keyframes ++ rest)
            (streamHead fileVersion regionId gameId v0 v1 v2 keyBytes complete
              endStartupChunkId startGameChunkId players keyframes).length
            (storeItems (fileVersion : Int) 0 keyframes [])
            (streamMetadata fileVersion regionId gameId v0 v1 v2 keyBytes complete
              endStartupChunkId startGameChunkId players) := by
  generalize hbuff : streamHead fileVersion regionId gameId v0 v1 v2 keyBytes complete
    endStartupChunkId startGameChunkId players keyframes ++ rest = buff
  have hlen : (streamHead fileVersion regionId gameId v0 v1 v2 keyBytes complete
      endStartupChunkId startGameChunkId players keyframes).length
      = 0 + 1 + 1 + (gameIdField fileVersion gameId).length + 1 + 1 + 1 + 1 + keyBytes.length
        + 1 + 1 + 1 + 1 + (players.flatMap playerBytes).length
        + (countField fileVersion keyframes.length).length
        + (keyframes.flatMap itemBytes).length := by
    simp only [streamHead, List.length_append, List.length_cons, List.length_nil]
  have h0 : buff.drop 0 = fileVersion :: regionId :: (gameIdField fileVersion gameId
      ++ (v0 :: v1 :: v2 :: keyBytes.length :: (keyBytes ++ (complete :: endStartupChunkId
        :: startGameChunkId :: players.length :: (players.flatMap playerBytes
        ++ (countField fileVersion keyframes.length ++ (keyframes.flatMap itemBytes
        ++ rest))))))) := by
    rw [← hbuff]; simp [streamHead]
  have h1 := drop_cons_of_drop _ _ _ _ h0
  have h2 := drop_cons_of_drop _ _ _ _ h1
  have h3 := drop_append_of_drop _ _ _ _ _ h2 rfl
  have h4 := drop_cons_of_drop _ _ _ _ h3
  have h5 := drop_cons_of_drop _ _ _ _ h4
  have h6 := drop_cons_of_drop _ _ _ _ h5
  have h7 := drop_cons_of_drop _ _ _ _ h6
  have h8 := drop_append_of_drop _ _ _ _ _ h7 rfl
  have h9 := drop_cons_of_drop _ _ _ _ h8
  have h10 := drop_cons_of_drop _ _ _ _ h9
  have h11 := drop_cons_of_drop _ _ _ _ h10
  have h12 := drop_cons_of_drop _ _ _ _ h11
  have h13 := drop_append_of_drop _ _ _ _ _ h12 rfl
  have h14 := drop_append_of_drop _ _ _ _ _ h13 rfl
  have hv8 : ¬ ((fileVersion : Int) < 8) := by omega
  have hv9 : ¬ ((fileVersion : Int) = 9) := by omega
  simp only [loadRun]
  rw [readUInt8_of_drop _ _ _ _ h0, ok_bind]
  simp only [if_neg hv8, if_neg hv9]
  rw [readUInt8_of_drop _ _ _ _ h1, ok_bind]
  rw [readGameId_of_drop _ _ _ _ _ h2 hgame, ok_bind]
  simp only []
  rw [readUInt8_of_drop _ _ _ _ h3, ok_bind]
  rw [readUInt8_of_drop _ _ _ _ h4, ok_bind]
  rw [readUInt8_of_drop _ _ _ _ h5, ok_bind]
  rw [readUInt8_of_drop _ _ _ _ h6, ok_bind]
  simp only [Int.toNat_ofNat]
  rw [slice_of_drop _ _ _ _ _ h7 rfl]
  rw [readUInt8_of_drop _ _ _ _ h8, ok_bind]
  rw [readUInt8_of_drop _ _ _ _ h9, ok_bind]
  rw [readUInt8_of_drop _ _ _ _ h10, ok_bind]
  rw [readUInt8_of_drop _ _ _ _ h11, ok_bind]
  simp only [Int.toNat_ofNat]
  rw [readPlayers_stream _ hplayers _ _ _ _ h12, ok_bind]
  simp only []
  rw [readCount_of_drop _ _ _ _ _ h13 hcount, ok_bind]
  simp only [Int.toNat_ofNat]
  rw [readFragments_stream _ _ hitems _ _ _ _ _ h14, ok_bind]
  simp only [List.nil_append]
  rw [hlen]
  by_cases hk : keyframes = []
  · subst hk
    simp [storeItems, pure, Except.pure]
  · have hkl := lastSome_length _
      (storeItems_lastSome (fileVersion : Int) keyframes 0 [] (Or.inl ⟨rfl, hk⟩))
    rw [if_neg (by omega), if_neg hk]
    rfl

theorem loadChunks_stream (fileVersion : Nat) (buff : List Nat) (c : Nat)
    (chunks : List (List Nat × List Nat)) (extra : List Nat)
    (keyframes : List (Option Fragment)) (metadata : Int → ReplayMetadata)
    (hd : buff.drop c = countField fileVersion chunks.length
      ++ (chunks.flatMap itemBytes ++ extra))
    (hcount : chunks.length < 65536)
    (hitems : ∀ it ∈ chunks,
      it.1.length = idFieldWidth (fileVersion : Int) ∧ it.2.length ≤ 2147483647) :
    (chunks = [] → loadChunks (fileVersion : Int) buff c keyframes metadata
      = .ok (.error "No chunks", c + (countField fileVersion 0).length)) ∧
    (chunks ≠ [] → ∃ last,
      (storeItems (fileVersion : Int) 0 chunks []).getLast? = some (some last) ∧
      loadChunks (fileVersion : Int) buff c keyframes metadata
        = .ok (.ok (metadata last.id,
                    { keyframes := keyframes,
                      chunks := storeItems (fileVersion : Int) 0 chunks [] }),
               c + (countField fileVersion chunks.length).length
                 + (chunks.flatMap itemBytes).length)) := by
  have h1 := drop_append_of_drop _ _ _ _ _ hd rfl
  have hrun : loadChunks (fileVersion : Int) buff c keyframes metadata
      = (if 0 < (storeItems (fileVersion : Int) 0 chunks []).length then
          match (storeItems (fileVersion : Int) 0 chunks []).getLast? with
          | some (some last) =>
            .ok (.ok (metadata last.id,
                      { keyframes := keyframes,
                        chunks := storeItems (fileVersion : Int) 0 chunks [] }),
                 c + (countField fileVersion chunks.length).length
                   + (chunks.flatMap itemBytes).length)
          | _ => .error .typeError
        else .ok (.error "No chunks", c + (countField fileVersion chunks.length).length
                   + (chunks.flatMap itemBytes).length)) := by
    simp only [loadChunks]
    rw [readCount_of_drop _ _ _ _ _ hd hcount, ok_bind]
    simp only [Int.toNat_ofNat]
    rw [readFragments_stream _ _ hitems _ _ _ _ _ h1, ok_bind]
    rfl
  constructor
  · intro hc
    subst hc
    rw [hrun]
    simp [storeItems]
  · intro hc
    obtain ⟨last, hlast⟩ := storeItems_lastSome (fileVersion : Int) chunks 0 []
      (Or.inl ⟨rfl, hc⟩)
    have hcl := lastSome_length _ ⟨last, hlast⟩
    refine ⟨last, hlast, ?_⟩
    rw [hrun, if_pos hcl]
    simp only [hlast]

theorem loadRun_stream (fileVersion regionId gameId v0 v1 v2 : Nat) (keyBytes : List Nat)
    (complete endStartupChunkId startGameChunkId : Nat) (players : List Player)
    (keyframes chunks : List (List Nat × List Nat)) (extra : List Nat)
    (hok : StreamOk fileVersion gameId players keyframes chunks)
    (hk : keyframes ≠ []) (hc : chunks ≠ []) :
    ∃ last, (storeItems (fileVersion : Int) 0 chunks []).getLast? = some (some last) ∧
      loadRun (replayStream fileVersion regionId gameId v0 v1 v2 keyBytes complete
          endStartupChunkId startGameChunkId players keyframes chunks ++ extra)
        = .ok (.ok ({ fileVersion := (fileVersion : Int), regionId := (regionId : Int),
                      gameId := decodedGameId fileVersion gameId,
                      riotVersion := versionText v0 v1 v2,
                      key := String.mk (base64Encode keyBytes), complete := (complete : Int),
                      endStartupChunkId := (endStartupChunkId : Int),
                      startGameChunkId := (startGameChunkId : Int), players := players,
                      endGameChunkId := last.id },
                    { keyframes := storeItems (fileVersion : Int) 0 keyframes [],
                      chunks := storeItems (fileVersion : Int) 0 chunks [] }),
               (replayStream fileVersion regionId gameId v0 v1 v2 keyBytes complete
                 endStartupChunkId startGameChunkId players keyframes chunks).length) := by
  have hhead := loadRun_head fileVersion regionId gameId v0 v1 v2 keyBytes complete
    endStartupChunkId startGameChunkId players keyframes
    (countField fileVersion chunks.length ++ chunks.flatMap itemBytes ++ extra)
    hok.revision hok.gameId hok.players hok.keyframeCount hok.keyframes
  rw [if_neg hk] at hhead
  have hd : (streamHead fileVersion regionId gameId v0 v1 v2 keyBytes complete
      endStartupChunkId startGameChunkId players keyframes
      ++ (countField fileVersion chunks.length ++ chunks.flatMap itemBytes ++ extra)).drop
        (streamHead fileVersion regionId gameId v0 v1 v2 keyBytes complete
          endStartupChunkId startGameChunkId players keyframes).length
      = countField fileVersion chunks.length ++ (chunks.flatMap itemBytes ++ extra) := by
    rw [List.drop_left, List.append_assoc]
  obtain ⟨last, hlast, hch⟩ := (loadChunks_stream fileVersion _ _ chunks extra
    (storeItems (fileVersion : Int) 0 keyframes [])
    (streamMetadata fileVersion regionId gameId v0 v1 v2 keyBytes complete
      endStartupChunkId startGameChunkId players) hd hok.chunkCount hok.chunks).2 hc
  refine ⟨last, hlast, ?_⟩
  rw [replayStream_eq_head, List.append_assoc, hhead, hch]
  refine congrArg Except.ok (Prod.ext rfl ?_)
  simp only [List.length_append]
  omega

set_option maxRecDepth 100000 in
theorem repr_no_dot : ∀ a < 256, '.' ∉ (Nat.repr a).toList := by decide

set_option maxRecDepth 100000 in
theorem coerced_repr_all : ∀ a < 256,
    (stringToNumber (Nat.repr a).toList).outOfByteRange = false
      ∧ (stringToNumber (Nat.repr a).toList).toUint8 = a := by decide

theorem splitDot_no_dot (w : List Char) (h : '.' ∉ w) : splitDot w = [w] := by
  induction w with
  | nil => rfl
  | cons ch w ih =>
    have h1 : ch ≠ '.' := fun e => h (by rw [e]; exact List.mem_cons_self _ _)
    have h2 : '.' ∉ w := fun e => h (List.mem_cons_of_mem _ e)
    simp [splitDot, h1, ih h2]

theorem splitDot_append_dot (w rest : List Char) (h : '.' ∉ w) :
    splitDot (w ++ '.' :: rest) = w :: splitDot rest := by
  induction w with
  | nil => simp [splitDot]
  | cons ch w ih =>
    have h1 : ch ≠ '.' := fun e => h (by rw [e]; exact List.mem_cons_self _ _)
    have h2 : '.' ∉ w := fun e => h (List.mem_cons_of_mem _ e)
    simp [splitDot, h1, ih h2]

theorem versionText_toList (a b c : Nat) :
    (versionText a b c).toList
      = (Nat.repr a).toList ++ '.' :: ((Nat.repr b).toList ++ '.' :: (Nat.repr c).toList) := by
  simp [versionText, numberToString, String.toList]

theorem splitDot_versionText (a b c : Nat) (ha : a < 256) (hb : b < 256) (hc : c < 256) :
    splitDot (versionText a b c).toList
      = [(Nat.repr a).toList, (Nat.repr b).toList, (Nat.repr c).toList] := by
  rw [versionText_toList, splitDot_append_dot _ _ (repr_no_dot a ha),
    splitDot_append_dot _ _ (repr_no_dot b hb), splitDot_no_dot _ (repr_no_dot c hc)]

theorem coerced_repr (a : Nat) (ha : a < 256) :
    CoercedOk (some (Nat.repr a).toList) ∧ coercedByte (some (Nat.repr a).toList) = a := by
  exact coerced_repr_all a ha

theorem fragmentIdOf_be16 (fileVersion : Int) (h12 : 12 ≤ fileVersion) (i : Nat) (id : Int)
    (h0 : 0 ≤ id) (h1 : id ≤ 65535) : fragmentIdOf fileVersion i (be16 id.toNat) = id := by
  unfold fragmentIdOf
  rw [if_neg (by omega), if_neg (by omega)]
  simp only [be16, List.headD_cons, List.tail_cons]
  omega

theorem itemBytes_fragmentItem (f : Fragment) : itemBytes (fragmentItem f) = fragmentBytes f := rfl

theorem flatMap_fragmentItem (fs : List Fragment) :
    (fs.map fragmentItem).flatMap itemBytes = fs.flatMap fragmentBytes := by
  induction fs with
  | nil => rfl
  | cons f fs ih => simp [List.flatMap_cons, itemBytes_fragmentItem, ih]

theorem populated_getElem? (slots : List (Option Fragment)) :
    ∀ f ∈ populated slots, ∃ j : Nat, slots[j]? = some (some f) := by
  intro f hf
  unfold populated at hf
  rw [List.mem_filterMap] at hf
  obtain ⟨a, ha, hfa⟩ := hf
  simp only [id] at hfa
  subst hfa
  obtain ⟨j, hj⟩ := List.getElem?_of_mem ha
  exact ⟨j, hj⟩

theorem store_populated (fileVersion : Int) (h12 : 12 ≤ fileVersion)
    (slots : List (Option Fragment)) (k n : Nat) (arr : List (Option Fragment))
    (hlen : arr.length ≤ k)
    (hidx : ∀ j f, slots[j]? = some (some f) → f.id = ((k + j : Nat) : Int) ∧ f.id ≤ 65535) :
    ∀ i, (storeItems fileVersion n ((populated slots).map fragmentItem) arr)[i]?.join
      = if i < k then arr[i]?.join else slots[i - k]?.join := by
  induction slots generalizing k n arr with
  | nil =>
    intro i
    simp only [populated, List.filterMap_nil, List.map_nil, storeItems]
    split
    · rfl
    · rw [List.getElem?_eq_none (by omega)]
      rfl
  | cons a rest ih =>
    have hrest : ∀ j f, rest[j]? = some (some f)
        → f.id = ((k + 1 + j : Nat) : Int) ∧ f.id ≤ 65535 := by
      intro j f hj
      have := hidx (j + 1) f (by simpa using hj)
      refine ⟨?_, this.2⟩
      rw [this.1]
      congr 1
      omega
    intro i
    cases a with
    | none =>
      rw [populated_cons_none, ih (k + 1) n arr (by omega) hrest i]
      by_cases hi : i < k
      · rw [if_pos hi, if_pos (by omega)]
      · rw [if_neg hi]
        by_cases hik : i = k
        · subst hik
          rw [if_pos (by omega), List.getElem?_eq_none (by omega)]
          simp
        · rw [if_neg (by omega)]
          have : i - k = (i - (k + 1)) + 1 := by omega
          rw [this, List.getElem?_cons_succ]
    | some f =>
      obtain ⟨hid, hmax⟩ := hidx 0 f (by simp)
      have hid' : f.id = (k : Int) := by simpa using hid
      have hfid : fragmentIdOf fileVersion n (fragmentItem f).1 = f.id :=
        fragmentIdOf_be16 fileVersion h12 n f.id (by omega) hmax
      have hk : f.id.toNat = k := by omega
      rw [populated_cons_some, List.map_cons, storeItems, hfid, hk]
      have hf : ({ id := f.id, data := (fragmentItem f).2 } : Fragment) = f := by
        cases f; rfl
      rw [hf, ih (k + 1) (n + 1) (setSparse arr k f)
        (by rw [setSparse_length]; omega) hrest i]
      by_cases hi : i < k
      · rw [if_pos hi, if_pos (by omega), setSparse_getElem?, if_neg (by omega)]
      · rw [if_neg hi]
        by_cases hik : i = k
        · subst hik
          rw [if_pos (by omega), setSparse_getElem?, if_pos rfl]
          simp
        · rw [if_neg (by omega)]
          have : i - k = (i - (k + 1)) + 1 := by omega
          rw [this, List.getElem?_cons_succ]

theorem populated_append (l1 l2 : List (Option Fragment)) :
    populated (l1 ++ l2) = populated l1 ++ populated l2 := by
  simp [populated]

theorem populated_length_le (l : List (Option Fragment)) : (populated l).length ≤ l.length := by
  unfold populated
  exact List.length_filterMap_le _ _

theorem populated_eq_nil (l : List (Option Fragment))
    (h : ∀ j : Nat, l[j]?.join = none) : populated l = [] := by
  unfold populated
  rw [List.filterMap_eq_nil_iff]
  intro a ha
  obtain ⟨j, hj⟩ := List.getElem?_of_mem ha
  have := h j
  rw [hj] at this
  simpa using this

theorem populated_count_le (slots : List (Option Fragment))
    (hidx : ∀ (j : Nat) f, slots[j]? = some (some f)
      → f.id = (j : Int) ∧ 1 ≤ f.id ∧ f.id ≤ 65535) :
    (populated slots).length ≤ 65535 := by
  have hsplit : slots = slots.take 65536 ++ slots.drop 65536 := (List.take_append_drop _ _).symm
  have hdrop : populated (slots.drop 65536) = [] := by
    apply populated_eq_nil
    intro j
    rw [List.getElem?_drop]
    rcases hs : slots[65536 + j]? with _ | _ | f
    · rfl
    · rfl
    · have := hidx _ f hs
      omega
  rw [hsplit, populated_append, hdrop, List.append_nil]
  rcases ht : slots.take 65536 with _ | ⟨a, t⟩
  · simp [populated]
  · have hlen : (slots.take 65536).length ≤ 65536 := by
      rw [List.length_take]; omega
    rw [ht] at hlen
    simp only [List.length_cons] at hlen
    cases a with
    | none =>
      rw [populated_cons_none]
      have := populated_length_le t
      omega
    | some f =>
      have h0 : slots[0]? = some (some f) := by
        have : (slots.take 65536)[0]? = some (some f) := by rw [ht]; simp
        rw [List.getElem?_take] at this
        simpa using this
      have := hidx 0 f h0
      omega

theorem populated_getLast (arr slots : List (Option Fragment)) (last : Fragment)
    (hlast : arr.getLast? = some (some last))
    (h : ∀ i : Nat, arr[i]?.join = slots[i]?.join) :
    (populated slots).getLast? = some last := by
  have hpos : 0 < arr.length := by
    cases arr with
    | nil => simp at hlast
    | cons _ _ => simp
  rw [List.getLast?_eq_getElem?] at hlast
  have hs : slots[arr.length - 1]? = some (some last) := by
    have := h (arr.length - 1)
    rw [hlast] at this
    rcases hq : slots[arr.length - 1]? with _ | _ | f
    · rw [hq] at this; simp at this
    · rw [hq] at this; simp at this
    · rw [hq] at this
      simp at this
      rw [this]
  have hlt : arr.length - 1 < slots.length := by
    by_contra hge
    rw [List.getElem?_eq_none (by omega)] at hs
    cases hs
  have hsplit : slots = slots.take (arr.length - 1)
      ++ (some last :: slots.drop (arr.length - 1 + 1)) := by
    have h1 := (List.take_append_drop (arr.length - 1) slots).symm
    rw [List.drop_eq_getElem_cons hlt] at h1
    have h2 : slots[arr.length - 1] = some last := by
      have := List.getElem?_eq_getElem hlt
      rw [this] at hs
      injection hs
    rw [h2] at h1
    exact h1
  have hdrop : populated (slots.drop (arr.length - 1 + 1)) = [] := by
    apply populated_eq_nil
    intro j
    rw [List.getElem?_drop, ← h, List.getElem?_eq_none (by omega)]
    rfl
  rw [hsplit, populated_append, populated_cons_some, hdrop]
  simp

theorem versionText_ne_empty (a b c : Nat) : versionText a b c ≠ "" := by
  intro h
  have h1 := congrArg String.toList h
  rw [versionText_toList] at h1
  have h2 := congrArg List.length h1
  simp at h2

theorem getD_eq_join (l : List (Option Fragment)) (i : Nat) : l.getD i none = l[i]?.join := by
  rw [List.getD_eq_getElem?_getD]
  cases l[i]? <;> rfl

theorem gameId_halves (gameId : Int) (h0 : 0 ≤ gameId) (h1 : gameId ≤ 18446744073709551615)
    (hd : IsDouble gameId) :
    gameIdHigh gameId = ((gameId.toNat / 4294967296 : Nat) : Int)
      ∧ gameIdLow gameId = ((gameId.toNat % 4294967296 : Nat) : Int) := by
  have e : gameId = ((gameId.toNat : Nat) : Int) := by omega
  have hlt : gameId.toNat < 18446744073709551616 := by omega
  rw [e] at hd
  have hh := gameIdHigh_of_double gameId.toNat hlt hd
  have hl := gameIdLow_of_double gameId.toNat hlt hd
  rw [← e] at hh hl
  exact ⟨hh, hl⟩

theorem roundTrip_encodeOk (R : Game) (regionId gameId : Int) (a b c : Nat) (key : String)
    (keyBytes : List Nat) (e s : Int) (kfs chs : List (Option Fragment))
    (h : RoundTripInput R regionId gameId a b c key keyBytes e s kfs chs)
    (hdata : DataFits kfs chs) :
    EncodeOk regionId gameId (versionText a b c) key keyBytes e s (R.players.getD []) kfs chs := by
  obtain ⟨-, hr0, hr1⟩ := h.regionId
  obtain ⟨-, hg0, hg1, hgd⟩ := h.gameId
  obtain ⟨hgh, hgl⟩ := gameId_halves gameId (by omega) hg1 hgd
  obtain ⟨-, ha, hb, hc⟩ := h.riotVersion
  obtain ⟨-, -, hdec, hcanon, hkl⟩ := h.key
  obtain ⟨-, he0, he1⟩ := h.endStartup
  obtain ⟨-, hs0, hs1⟩ := h.startGame
  obtain ⟨hpl, hpo⟩ := h.players
  obtain ⟨-, -, hki⟩ := h.keyframes
  obtain ⟨-, -, hci⟩ := h.chunks
  have hsplit := splitDot_versionText a b c (by omega) (by omega) (by omega)
  refine ⟨⟨by omega, by omega⟩, ⟨by omega, by omega⟩, ?_, ?_, ?_,
    keyField_canonical 0 key.toList keyBytes hdec hcanon, hkl, ⟨by omega, by omega⟩,
    ⟨by omega, by omega⟩, hpl, hpo, ?_, ?_, ?_, ?_⟩
  · rw [hsplit]; exact (coerced_repr a (by omega)).1
  · rw [hsplit]; exact (coerced_repr b (by omega)).1
  · rw [hsplit]; exact (coerced_repr c (by omega)).1
  · exact populated_count_le kfs (fun j f hj => by have := hki j f hj; omega)
  · exact populated_count_le chs (fun j f hj => by have := hci j f hj; omega)
  · intro f hf
    obtain ⟨j, hj⟩ := populated_getElem? kfs f hf
    have := hki j f hj
    exact ⟨⟨by omega, by omega⟩, hdata.1 f hf⟩
  · intro f hf
    obtain ⟨j, hj⟩ := populated_getElem? chs f hf
    have := hci j f hj
    exact ⟨⟨by omega, by omega⟩, hdata.2 f hf⟩

theorem roundTrip_save (R : Game) (regionId gameId : Int) (a b c : Nat) (key : String)
    (keyBytes : List Nat) (e s : Int) (kfs chs : List (Option Fragment))
    (h : RoundTripInput R regionId gameId a b c key keyBytes e s kfs chs)
    (hdata : DataFits kfs chs) :
    save R = .written (encodedLayout regionId gameId (versionText a b c) keyBytes e s
      (R.players.getD []) kfs chs) (playerWarnings R) := by
  have hok := roundTrip_encodeOk R regionId gameId a b c key keyBytes e s kfs chs h hdata
  obtain ⟨hr, hr0, hr1⟩ := h.regionId
  obtain ⟨hg, hg0, hg1, -⟩ := h.gameId
  obtain ⟨hv, -⟩ := h.riotVersion
  obtain ⟨hk, hkne, -⟩ := h.key
  obtain ⟨he, he0, he1⟩ := h.endStartup
  obtain ⟨hs, hs0, hs1⟩ := h.startGame
  obtain ⟨hkf, hkne', -⟩ := h.keyframes
  obtain ⟨hch, hcne', -⟩ := h.chunks
  have hm : MandatoryPresent R := by
    unfold MandatoryPresent AbsentNum AbsentStr
    rw [hr, hg, hv, hk, he, hs]
    have := versionText_ne_empty a b c
    simp only [Option.some.injEq, reduceCtorEq, false_or]
    refine ⟨by omega, by omega, this, hkne, by omega, by omega⟩
  have hkn : kfs ≠ [] := fun e => hkne' (by rw [e]; rfl)
  have hcn : chs ≠ [] := fun e => hcne' (by rw [e]; rfl)
  exact (save_written_iff R _ _).2
    ⟨⟨hm, regionId, gameId, _, key, e, s, kfs, chs, keyBytes, hr, hg, hv, hk, he, hs, hkf, hkn,
      hch, hcn, hok, rfl⟩, rfl⟩

theorem roundTrip_layout (R : Game) (regionId gameId : Int) (a b c : Nat) (key : String)
    (keyBytes : List Nat) (e s : Int) (kfs chs : List (Option Fragment))
    (h : RoundTripInput R regionId gameId a b c key keyBytes e s kfs chs) :
    encodedLayout regionId gameId (versionText a b c) keyBytes e s (R.players.getD []) kfs chs
      = replayStream 12 regionId.toNat gameId.toNat a b c keyBytes (completeByte kfs chs)
          e.toNat s.toNat (R.players.getD []) ((populated kfs).map fragmentItem)
          ((populated chs).map fragmentItem) := by
  obtain ⟨-, hg0, hg1, hgd⟩ := h.gameId
  obtain ⟨hgh, hgl⟩ := gameId_halves gameId (by omega) hg1 hgd
  obtain ⟨-, ha, hb, hc⟩ := h.riotVersion
  have hsplit := splitDot_versionText a b c (by omega) (by omega) (by omega)
  have hhi : (gameIdHigh gameId).toNat = gameId.toNat / 4294967296 := by
    rw [hgh]; rfl
  have hlo : (gameIdLow gameId).toNat = gameId.toNat % 4294967296 := by
    rw [hgl]; rfl
  unfold encodedLayout revision12Layout replayStream gameIdField countField
  rw [hsplit, hhi, hlo, flatMap_fragmentItem, flatMap_fragmentItem]
  simp only [List.get?_cons_zero, List.get?_cons_succ, (coerced_repr a (by omega)).2,
    (coerced_repr b (by omega)).2, (coerced_repr c (by omega)).2, List.length_map]
  rfl

theorem roundTrip_streamOk (R : Game) (regionId gameId : Int) (a b c : Nat) (key : String)
    (keyBytes : List Nat) (e s : Int) (kfs chs : List (Option Fragment))
    (h : RoundTripInput R regionId gameId a b c key keyBytes e s kfs chs)
    (hdata : DataFits kfs chs) :
    StreamOk 12 gameId.toNat (R.players.getD []) ((populated kfs).map fragmentItem)
      ((populated chs).map fragmentItem) := by
  have hok := roundTrip_encodeOk R regionId gameId a b c key keyBytes e s kfs chs h hdata
  obtain ⟨-, hg0, hg1, -⟩ := h.gameId
  refine ⟨by decide, ?_, hok.players, ?_, ?_, ?_, ?_⟩
  · rw [if_neg (by decide)]; omega
  · rw [List.length_map]; have := hok.keyframeCount; omega
  · rw [List.length_map]; have := hok.chunkCount; omega
  · intro it hit
    obtain ⟨f, hf, rfl⟩ := List.mem_map.1 hit
    exact ⟨rfl, hdata.1 f hf⟩
  · intro it hit
    obtain ⟨f, hf, rfl⟩ := List.mem_map.1 hit
    exact ⟨rfl, hdata.2 f hf⟩

theorem oversizedData_length : oversizedData.length = 2147483648 := by
  unfold oversizedData
  exact List.length_replicate _ _

theorem oversizedGame_input :
    RoundTripInput oversizedGame 1 5000000000 7 10 154 "YWJj" [97, 98, 99] 1 1
      [none, some { id := 1, data := oversizedData }]
      [none, some { id := 1, data := [0, 1, 2, 3, 4, 5, 6, 7, 8, 9] }] := by
  refine ⟨by decide, by decide, by decide, by decide, by decide, by decide, by decide,
    ⟨rfl, ?_, ?_⟩, ⟨rfl, by decide, ?_⟩⟩
  · rw [populated_cons_none, populated_cons_some]
    exact List.cons_ne_nil _ _
  · intro j f hj
    rcases j with _ | _ | j
    · cases hj
    · injection hj with hj
      injection hj with hj
      subst hj
      exact ⟨rfl, by decide, by decide⟩
    · cases hj
  · intro j f hj
    rcases j with _ | _ | j
    · cases hj
    · injection hj with hj
      injection hj with hj
      subst hj
      exact ⟨rfl, by decide, by decide⟩
    · cases hj

theorem oversizedGame_not_written :
    ¬ ∃ buff warnings, save oversizedGame = .written buff warnings := by
  rintro ⟨buff, warnings, h⟩
  obtain ⟨⟨-, r, g, v, k, e, s, kfs, chs, kb, -, -, -, -, -, -, hkf, -, -, -, hok, -⟩, -⟩ :=
    (save_written_iff _ _ _).1 h
  have hkf' : kfs = [none, some { id := 1, data := oversizedData }] := by
    have : oversizedGame.keyframes = some [none, some { id := 1, data := oversizedData }] := rfl
    rw [this] at hkf
    exact (Option.some.inj hkf).symm
  have := (hok.keyframes { id := 1, data := oversizedData }
    (by rw [hkf', populated_cons_none, populated_cons_some]; exact List.mem_cons_self _ _)).2
  rw [oversizedData_length] at this
  omega

theorem save_written_or_thrown (game : Game) (hm : MandatoryPresent game)
    (kfs chs : List (Option Fragment)) (hk : game.keyframes = some kfs) (hkl : kfs ≠ [])
    (hc : game.chunks = some chs) (hcl : chs ≠ []) :
    (∃ buff warnings, save game = .written buff warnings) ∨ ∃ fault, save game = .thrown fault := by
  have hs : save game = saveChecked (defaultPlayers game) (playerWarnings game) := by
    unfold save
    rw [saveRun_checked game hm kfs chs hk hkl hc hcl]
  rw [hs]
  unfold saveChecked
  split
  · split
    · exact Or.inl ⟨_, _, rfl⟩
    · exact Or.inr ⟨_, rfl⟩
  · exact Or.inr ⟨_, rfl⟩

theorem oversizedGame_thrown : ∃ fault, save oversizedGame = .thrown fault := by
  rcases save_written_or_thrown oversizedGame (by decide)
      [none, some { id := 1, data := oversizedData }]
      [none, some { id := 1, data := [0, 1, 2, 3, 4, 5, 6, 7, 8, 9] }] rfl
      (List.cons_ne_nil _ _) rfl (List.cons_ne_nil _ _) with h | h
  · exact (oversizedGame_not_written h).elim
  · exact h

theorem decodedGameId_of_double (fileVersion : Nat) (gameId : Int) (h0 : 0 ≤ gameId)
    (hd : IsDouble gameId) : decodedGameId fileVersion gameId.toNat = gameId := by
  unfold decodedGameId
  rw [Int.toNat_of_nonneg h0]
  split
  · rfl
  · exact hd

/-- C1, counterexample: the record below meets every condition the claim lists
(it is the example record with the data of its keyframe replaced by `2^31`
bytes), and `save` produces no bytes for it: the data length does not fit the
signed 32-bit length field, so an exception escapes. -/
theorem oversized_keyframe_is_not_saved :
    RoundTripInput oversizedGame 1 5000000000 7 10 154 "YWJj" [97, 98, 99] 1 1
      [none, some { id := 1, data := oversizedData }]
      [none, some { id := 1, data := [0, 1, 2, 3, 4, 5, 6, 7, 8, 9] }] ∧
    (¬ ∃ buff warnings, save oversizedGame = .written buff warnings) ∧
    (∃ fault, save oversizedGame = .thrown fault) :=
  ⟨oversizedGame_input, oversizedGame_not_written, oversizedGame_thrown⟩

/-- C1, amended: a valid replay record in which, in addition to the conditions
listed (region and chunk-marker ids in `1..255`, game id in `1..2^64-1` and, as
the value of a JavaScript number, an integer of at most 53 significant bits, a version
of three canonical decimal components in `0..255`, a non-empty canonical base64
key of at most 255 bytes, at most 255 players in range, at least one keyframe and
one chunk, each stored at the index equal to its id, ids in `1..65535`), every
fragment carries at most `2^31 - 1` data bytes, is written by `save` to a buffer
whose first byte is 12, and `load` of that buffer succeeds and returns the
region id, game id, version, key, chunk markers and player list of the record,
the populated keyframes and chunks of the record at their indices, and the id
of the last populated chunk as `endGameChunkId`. -/
theorem save_load_round_trip (R : Game) (regionId gameId : Int) (a b c : Nat) (key : String)
    (keyBytes : List Nat) (endStartupChunkId startGameChunkId : Int)
    (keyframes chunks : List (Option Fragment))
    (h : RoundTripInput R regionId gameId a b c key keyBytes endStartupChunkId
      startGameChunkId keyframes chunks)
    (hdata : DataFits keyframes chunks) :
    ∃ buff metadata data,
      save R = .written buff (playerWarnings R) ∧ buff.head? = some 12 ∧
      load buff = .ok metadata data ∧
      metadata.fileVersion = 12 ∧ metadata.regionId = regionId ∧ metadata.gameId = gameId ∧
      metadata.riotVersion = versionText a b c ∧ metadata.key = key ∧
      metadata.endStartupChunkId = endStartupChunkId ∧
      metadata.startGameChunkId = startGameChunkId ∧
      metadata.players = R.players.getD [] ∧
      (∀ i, data.keyframes.getD i none = keyframes.getD i none) ∧
      (∀ i, data.chunks.getD i none = chunks.getD i none) ∧
      (populated chunks).getLast?.map (fun f => f.id) = some metadata.endGameChunkId := by
  have hsave := roundTrip_save R regionId gameId a b c key keyBytes endStartupChunkId
    startGameChunkId keyframes chunks h hdata
  have hlay := roundTrip_layout R regionId gameId a b c key keyBytes endStartupChunkId
    startGameChunkId keyframes chunks h
  have hsok := roundTrip_streamOk R regionId gameId a b c key keyBytes endStartupChunkId
    startGameChunkId keyframes chunks h hdata
  obtain ⟨-, hr0, hr1⟩ := h.regionId
  obtain ⟨-, hg0, hg1, hgd⟩ := h.gameId
  obtain ⟨-, -, -, hcanon, -⟩ := h.key
  obtain ⟨-, he0, he1⟩ := h.endStartup
  obtain ⟨-, hs0, hs1⟩ := h.startGame
  obtain ⟨-, hkne, hki⟩ := h.keyframes
  obtain ⟨-, hcne, hci⟩ := h.chunks
  have hkne' : (populated keyframes).map fragmentItem ≠ [] := by
    intro e; exact hkne (List.map_eq_nil_iff.1 e)
  have hcne' : (populated chunks).map fragmentItem ≠ [] := by
    intro e; exact hcne (List.map_eq_nil_iff.1 e)
  obtain ⟨last, hlast, hload⟩ := loadRun_stream 12 regionId.toNat gameId.toNat a b c keyBytes
    (completeByte keyframes chunks) endStartupChunkId.toNat startGameChunkId.toNat
    (R.players.getD []) _ _ [] hsok hkne' hcne'
  rw [List.append_nil, ← hlay] at hload
  have hkstore := store_populated 12 (by decide) keyframes 0 0 [] (by simp)
    (fun j f hj => by have := hki j f hj; exact ⟨by simpa using this.1, this.2.2⟩)
  have hcstore := store_populated 12 (by decide) chunks 0 0 [] (by simp)
    (fun j f hj => by have := hci j f hj; exact ⟨by simpa using this.1, this.2.2⟩)
  have hl := populated_getLast _ chunks last hlast (fun i => by simpa using hcstore i)
  exact ⟨_, _, _, hsave, by rfl, by unfold load; rw [hload], by rfl,
    by exact Int.toNat_of_nonneg (by omega),
    by exact decodedGameId_of_double 12 gameId (by omega) hgd, by rfl,
    by show String.mk (base64Encode keyBytes) = key; rw [hcanon]; rfl,
    by exact Int.toNat_of_nonneg (by omega), by exact Int.toNat_of_nonneg (by omega), by rfl,
    fun i => by rw [getD_eq_join, getD_eq_join]; simpa using hkstore i,
    fun i => by rw [getD_eq_join, getD_eq_join]; simpa using hcstore i,
    by rw [hl]; rfl⟩

theorem storeItems_11 (items : List (List Nat × List Nat)) (i : Nat)
    (arr : List (Option Fragment)) (hlen : arr.length = i + 1) :
    storeItems 11 i items arr = arr ++ positional (items.map Prod.snd) i := by
  induction items generalizing i arr with
  | nil => simp [storeItems, positional]
  | cons it items ih =>
    have hid : fragmentIdOf 11 i it.1 = (i : Int) + 1 := by
      unfold fragmentIdOf; simp
    have hnat : ((i : Int) + 1).toNat = i + 1 := by omega
    have hset : setSparse arr (i + 1) ({ id := (i : Int) + 1, data := it.2 } : Fragment)
        = arr ++ [some { id := (i : Int) + 1, data := it.2 }] := by
      unfold setSparse
      rw [if_neg (by omega), hlen]
      simp
    rw [storeItems, hid, hnat, hset, ih (i + 1) _ (by simp [hlen])]
    simp [positional]

theorem storeItems_11_zero (items : List (List Nat × List Nat)) (h : items ≠ []) :
    storeItems 11 0 items [] = none :: positional (items.map Prod.snd) 0 := by
  cases items with
  | nil => exact (h rfl).elim
  | cons it items =>
    have hid : fragmentIdOf 11 0 it.1 = 1 := by
      unfold fragmentIdOf; simp
    have hset : setSparse ([] : List (Option Fragment)) 1 ({ id := 1, data := it.2 } : Fragment)
        = [none, some { id := 1, data := it.2 }] := by
      simp [setSparse, List.replicate]
    rw [storeItems, hid]
    show storeItems 11 1 items (setSparse [] 1 { id := 1, data := it.2 }) = _
    rw [hset, storeItems_11 items 1 [none, some { id := 1, data := it.2 }] rfl]
    simp [positional]

theorem positional_getLast (ds : List (List Nat)) (i : Nat) (last : Fragment)
    (h : (positional ds i).getLast? = some (some last)) : last.id = ((i + ds.length : Nat) : Int) := by
  induction ds generalizing i with
  | nil => simp [positional] at h
  | cons d ds ih =>
    cases ds with
    | nil =>
      simp [positional] at h
      rw [← h]
      simp
    | cons d' ds =>
      rw [positional, positional, List.getLast?_cons_cons, ← positional] at h
      rw [ih (i + 1) h]
      simp only [List.length_cons]
      congr 1
      omega

theorem storeItems_12_fragments (fs : List Fragment) (h : ∀ f ∈ fs, 0 ≤ f.id ∧ f.id ≤ 65535)
    (n : Nat) (arr : List (Option Fragment)) :
    storeItems 12 n (fs.map fragmentItem) arr = storeFragments fs arr := by
  induction fs generalizing n arr with
  | nil => rfl
  | cons f fs ih =>
    obtain ⟨h0, h1⟩ := h f (List.mem_cons_self _ _)
    have hfid : fragmentIdOf 12 n (fragmentItem f).1 = f.id :=
      fragmentIdOf_be16 12 (by decide) n f.id h0 h1
    have hf : ({ id := f.id, data := (fragmentItem f).2 } : Fragment) = f := by
      cases f; rfl
    rw [List.map_cons, storeItems, hfid, hf, ih (fun g hg => h g (List.mem_cons_of_mem _ hg))]
    rfl

/-- C9: in a well-formed revision-11 buffer with N keyframes and M chunks `load`
gives the keyframes the ids `1..N` and the chunks the ids `1..M` by position in
the stream (the game id it returns being the number `high * 2^32 + low` of the
two halves, that is the double nearest to the 64-bit value they hold), and the
outcome is the same for any other bytes in the id slots of the fragments; in a
well-formed revision-12 buffer every fragment is stored with the id that its
2-byte big-endian id field holds. -/
theorem fragment_ids_by_revision (regionId gameId v0 v1 v2 : Nat) (keyBytes : List Nat)
    (complete endStartupChunkId startGameChunkId : Nat) (players : List Player)
    (keyframes chunks : List (List Nat × List Nat)) (keyframes12 chunks12 : List Fragment)
    (h11 : StreamOk 11 gameId players keyframes chunks)
    (hk : keyframes ≠ []) (hc : chunks ≠ [])
    (h12 : StreamOk 12 gameId players (keyframes12.map fragmentItem)
      (chunks12.map fragmentItem))
    (hid : ∀ f ∈ keyframes12 ++ chunks12, 0 ≤ f.id ∧ f.id ≤ 65535)
    (hk12 : keyframes12 ≠ []) (hc12 : chunks12 ≠ []) :
    load (replayStream 11 regionId gameId v0 v1 v2 keyBytes complete endStartupChunkId
        startGameChunkId players keyframes chunks)
      = .ok { fileVersion := 11, regionId := (regionId : Int),
              gameId := toDouble (gameId : Int),
              riotVersion := versionText v0 v1 v2, key := String.mk (base64Encode keyBytes),
              complete := (complete : Int), endStartupChunkId := (endStartupChunkId : Int),
              startGameChunkId := (startGameChunkId : Int), players := players,
              endGameChunkId := (chunks.length : Int) }
            { keyframes := none :: positional (keyframes.map Prod.snd) 0,
              chunks := none :: positional (chunks.map Prod.snd) 0 } ∧
    (∀ keyframes' chunks', StreamOk 11 gameId players keyframes' chunks' →
      keyframes'.map Prod.snd = keyframes.map Prod.snd →
      chunks'.map Prod.snd = chunks.map Prod.snd →
      load (replayStream 11 regionId gameId v0 v1 v2 keyBytes complete endStartupChunkId
          startGameChunkId players keyframes' chunks')
        = load (replayStream 11 regionId gameId v0 v1 v2 keyBytes complete endStartupChunkId
          startGameChunkId players keyframes chunks)) ∧
    (∃ metadata, load (replayStream 12 regionId gameId v0 v1 v2 keyBytes complete
          endStartupChunkId startGameChunkId players (keyframes12.map fragmentItem)
          (chunks12.map fragmentItem))
        = .ok metadata { keyframes := storeFragments keyframes12 [],
                         chunks := storeFragments chunks12 [] }) := by
  have key11 : ∀ kfs chs : List (List Nat × List Nat), StreamOk 11 gameId players kfs chs →
      kfs ≠ [] → chs ≠ [] →
      load (replayStream 11 regionId gameId v0 v1 v2 keyBytes complete endStartupChunkId
          startGameChunkId players kfs chs)
        = .ok { fileVersion := 11, regionId := (regionId : Int),
                gameId := toDouble (gameId : Int),
                riotVersion := versionText v0 v1 v2, key := String.mk (base64Encode keyBytes),
                complete := (complete : Int), endStartupChunkId := (endStartupChunkId : Int),
                startGameChunkId := (startGameChunkId : Int), players := players,
                endGameChunkId := (chs.length : Int) }
              { keyframes := none :: positional (kfs.map Prod.snd) 0,
                chunks := none :: positional (chs.map Prod.snd) 0 } := by
    intro kfs chs hok hkn hcn
    obtain ⟨last, hlast, hload⟩ := loadRun_stream 11 regionId gameId v0 v1 v2 keyBytes complete
      endStartupChunkId startGameChunkId players kfs chs [] hok hkn hcn
    rw [List.append_nil] at hload
    have hl : last.id = (chs.length : Int) := by
      have h1 : ((11 : Nat) : Int) = 11 := rfl
      rw [h1, storeItems_11_zero chs hcn] at hlast
      have hne : positional (chs.map Prod.snd) 0 ≠ [] := by
        cases chs with
        | nil => exact (hcn rfl).elim
        | cons _ _ => simp [positional]
      rw [List.getLast?_cons, List.getLast?_eq_getLast _ hne] at hlast
      simp only [Option.getD_some] at hlast
      have h2 : (positional (chs.map Prod.snd) 0).getLast? = some (some last) := by
        rw [List.getLast?_eq_getLast _ hne, hlast]
      have := positional_getLast _ _ _ h2
      simpa using this
    unfold load
    rw [hload, hl]
    have h1 : ((11 : Nat) : Int) = 11 := rfl
    have h2 : decodedGameId 11 gameId = toDouble (gameId : Int) := by
      unfold decodedGameId
      rw [if_neg (by decide)]
    simp only [h1, h2, storeItems_11_zero kfs hkn, storeItems_11_zero chs hcn]
  refine ⟨key11 keyframes chunks h11 hk hc, ?_, ?_⟩
  · intro kfs' chs' hok' hkd hcd
    have hkn' : kfs' ≠ [] := by
      intro e; rw [e] at hkd; exact hk (List.map_eq_nil_iff.1 hkd.symm)
    have hcn' : chs' ≠ [] := by
      intro e; rw [e] at hcd; exact hc (List.map_eq_nil_iff.1 hcd.symm)
    rw [key11 kfs' chs' hok' hkn' hcn', key11 keyframes chunks h11 hk hc, hkd, hcd]
    have : chs'.length = chunks.length := by
      have := congrArg List.length hcd
      simpa using this
    rw [this]
  · obtain ⟨last, hlast, hload⟩ := loadRun_stream 12 regionId gameId v0 v1 v2 keyBytes complete
      endStartupChunkId startGameChunkId players _ _ [] h12
      (fun e => hk12 (List.map_eq_nil_iff.1 e)) (fun e => hc12 (List.map_eq_nil_iff.1 e))
    rw [List.append_nil] at hload
    have h1 : ((12 : Nat) : Int) = 12 := rfl
    rw [h1, storeItems_12_fragments keyframes12
        (fun f hf => hid f (List.mem_append_left _ hf)),
      storeItems_12_fragments chunks12 (fun f hf => hid f (List.mem_append_right _ hf))]
      at hload
    exact ⟨_, by unfold load; rw [hload]⟩

theorem exampleGame_input :
    RoundTripInput exampleGame 1 5000000000 7 10 154 "YWJj" [97, 98, 99] 1 1
      [none, some { id := 1, data := [1, 2, 3] }]
      [none, some { id := 1, data := [0, 1, 2, 3, 4, 5, 6, 7, 8, 9] }] := by
  refine ⟨by decide, by decide, by decide, by decide, by decide, by decide, by decide,
    ⟨rfl, by decide, ?_⟩, ⟨rfl, by decide, ?_⟩⟩
  · intro j f hj
    rcases j with _ | _ | j
    · cases hj
    · injection hj with hj
      injection hj with hj
      subst hj
      exact ⟨rfl, by decide, by decide⟩
    · cases hj
  · intro j f hj
    rcases j with _ | _ | j
    · cases hj
    · injection hj with hj
      injection hj with hj
      subst hj
      exact ⟨rfl, by decide, by decide⟩
    · cases hj

theorem exampleGame_dataFits :
    DataFits [none, some { id := 1, data := [1, 2, 3] }]
      [none, some { id := 1, data := [0, 1, 2, 3, 4, 5, 6, 7, 8, 9] }] := by
  unfold DataFits
  decide

theorem save_load_round_trip_witness :
    RoundTripInput exampleGame 1 5000000000 7 10 154 "YWJj" [97, 98, 99] 1 1
      [none, some { id := 1, data := [1, 2, 3] }]
      [none, some { id := 1, data := [0, 1, 2, 3, 4, 5, 6, 7, 8, 9] }] ∧
    DataFits [none, some { id := 1, data := [1, 2, 3] }]
      [none, some { id := 1, data := [0, 1, 2, 3, 4, 5, 6, 7, 8, 9] }] ∧
    ∃ buff metadata data,
      save exampleGame = .written buff (playerWarnings exampleGame) ∧ buff.head? = some 12 ∧
      load buff = .ok metadata data ∧
      metadata.fileVersion = 12 ∧ metadata.regionId = 1 ∧ metadata.gameId = 5000000000 ∧
      metadata.riotVersion = versionText 7 10 154 ∧ metadata.key = "YWJj" ∧
      metadata.endStartupChunkId = 1 ∧ metadata.startGameChunkId = 1 ∧
      metadata.players = exampleGame.players.getD [] ∧
      (∀ i, data.keyframes.getD i none
        = ([none, some { id := 1, data := [1, 2, 3] }] : List (Option Fragment)).getD i none) ∧
      (∀ i, data.chunks.getD i none
        = ([none, some { id := 1, data := [0, 1, 2, 3, 4, 5, 6, 7, 8, 9] }] :
            List (Option Fragment)).getD i none) ∧
      (populated [none, some { id := 1, data := [0, 1, 2, 3, 4, 5, 6, 7, 8, 9] }]).getLast?.map
        (fun f => f.id) = some metadata.endGameChunkId :=
  ⟨exampleGame_input, exampleGame_dataFits,
    save_load_round_trip exampleGame 1 5000000000 7 10 154 "YWJj" [97, 98, 99] 1 1 _ _
      exampleGame_input exampleGame_dataFits⟩

/-- The example scenario, evaluated: `save` produces `exampleBytes`, whose first
byte is 12, and `load` of these bytes returns the fields of the record and
`endGameChunkId = 1`. -/
theorem example_scenario :
    save exampleGame = .written exampleBytes [] ∧ exampleBytes.head? = some 12 ∧
    load exampleBytes = .ok
      { fileVersion := 12, regionId := 1, gameId := 5000000000, riotVersion := "7.10.154",
        key := "YWJj", complete := 1, endStartupChunkId := 1, startGameChunkId := 1,
        players := [{ id := 42, name := "Ahri", teamNr := 0, leagueId := 3, leagueRank := 1,
                      championId := 103, spell1Id := 4, spell2Id := 14 }],
        endGameChunkId := 1 }
      { keyframes := [none, some { id := 1, data := [1, 2, 3] }],
        chunks := [none, some { id := 1, data := [0, 1, 2, 3, 4, 5, 6, 7, 8, 9] }] } := by
  decide

theorem streamOk_11_example :
    StreamOk 11 5000000000 [] [([200], [1, 2, 3]), ([0], [4])] [([77], [9, 9])] :=
  ⟨by decide, by decide, by decide, by decide, by decide, by decide, by decide⟩

theorem streamOk_12_example :
    StreamOk 12 5000000000 []
      (([{ id := 7, data := [1, 2, 3] }, { id := 2, data := [4] }] : List Fragment).map
        fragmentItem)
      (([{ id := 300, data := [9, 9] }] : List Fragment).map fragmentItem) :=
  ⟨by decide, by decide, by decide, by decide, by decide, by decide, by decide⟩

theorem streamOk_11_odd :
    StreamOk 11 9007199254740993 [] [([200], [1, 2, 3]), ([0], [4])] [([77], [9, 9])] :=
  ⟨by decide, by decide, by decide, by decide, by decide, by decide, by decide⟩

theorem streamOk_12_odd :
    StreamOk 12 9007199254740993 []
      (([{ id := 7, data := [1, 2, 3] }, { id := 2, data := [4] }] : List Fragment).map
        fragmentItem)
      (([{ id := 300, data := [9, 9] }] : List Fragment).map fragmentItem) :=
  ⟨by decide, by decide, by decide, by decide, by decide, by decide, by decide⟩

theorem fragment_ids_by_revision_witness :
    load (replayStream 11 1 9007199254740993 7 10 154 [97, 98, 99] 0 1 1 []
        [([200], [1, 2, 3]), ([0], [4])] [([77], [9, 9])])
      = .ok { fileVersion := 11, regionId := 1, gameId := 9007199254740992,
              riotVersion := versionText 7 10 154, key := String.mk (base64Encode [97, 98, 99]),
              complete := 0, endStartupChunkId := 1, startGameChunkId := 1, players := [],
              endGameChunkId := 1 }
            { keyframes := [none, some { id := 1, data := [1, 2, 3] },
                            some { id := 2, data := [4] }],
              chunks := [none, some { id := 1, data := [9, 9] }] } ∧
    (∃ metadata, load (replayStream 12 1 9007199254740993 7 10 154 [97, 98, 99] 0 1 1 []
          (([{ id := 7, data := [1, 2, 3] }, { id := 2, data := [4] }] : List Fragment).map
            fragmentItem)
          (([{ id := 300, data := [9, 9] }] : List Fragment).map fragmentItem))
        = .ok metadata
            { keyframes := storeFragments
                [{ id := 7, data := [1, 2, 3] }, { id := 2, data := [4] }] [],
              chunks := storeFragments [{ id := 300, data := [9, 9] }] [] }) :=
  ⟨(fragment_ids_by_revision 1 9007199254740993 7 10 154 [97, 98, 99] 0 1 1 []
      [([200], [1, 2, 3]), ([0], [4])] [([77], [9, 9])]
      [{ id := 7, data := [1, 2, 3] }, { id := 2, data := [4] }] [{ id := 300, data := [9, 9] }]
      streamOk_11_odd (by decide) (by decide) streamOk_12_odd (by decide) (by decide)
      (by decide)).1,
   (fragment_ids_by_revision 1 9007199254740993 7 10 154 [97, 98, 99] 0 1 1 []
      [([200], [1, 2, 3]), ([0], [4])] [([77], [9, 9])]
      [{ id := 7, data := [1, 2, 3] }, { id := 2, data := [4] }] [{ id := 300, data := [9, 9] }]
      streamOk_11_odd (by decide) (by decide) streamOk_12_odd (by decide) (by decide)
      (by decide)).2.2⟩

/-- C4, counterexample: `truncatedBytes` has an accepted revision and its only
chunk declares 10 data bytes at offset 36, so the data would occupy offsets
40 to 49 of a buffer of 43 bytes; `load` succeeds and returns the chunk with a
payload of 10 bytes, the 3 bytes present followed by padding. -/
theorem load_pads_truncated_final_chunk :
    truncatedBytes.length = 43 ∧ readInt32BE truncatedBytes 36 = .ok 10 ∧
    load truncatedBytes = .ok
      { fileVersion := 12, regionId := 1, gameId := 5000000000, riotVersion := "7.10.154",
        key := "YWJj", complete := 1, endStartupChunkId := 1, startGameChunkId := 1,
        players := [], endGameChunkId := 1 }
      { keyframes := [none, some { id := 1, data := [1, 2, 3] }],
        chunks := [none, some { id := 1, data := [7, 8, 9, 0, 0, 0, 0, 0, 0, 0] }] } :=
  ⟨by decide, rfl, by decide⟩

theorem readInt32BE_inv (buff : List Nat) (c : Nat) (v : Int) (h : readInt32BE buff c = .ok v) :
    c + 4 ≤ buff.length := by
  unfold readInt32BE at h
  split at h
  · rename_i b0 b1 b2 b3 rest hd
    have := congrArg List.length hd
    rw [List.length_drop] at this
    simp only [List.length_cons] at this
    omega
  · cases h

theorem newBuffer_inv (size : Int) (d : List Nat) (h : newBuffer size = .ok d) :
    0 ≤ size ∧ d.length = size.toNat := by
  unfold newBuffer at h
  split at h
  · cases h
  · injection h with h
    subst h
    exact ⟨by omega, List.length_replicate _ _⟩

theorem copy_length (source target : List Nat) (ts ss se : Nat) (r : List Nat)
    (h : copy source target ts ss se = .ok r) : r.length = target.length := by
  unfold copy at h
  split at h
  · cases h
  · split at h
    · injection h with h
      rw [h]
    · rename_i h1 h2
      injection h with h
      subst h
      simp only [List.length_append, List.length_take, List.length_drop]
      omega

theorem setSparse_mem {α : Type} (arr : List (Option α)) (i : Nat) (v : α) :
    some v ∈ setSparse arr i v := by
  unfold setSparse
  split
  · rename_i h
    exact List.mem_iff_getElem?.2 ⟨i, by rw [List.getElem?_set]; simp [h]⟩
  · simp

theorem readFragments_zero (fileVersion : Int) (buff : List Nat) (i c : Nat)
    (arr : List (Option Fragment)) : readFragments fileVersion buff 0 i c arr = .ok (arr, c) := by
  rfl

theorem readFragments_last (fileVersion : Int) (buff : List Nat) (n i c : Nat)
    (arr arr' : List (Option Fragment)) (c' : Nat)
    (h : readFragments fileVersion buff (n + 1) i c arr = .ok (arr', c')) :
    ∃ last, StoredLast buff arr' c' last := by
  induction n generalizing i c arr with
  | zero =>
    simp only [readFragments, bind_eq_ok] at h
    obtain ⟨⟨id, c1⟩, -, len, hlen, d0, hd0, data, hdata, h⟩ := h
    simp only [pure, Except.pure] at h
    injection h with h
    injection h with h1 h2
    subst h1 h2
    simp only at hlen hdata
    have h4 := readInt32BE_inv _ _ _ hlen
    have hl := copy_length _ _ _ _ _ _ hdata
    obtain ⟨hn0, hn⟩ := newBuffer_inv _ _ hd0
    have hd0' : d0 = filled 0 [] len.toNat := by
      unfold newBuffer at hd0
      rw [if_neg (by omega)] at hd0
      injection hd0 with hd0
      rw [← hd0]
      simp [filled]
    rw [hd0', copy_load buff (c1 + 4) len.toNat (by omega)] at hdata
    injection hdata with hdata
    have hlen' : data.length = len.toNat := by rw [hl, hn]
    refine ⟨{ id := id, data := data }, ⟨arr, rfl⟩, ?_, ?_⟩
    · simp only
      omega
    · simp only
      rw [hlen', Nat.add_sub_cancel]
      rw [← hdata]
      rw [List.length_take, List.length_drop]
      have e : len.toNat - min len.toNat (buff.length - (c1 + 4))
          = c1 + 4 + len.toNat - buff.length := by omega
      rw [e]
  | succ n ih =>
    rw [readFragments] at h
    simp only [bind_eq_ok] at h
    obtain ⟨⟨id, c1⟩, -, len, -, d0, -, data, -, h⟩ := h
    exact ih _ _ _ h

theorem loadRun_inv (buff : List Nat) (r : Except String (ReplayMetadata × ReplayData))
    (c : Nat) (h : loadRun buff = .ok (r, c)) :
    (∀ msg, r = .error msg → msg ∈ loadMessages) ∧
    (∀ md rd, r = .ok (md, rd) → ∃ last, StoredLast buff rd.chunks c last) := by
  unfold loadRun at h
  rw [bind_eq_ok] at h
  obtain ⟨fileVersion, -, h⟩ := h
  split at h
  · simp only [pure, Except.pure] at h
    injection h with h
    injection h with h1 h2
    subst h1
    simp [loadMessages]
  split at h
  · simp only [pure, Except.pure] at h
    injection h with h
    injection h with h1 h2
    subst h1
    simp [loadMessages]
  simp only [bind_eq_ok] at h
  obtain ⟨regionId, -, ⟨gameId, c1⟩, -, v0, -, v1, -, v2, -, len, -, complete, -, e, -, s, -, num,
    -, ⟨players, c2⟩, -, ⟨numK, c3⟩, -, ⟨keyframes, c4⟩, -, h⟩ := h
  simp only at h
  split at h
  · simp only [pure, Except.pure] at h
    injection h with h
    injection h with h1 h2
    subst h1
    simp [loadMessages]
  simp only [loadChunks, bind_eq_ok] at h
  obtain ⟨⟨numC, c5⟩, -, ⟨chunks, c6⟩, hchunks, h⟩ := h
  simp only at h
  split at h
  · rename_i hpos
    split at h
    · rename_i last hlast
      simp only [pure, Except.pure] at h
      injection h with h
      injection h with h1 h2
      subst h1 h2
      refine ⟨(by intro msg hmsg; cases hmsg), ?_⟩
      intro md rd hr
      injection hr with hr
      injection hr with hmd hrd
      subst hrd
      simp only
      rcases hn : numC.toNat with _ | n
      · rw [hn, readFragments_zero] at hchunks
        injection hchunks with hchunks
        injection hchunks with hc1 hc2
        subst hc1
        simp at hpos
      · rw [hn] at hchunks
        exact readFragments_last _ _ _ _ _ _ _ _ hchunks
    · cases h
  · simp only [pure, Except.pure] at h
    injection h with h
    injection h with h1 h2
    subst h1
    simp [loadMessages]

/-- C4, amended: whenever `load` succeeds, everything it consumed lies within the
buffer except possibly data bytes of one chunk, the one stored last: the final
value of the read cursor exceeds the buffer length by at most the length of
that chunk's data, and that chunk's data are the bytes the buffer does hold
followed by one zero byte of padding for each byte that is missing; and a
failure reported through the callback is never a truncated-input error, it
carries one of the four messages of `load`, so a read past the end that does
stop the decoding does so as an exception. -/
theorem load_success_reads_within_buffer (buff : List Nat) :
    (∀ metadata data, load buff = .ok metadata data →
      ∃ c last before, loadRun buff = .ok (.ok (metadata, data), c) ∧
        data.chunks = setSparse before last.id.toNat last ∧
        c ≤ buff.length + last.data.length ∧
        last.data = (buff.drop (c - last.data.length)).take last.data.length
          ++ List.replicate (c - buff.length) 0) ∧
    (∀ msg, load buff = .failed msg →
      msg = "The file is using an old data format" ∨
      msg = "This file is using a corrupted data format. Please report this to an administrator of aof.gg" ∨
      msg = "No keyframes" ∨ msg = "No chunks") := by
  constructor
  · intro md rd h
    unfold load at h
    split at h
    · rename_i md' rd' c hrun
      injection h with h1 h2
      subst h1 h2
      obtain ⟨last, ⟨before, hb⟩, hc, hd⟩ := (loadRun_inv buff _ c hrun).2 _ _ rfl
      exact ⟨c, last, before, hrun, hb, hc, hd⟩
    · cases h
    · cases h
  · intro msg h
    unfold load at h
    split at h
    · cases h
    · rename_i msg' c hrun
      injection h with h
      subst h
      have := (loadRun_inv buff _ c hrun).1 _ rfl
      simpa [loadMessages, obsoleteFormatMessage, corruptFormatMessage] using this
    · cases h

theorem load_success_reads_within_buffer_witness :
    (∃ c last before, loadRun truncatedBytes = .ok (.ok (
        { fileVersion := 12, regionId := 1, gameId := 5000000000, riotVersion := "7.10.154",
          key := "YWJj", complete := 1, endStartupChunkId := 1, startGameChunkId := 1,
          players := [], endGameChunkId := 1 },
        { keyframes := [none, some { id := 1, data := [1, 2, 3] }],
          chunks := [none, some { id := 1, data := [7, 8, 9, 0, 0, 0, 0, 0, 0, 0] }] }), c) ∧
      ([none, some { id := 1, data := [7, 8, 9, 0, 0, 0, 0, 0, 0, 0] }] : List (Option Fragment))
        = setSparse before last.id.toNat last ∧
      c ≤ truncatedBytes.length + last.data.length ∧
      last.data = (truncatedBytes.drop (c - last.data.length)).take last.data.length
        ++ List.replicate (c - truncatedBytes.length) 0) ∧
    ("No keyframes" = "The file is using an old data format" ∨
      "No keyframes" = "This file is using a corrupted data format. Please report this to an administrator of aof.gg" ∨
      "No keyframes" = "No keyframes" ∨ "No keyframes" = "No chunks") :=
  ⟨(load_success_reads_within_buffer truncatedBytes).1 _ _ (by decide),
   (load_success_reads_within_buffer (truncatedBytes.take 21 ++ [0, 0])).2 "No keyframes"
     (by decide)⟩

theorem readUInt8_inv (buff : List Nat) (c : Nat) (v : Int) (h : readUInt8 buff c = .ok v) :
    ∃ b rest, buff.drop c = b :: rest ∧ v = (b : Int) := by
  unfold readUInt8 at h
  split at h
  · rename_i b rest hd
    injection h with h
    exact ⟨b, rest, hd, h.symm⟩
  · cases h

theorem readUInt16BE_inv (buff : List Nat) (c : Nat) (v : Int)
    (h : readUInt16BE buff c = .ok v) :
    ∃ b0 b1 rest, buff.drop c = b0 :: b1 :: rest ∧ v = ((b0 * 256 + b1 : Nat) : Int) := by
  unfold readUInt16BE at h
  split at h
  · rename_i b0 b1 rest hd
    injection h with h
    exact ⟨b0, b1, rest, hd, h.symm⟩
  · cases h

theorem readFragmentId_nonneg (fileVersion : Int) (buff : List Nat) (i c : Nat) (id : Int)
    (c1 : Nat) (h : readFragmentId fileVersion buff i c = .ok (id, c1)) : 0 ≤ id := by
  unfold readFragmentId at h
  split at h
  · simp only [bind_eq_ok] at h
    obtain ⟨v, hv, h⟩ := h
    obtain ⟨b, rest, -, hb⟩ := readUInt8_inv _ _ _ hv
    simp only [pure, Except.pure] at h
    injection h with h
    injection h with h1 h2
    omega
  · split at h
    · simp only [pure, Except.pure] at h
      injection h with h
      injection h with h1 h2
      omega
    · simp only [bind_eq_ok] at h
      obtain ⟨v, hv, h⟩ := h
      obtain ⟨b0, b1, rest, -, hb⟩ := readUInt16BE_inv _ _ _ hv
      simp only [pure, Except.pure] at h
      injection h with h
      injection h with h1 h2
      omega

theorem setSparse_indexed (arr : List (Option Fragment)) (f : Fragment) (hid : 0 ≤ f.id)
    (h : IndexedById arr) : IndexedById (setSparse arr f.id.toNat f) := by
  intro j g hg
  have hj := setSparse_getElem? arr f.id.toNat f j
  rw [hg] at hj
  by_cases e : j = f.id.toNat
  · rw [if_pos e] at hj
    simp only [Option.join] at hj
    injection hj with hj
    subst hj
    omega
  · rw [if_neg e] at hj
    apply h
    rcases ha : arr[j]? with _ | _ | a
    · rw [ha] at hj
      simp at hj
    · rw [ha] at hj
      simp at hj
    · rw [ha] at hj
      simp at hj
      rw [hj]

theorem populated_set_le (arr : List (Option Fragment)) (i : Nat) (v : Fragment) :
    (populated (arr.set i (some v))).length ≤ (populated arr).length + 1 := by
  induction arr generalizing i with
  | nil => simp [populated]
  | cons a t ih =>
    cases i with
    | zero =>
      rw [List.set_cons_zero, populated_cons_some]
      cases a with
      | none => rw [populated_cons_none]; simp
      | some g => rw [populated_cons_some]; simp
    | succ i =>
      rw [List.set_cons_succ]
      have := ih i
      cases a with
      | none => rw [populated_cons_none, populated_cons_none]; exact this
      | some g =>
        rw [populated_cons_some, populated_cons_some]
        simp only [List.length_cons]
        omega

theorem populated_replicate_none (k : Nat) :
    populated (List.replicate k (none : Option Fragment)) = [] := by
  induction k with
  | zero => rfl
  | succ k ih => rw [List.replicate_succ, populated_cons_none, ih]

theorem populated_setSparse_le (arr : List (Option Fragment)) (i : Nat) (v : Fragment) :
    (populated (setSparse arr i v)).length ≤ (populated arr).length + 1 := by
  unfold setSparse
  split
  · exact populated_set_le _ _ _
  · rw [populated_append, populated_append, populated_replicate_none]
    simp [populated]

/-- What the fragment loop preserves on any buffer: entries sit at their ids, the
collection is empty or ends in a populated entry, and each iteration adds at most
one populated entry. -/
theorem readFragments_inv (fileVersion : Int) (buff : List Nat) (n i c : Nat)
    (arr arr' : List (Option Fragment)) (c' : Nat)
    (h : readFragments fileVersion buff n i c arr = .ok (arr', c'))
    (hidx : IndexedById arr) (hlast : arr = [] ∨ LastSome arr) :
    IndexedById arr' ∧ ((n = 0 ∧ arr' = arr) ∨ LastSome arr') ∧
      (populated arr').length ≤ (populated arr).length + n := by
  induction n generalizing i c arr with
  | zero =>
    rw [readFragments_zero] at h
    injection h with h
    injection h with h1 h2
    subst h1
    exact ⟨hidx, Or.inl ⟨rfl, rfl⟩, by omega⟩
  | succ n ih =>
    rw [readFragments] at h
    simp only [bind_eq_ok] at h
    obtain ⟨⟨id, c1⟩, hid, len, -, d0, -, data, -, h⟩ := h
    simp only at h
    have hnn := readFragmentId_nonneg _ _ _ _ _ _ hid
    have hl := setSparse_lastSome arr id.toNat { id := id, data := data } hlast
    obtain ⟨h1, h2, h3⟩ := ih _ _ _ h
      (setSparse_indexed arr { id := id, data := data } hnn hidx) (Or.inr hl)
    have h4 := populated_setSparse_le arr id.toNat { id := id, data := data }
    refine ⟨h1, Or.inr ?_, by omega⟩
    rcases h2 with ⟨-, h2⟩ | h2
    · rw [h2]
      exact hl
    · exact h2

theorem indexedById_nil : IndexedById [] := by
  intro i f h
  simp at h

/-- In a collection indexed by id that ends in a populated entry, the last entry
carries the greatest id, one less than the nominal length. -/
theorem indexed_last (arr : List (Option Fragment)) (last : Fragment)
    (hidx : IndexedById arr) (hlast : arr.getLast? = some (some last)) :
    last.id = (arr.length : Int) - 1 ∧
    ∀ (i : Nat) (f : Fragment), arr[i]? = some (some f) → f.id ≤ last.id := by
  have hpos : 0 < arr.length := lastSome_length _ ⟨last, hlast⟩
  rw [List.getLast?_eq_getElem?] at hlast
  have h1 := hidx _ _ hlast
  refine ⟨by omega, ?_⟩
  intro i f hf
  have h2 := hidx _ _ hf
  have h3 : i < arr.length := by
    by_contra hge
    rw [List.getElem?_eq_none (by omega)] at hf
    cases hf
  omega

theorem indexed_unique (arr : List (Option Fragment)) (hidx : IndexedById arr)
    (i j : Nat) (f g : Fragment) (hf : arr[i]? = some (some f)) (hg : arr[j]? = some (some g))
    (hfg : f.id = g.id) : i = j := by
  have h1 := hidx _ _ hf
  have h2 := hidx _ _ hg
  omega

theorem loadRun_ok_inv (buff : List Nat) (md : ReplayMetadata) (rd : ReplayData) (c : Nat)
    (h : loadRun buff = .ok (.ok (md, rd), c)) : Decoded buff md rd c := by
  unfold loadRun at h
  rw [bind_eq_ok] at h
  obtain ⟨fileVersion, hver, h⟩ := h
  split at h
  · simp only [pure, Except.pure] at h
    injection h with h
    injection h with h1 h2
    cases h1
  split at h
  · simp only [pure, Except.pure] at h
    injection h with h
    injection h with h1 h2
    cases h1
  rename_i hv8 hv9
  simp only [bind_eq_ok] at h
  obtain ⟨regionId, -, ⟨gameId, c1⟩, -, v0, -, v1, -, v2, -, len, -, complete, -, e, -, s, -, num,
    -, ⟨players, c2⟩, -, ⟨numK, c3⟩, hnumK, ⟨keyframes, c4⟩, hkf, h⟩ := h
  simp only at h hnumK hkf
  split at h
  · simp only [pure, Except.pure] at h
    injection h with h
    injection h with h1 h2
    cases h1
  rename_i hkl
  simp only [loadChunks, bind_eq_ok] at h
  obtain ⟨⟨numC, c5⟩, hnumC, ⟨chunks, c6⟩, hchunks, h⟩ := h
  simp only at h hnumC hchunks
  split at h
  · split at h
    · rename_i last hlast
      simp only [pure, Except.pure] at h
      injection h with h
      injection h with h1 h2
      injection h1 with h1
      injection h1 with hmd hrd
      subst hmd hrd h2
      obtain ⟨b, rest, hd, hb⟩ := readUInt8_inv _ _ _ hver
      rw [List.drop_zero] at hd
      exact
        { revision := ⟨b, rest, hd, hb, by omega, by omega⟩
          sections := ⟨_, _, _, _, _, _, hnumK, hkf, hnumC, hchunks⟩
          keyframes := fun e => hkl (congrArg List.length e)
          lastChunk := ⟨last, hlast, rfl⟩ }
    · cases h
  · simp only [pure, Except.pure] at h
    injection h with h
    injection h with h1 h2
    cases h1

theorem bind_ne_typeError {α β : Type} (x : Except Fault α) (f : α → Except Fault β)
    (hx : x ≠ .error .typeError) (hf : ∀ a, x = .ok a → f a ≠ .error .typeError) :
    (x >>= f) ≠ .error .typeError := by
  cases x with
  | error e => simpa [bind, Except.bind] using hx
  | ok a => simpa [bind, Except.bind] using hf a rfl

theorem readUInt8_fault (buff : List Nat) (c : Nat) : readUInt8 buff c ≠ .error .typeError := by
  unfold readUInt8
  split <;> simp

theorem readUInt16BE_fault (buff : List Nat) (c : Nat) :
    readUInt16BE buff c ≠ .error .typeError := by
  unfold readUInt16BE
  split <;> simp

theorem readUInt32BE_fault (buff : List Nat) (c : Nat) :
    readUInt32BE buff c ≠ .error .typeError := by
  unfold readUInt32BE
  split <;> simp

theorem readInt32BE_fault (buff : List Nat) (c : Nat) :
    readInt32BE buff c ≠ .error .typeError := by
  unfold readInt32BE
  split <;> simp

theorem newBuffer_fault (size : Int) : newBuffer size ≠ .error .typeError := by
  unfold newBuffer
  split <;> simp

theorem copy_fault (source target : List Nat) (ts ss se : Nat) :
    copy source target ts ss se ≠ .error .typeError := by
  unfold copy
  split
  · simp
  · split <;> simp

theorem pure_ne_typeError {α : Type} (a : α) :
    (pure a : Except Fault α) ≠ .error .typeError := by
  simp [pure, Except.pure]

theorem readGameId_fault (fileVersion : Int) (buff : List Nat) (c : Nat) :
    readGameId fileVersion buff c ≠ .error .typeError := by
  unfold readGameId
  split
  · exact bind_ne_typeError _ _ (readUInt32BE_fault _ _) (fun _ _ => pure_ne_typeError _)
  · exact bind_ne_typeError _ _ (readUInt32BE_fault _ _) (fun _ _ =>
      bind_ne_typeError _ _ (readUInt32BE_fault _ _) (fun _ _ => pure_ne_typeError _))

theorem readCount_fault (fileVersion : Int) (buff : List Nat) (c : Nat) :
    readCount fileVersion buff c ≠ .error .typeError := by
  unfold readCount
  split
  · exact bind_ne_typeError _ _ (readUInt8_fault _ _) (fun _ _ => pure_ne_typeError _)
  · exact bind_ne_typeError _ _ (readUInt16BE_fault _ _) (fun _ _ => pure_ne_typeError _)

theorem readFragmentId_fault (fileVersion : Int) (buff : List Nat) (i c : Nat) :
    readFragmentId fileVersion buff i c ≠ .error .typeError := by
  unfold readFragmentId
  split
  · exact bind_ne_typeError _ _ (readUInt8_fault _ _) (fun _ _ => pure_ne_typeError _)
  · split
    · exact pure_ne_typeError _
    · exact bind_ne_typeError _ _ (readUInt16BE_fault _ _) (fun _ _ => pure_ne_typeError _)

theorem readPlayers_fault (buff : List Nat) (n c : Nat) (players : List Player) :
    readPlayers buff n c players ≠ .error .typeError := by
  induction n generalizing c players with
  | zero => exact pure_ne_typeError _
  | succ n ih =>
    rw [readPlayers]
    refine bind_ne_typeError _ _ (readInt32BE_fault _ _) (fun _ _ => ?_)
    refine bind_ne_typeError _ _ (readUInt8_fault _ _) (fun _ _ => ?_)
    refine bind_ne_typeError _ _ (readUInt8_fault _ _) (fun _ _ => ?_)
    refine bind_ne_typeError _ _ (readUInt8_fault _ _) (fun _ _ => ?_)
    refine bind_ne_typeError _ _ (readUInt8_fault _ _) (fun _ _ => ?_)
    refine bind_ne_typeError _ _ (readInt32BE_fault _ _) (fun _ _ => ?_)
    refine bind_ne_typeError _ _ (readInt32BE_fault _ _) (fun _ _ => ?_)
    refine bind_ne_typeError _ _ (readInt32BE_fault _ _) (fun _ _ => ?_)
    exact ih _ _

theorem readFragments_fault (fileVersion : Int) (buff : List Nat) (n i c : Nat)
    (arr : List (Option Fragment)) :
    readFragments fileVersion buff n i c arr ≠ .error .typeError := by
  induction n generalizing i c arr with
  | zero => exact pure_ne_typeError _
  | succ n ih =>
    rw [readFragments]
    refine bind_ne_typeError _ _ (readFragmentId_fault _ _ _ _) (fun _ _ => ?_)
    refine bind_ne_typeError _ _ (readInt32BE_fault _ _) (fun _ _ => ?_)
    refine bind_ne_typeError _ _ (newBuffer_fault _) (fun _ _ => ?_)
    refine bind_ne_typeError _ _ (copy_fault _ _ _ _ _) (fun _ _ => ?_)
    exact ih _ _ _

/-- The dereference of line 266 finds a populated entry whenever it is reached. -/
theorem loadChunks_fault (fileVersion : Int) (buff : List Nat) (c : Nat)
    (keyframes : List (Option Fragment)) (metadata : Int → ReplayMetadata) :
    loadChunks fileVersion buff c keyframes metadata ≠ .error .typeError := by
  unfold loadChunks
  refine bind_ne_typeError _ _ (readCount_fault _ _ _) (fun p _ => ?_)
  obtain ⟨num, c1⟩ := p
  refine bind_ne_typeError _ _ (readFragments_fault _ _ _ _ _ _) (fun q hq => ?_)
  obtain ⟨chunks, c2⟩ := q
  obtain ⟨-, h2, -⟩ := readFragments_inv _ _ _ _ _ _ _ _ hq indexedById_nil (Or.inl rfl)
  simp only
  split
  · rename_i hpos
    rcases h2 with ⟨-, h2⟩ | ⟨last, h2⟩
    · subst h2
      simp at hpos
    · rw [h2]
      exact pure_ne_typeError _
  · exact pure_ne_typeError _

theorem loadRun_fault (buff : List Nat) : loadRun buff ≠ .error .typeError := by
  unfold loadRun
  refine bind_ne_typeError _ _ (readUInt8_fault _ _) (fun fileVersion _ => ?_)
  split
  · exact pure_ne_typeError _
  split
  · exact pure_ne_typeError _
  refine bind_ne_typeError _ _ (readUInt8_fault _ _) (fun _ _ => ?_)
  refine bind_ne_typeError _ _ (readGameId_fault _ _ _) (fun p _ => ?_)
  obtain ⟨gameId, c1⟩ := p
  simp only
  refine bind_ne_typeError _ _ (readUInt8_fault _ _) (fun _ _ => ?_)
  refine bind_ne_typeError _ _ (readUInt8_fault _ _) (fun _ _ => ?_)
  refine bind_ne_typeError _ _ (readUInt8_fault _ _) (fun _ _ => ?_)
  refine bind_ne_typeError _ _ (readUInt8_fault _ _) (fun _ _ => ?_)
  refine bind_ne_typeError _ _ (readUInt8_fault _ _) (fun _ _ => ?_)
  refine bind_ne_typeError _ _ (readUInt8_fault _ _) (fun _ _ => ?_)
  refine bind_ne_typeError _ _ (readUInt8_fault _ _) (fun _ _ => ?_)
  refine bind_ne_typeError _ _ (readUInt8_fault _ _) (fun _ _ => ?_)
  refine bind_ne_typeError _ _ (readPlayers_fault _ _ _ _) (fun p _ => ?_)
  obtain ⟨players, c2⟩ := p
  simp only
  refine bind_ne_typeError _ _ (readCount_fault _ _ _) (fun p _ => ?_)
  obtain ⟨numK, c3⟩ := p
  simp only
  refine bind_ne_typeError _ _ (readFragments_fault _ _ _ _ _ _) (fun p _ => ?_)
  obtain ⟨keyframes, c4⟩ := p
  simp only
  split
  · exact pure_ne_typeError _
  · exact loadChunks_fault _ _ _ _ _

theorem validationError_last (game : Game) :
    (AbsentNum game.startGameChunkId → validationError game = "startGameChunkId missing") ∧
    (AbsentNum game.endStartupChunkId → ¬ AbsentNum game.startGameChunkId →
      validationError game = "endStartupChunkId missing") ∧
    (AbsentStr game.key → ¬ AbsentNum game.endStartupChunkId →
      ¬ AbsentNum game.startGameChunkId → validationError game = "encryption key missing") ∧
    (AbsentStr game.riotVersion → ¬ AbsentStr game.key → ¬ AbsentNum game.endStartupChunkId →
      ¬ AbsentNum game.startGameChunkId → validationError game = "riotVersion missing") ∧
    (AbsentNum game.gameId → ¬ AbsentStr game.riotVersion → ¬ AbsentStr game.key →
      ¬ AbsentNum game.endStartupChunkId → ¬ AbsentNum game.startGameChunkId →
      validationError game = "gameId missing") ∧
    (AbsentNum game.regionId → ¬ AbsentNum game.gameId → ¬ AbsentStr game.riotVersion →
      ¬ AbsentStr game.key → ¬ AbsentNum game.endStartupChunkId →
      ¬ AbsentNum game.startGameChunkId → validationError game = "regionId missing") := by
  unfold validationError
  simp only [← falsyNum_iff, ← falsyStr_iff]
  cases falsyNum game.regionId <;> cases falsyNum game.gameId <;>
    cases falsyStr game.riotVersion <;> cases falsyStr game.key <;>
    cases falsyNum game.endStartupChunkId <;> cases falsyNum game.startGameChunkId <;> simp

theorem save_of_not_mandatory (game : Game) (h : ¬ MandatoryPresent game) :
    save game = .failed (validationError game) [] := by
  simp [save, saveRun_of_not_mandatory game h]

/-- C19: when several mandatory fields are missing at once, the failure reported by
`save` names the one that comes last in the order regionId, gameId, riotVersion,
key, endStartupChunkId, startGameChunkId: a missing field is named as soon as
every field after it is present, whatever the fields before it are; so a record
missing both `regionId` and `startGameChunkId` fails with
`startGameChunkId missing`.  This holds whatever the keyframe and chunk
collections are: with a mandatory field missing the failure is never
`No keyframes` or `No chunks`. -/
theorem save_names_last_missing_field (game : Game) :
    (AbsentNum game.startGameChunkId → save game = .failed "startGameChunkId missing" []) ∧
    (AbsentNum game.endStartupChunkId → ¬ AbsentNum game.startGameChunkId →
      save game = .failed "endStartupChunkId missing" []) ∧
    (AbsentStr game.key → ¬ AbsentNum game.endStartupChunkId →
      ¬ AbsentNum game.startGameChunkId → save game = .failed "encryption key missing" []) ∧
    (AbsentStr game.riotVersion → ¬ AbsentStr game.key → ¬ AbsentNum game.endStartupChunkId →
      ¬ AbsentNum game.startGameChunkId → save game = .failed "riotVersion missing" []) ∧
    (AbsentNum game.gameId → ¬ AbsentStr game.riotVersion → ¬ AbsentStr game.key →
      ¬ AbsentNum game.endStartupChunkId → ¬ AbsentNum game.startGameChunkId →
      save game = .failed "gameId missing" []) ∧
    (AbsentNum game.regionId → ¬ AbsentNum game.gameId → ¬ AbsentStr game.riotVersion →
      ¬ AbsentStr game.key → ¬ AbsentNum game.endStartupChunkId →
      ¬ AbsentNum game.startGameChunkId → save game = .failed "regionId missing" []) ∧
    (¬ MandatoryPresent game →
      save game ≠ .failed "No keyframes" [] ∧ save game ≠ .failed "No chunks" []) := by
  obtain ⟨h1, h2, h3, h4, h5, h6⟩ := validationError_last game
  refine ⟨?_, ?_, ?_, ?_, ?_, ?_, ?_⟩
  · intro a
    rw [save_of_not_mandatory game (fun m => m.2.2.2.2.2 a), h1 a]
  · intro a b
    rw [save_of_not_mandatory game (fun m => m.2.2.2.2.1 a), h2 a b]
  · intro a b c
    rw [save_of_not_mandatory game (fun m => m.2.2.2.1 a), h3 a b c]
  · intro a b c d
    rw [save_of_not_mandatory game (fun m => m.2.2.1 a), h4 a b c d]
  · intro a b c d e
    rw [save_of_not_mandatory game (fun m => m.2.1 a), h5 a b c d e]
  · intro a b c d e f
    rw [save_of_not_mandatory game (fun m => m.1 a), h6 a b c d e f]
  · intro hm
    rw [save_of_not_mandatory game hm]
    rcases validationError_names_missing game hm with h | h | h | h | h | h <;>
      rw [h.1] <;> constructor <;> intro e <;> injection e with e1 e2 <;>
      exact absurd e1 (by decide)

theorem save_names_last_missing_field_witness :
    save { exampleGame with regionId := none, startGameChunkId := some 0, keyframes := none }
      = .failed "startGameChunkId missing" [] ∧
    save { exampleGame with gameId := none, endStartupChunkId := none }
      = .failed "endStartupChunkId missing" [] ∧
    save { exampleGame with regionId := some 0, key := some "", chunks := some [] }
      = .failed "encryption key missing" [] ∧
    save { exampleGame with regionId := none, riotVersion := none }
      = .failed "riotVersion missing" [] ∧
    save { exampleGame with regionId := none, gameId := some 0 }
      = .failed "gameId missing" [] ∧
    save { exampleGame with regionId := none, keyframes := some [] }
      = .failed "regionId missing" [] ∧
    (save { exampleGame with regionId := none, keyframes := some [] }
        ≠ .failed "No keyframes" [] ∧
      save { exampleGame with regionId := none, keyframes := some [] }
        ≠ .failed "No chunks" []) :=
  ⟨(save_names_last_missing_field
      { exampleGame with regionId := none, startGameChunkId := some 0, keyframes := none }).1
      (by decide),
   (save_names_last_missing_field
      { exampleGame with gameId := none, endStartupChunkId := none }).2.1
      (by decide) (by decide),
   (save_names_last_missing_field
      { exampleGame with regionId := some 0, key := some "", chunks := some [] }).2.2.1
      (by decide) (by decide) (by decide),
   (save_names_last_missing_field
      { exampleGame with regionId := none, riotVersion := none }).2.2.2.1
      (by decide) (by decide) (by decide) (by decide),
   (save_names_last_missing_field
      { exampleGame with regionId := none, gameId := some 0 }).2.2.2.2.1
      (by decide) (by decide) (by decide) (by decide) (by decide),
   (save_names_last_missing_field
      { exampleGame with regionId := none, keyframes := some [] }).2.2.2.2.2.1
      (by decide) (by decide) (by decide) (by decide) (by decide) (by decide),
   (save_names_last_missing_field
      { exampleGame with regionId := none, keyframes := some [] }).2.2.2.2.2.2
      (by decide)⟩

theorem saveRun_record (game : Game) :
    (saveRun game).1 = if MandatoryPresent game then defaultPlayers game else game := by
  by_cases hm : MandatoryPresent game
  · rw [if_pos hm]
    have hv : validationError game = "" := (validationError_eq_empty_iff game).2 hm
    unfold saveRun
    simp only [hv, ne_eq, not_true_eq_false, if_false]
    split
    · rfl
    · split <;> rfl
  · rw [if_neg hm, saveRun_of_not_mandatory game hm]

/-- C16, counterexample: a record without a `players` field whose mandatory fields
are all present leaves `save` with `players` set to the empty list, both when the
record is written and when it fails the keyframe check. -/
theorem save_sets_absent_players :
    ({ exampleGame with players := none } : Game).players = none ∧
    (saveRun { exampleGame with players := none }).1.players = some [] ∧
    (saveRun { exampleGame with players := none }).1 ≠ { exampleGame with players := none } ∧
    save { exampleGame with players := none, keyframes := none } = .failed "No keyframes" [] ∧
    (saveRun { exampleGame with players := none, keyframes := none }).1.players = some [] := by
  decide

/-- C16, amended: `save` leaves every field of its input other than `players` with
the value it had before the call, and it leaves `players` unchanged too unless the
field is absent and the six mandatory fields are all present, in which case the
record leaves `save` with `players` set to the empty list. -/
theorem save_mutates_only_absent_players (game : Game) :
    (saveRun game).1
      = if MandatoryPresent game ∧ game.players = none then { game with players := some [] }
        else game := by
  rw [saveRun_record]
  by_cases hm : MandatoryPresent game
  · by_cases hp : game.players = none
    · rw [if_pos hm, if_pos ⟨hm, hp⟩]
      unfold defaultPlayers
      rw [if_pos hp]
    · rw [if_pos hm, if_neg (fun h => hp h.2)]
      unfold defaultPlayers
      rw [if_neg hp]
  · rw [if_neg hm, if_neg (fun h => hm h.1)]

theorem layout_complete_byte (r hi lo v0 v1 v2 : Nat) (kb : List Nat) (cb e s : Nat)
    (players : List Player) (kfs chs : List Fragment) :
    (revision12Layout r hi lo v0 v1 v2 kb cb e s players kfs chs)[14 + kb.length]? = some cb := by
  have h : revision12Layout r hi lo v0 v1 v2 kb cb e s players kfs chs
      = ([12, r] ++ be32 hi ++ be32 lo ++ [v0, v1, v2] ++ [kb.length] ++ kb)
        ++ cb :: ([e, s] ++ [players.length] ++ players.flatMap playerBytes
          ++ be16 kfs.length ++ kfs.flatMap fragmentBytes
          ++ be16 chs.length ++ chs.flatMap fragmentBytes) := by
    simp [revision12Layout]
  rw [h, getElem?_append_cons _ _ _ _ (by simp; omega)]

theorem layout_player_count (r hi lo v0 v1 v2 : Nat) (kb : List Nat) (cb e s : Nat)
    (players : List Player) (kfs chs : List Fragment) :
    (revision12Layout r hi lo v0 v1 v2 kb cb e s players kfs chs)[17 + kb.length]?
      = some players.length := by
  have h : revision12Layout r hi lo v0 v1 v2 kb cb e s players kfs chs
      = ([12, r] ++ be32 hi ++ be32 lo ++ [v0, v1, v2] ++ [kb.length] ++ kb ++ [cb, e, s])
        ++ players.length :: (players.flatMap playerBytes
          ++ be16 kfs.length ++ kfs.flatMap fragmentBytes
          ++ be16 chs.length ++ chs.flatMap fragmentBytes) := by
    simp [revision12Layout]
  rw [h, getElem?_append_cons _ _ _ _ (by simp; omega)]

theorem playersBytes_length (players : List Player) :
    (players.flatMap playerBytes).length
      = (players.map (fun p => 20 + utf8ByteLength p.name)).sum := by
  induction players with
  | nil => rfl
  | cons p ps ih =>
    simp only [List.flatMap_cons, List.length_append, ih, playerBytes_length, List.map_cons,
      List.sum_cons]

theorem layout_length (r hi lo v0 v1 v2 : Nat) (kb : List Nat) (cb e s : Nat)
    (players : List Player) (kfs chs : List Fragment) :
    (revision12Layout r hi lo v0 v1 v2 kb cb e s players kfs chs).length
      = 18 + kb.length + (players.map (fun p => 20 + utf8ByteLength p.name)).sum + 4
        + (dataLengthSum kfs + dataLengthSum chs) + 6 * (kfs.length + chs.length) := by
  simp only [revision12Layout, List.length_append, List.length_cons, List.length_nil,
    be32_length, be16_length, playersBytes_length, fragmentsBytes_length]
  omega

theorem populated_length_eq_iff (t : List (Option Fragment)) :
    (populated t).length = t.length ↔
      ∀ j : Nat, j < t.length → ∃ f, t[j]? = some (some f) := by
  induction t with
  | nil => simp [populated]
  | cons a t ih =>
    cases a with
    | none =>
      rw [populated_cons_none]
      have := populated_length_le t
      constructor
      · intro h
        simp only [List.length_cons] at h
        omega
      · intro h
        obtain ⟨f, hf⟩ := h 0 (by simp)
        simp at hf
    | some g =>
      rw [populated_cons_some]
      simp only [List.length_cons, Nat.add_right_cancel_iff]
      rw [ih]
      constructor
      · intro h j hj
        cases j with
        | zero => exact ⟨g, by simp⟩
        | succ j =>
          obtain ⟨f, hf⟩ := h j (by omega)
          exact ⟨f, by simpa using hf⟩
      · intro h j hj
        obtain ⟨f, hf⟩ := h (j + 1) (by omega)
        exact ⟨f, by simpa using hf⟩

/-- With index 0 unpopulated, the populated count equals the nominal length minus 1
exactly when every index from 1 up to the last one is populated. -/
theorem populated_complete_iff (l : List (Option Fragment)) (K : Nat)
    (h0 : l[0]? = some none) (hK : l.length = K + 1) :
    ((populated l).length : Int) = (l.length : Int) - 1 ↔
      ∀ i : Nat, 1 ≤ i → i ≤ K → ∃ f, l[i]? = some (some f) := by
  cases l with
  | nil => simp at h0
  | cons a t =>
    simp only [List.getElem?_cons_zero, Option.some.injEq] at h0
    subst h0
    simp only [List.length_cons] at hK
    rw [populated_cons_none]
    have e : ((populated t).length : Int) = (((none : Option Fragment) :: t).length : Int) - 1
        ↔ (populated t).length = t.length := by
      simp only [List.length_cons]
      omega
    rw [e, populated_length_eq_iff]
    constructor
    · intro h i h1 h2
      obtain ⟨j, rfl⟩ : ∃ j, i = j + 1 := ⟨i - 1, by omega⟩
      obtain ⟨f, hf⟩ := h j (by omega)
      exact ⟨f, by simpa using hf⟩
    · intro h j hj
      obtain ⟨f, hf⟩ := h (j + 1) (by omega) (by omega)
      exact ⟨f, by simpa using hf⟩

/-- C15: whenever `save` returns a written result, the warnings returned with it
are exactly `['No players']` if the roster is present and empty and exactly `[]` if
it is absent or non-empty; with an empty or absent roster the player count byte
(at offset 17 + key length) is 0; and the roster never blocks encoding: the same
record with an empty roster is written too, with the warning, and so is the same
record without a roster, with no warning. -/
theorem save_player_warnings (game : Game) (buff : List Nat) (warnings : List String)
    (h : save game = .written buff warnings) :
    warnings = (if game.players = some [] then ["No players"] else []) ∧
    (∀ key, game.key = some key → (game.players = none ∨ game.players = some []) →
      buff[17 + base64ByteLength key.toList]? = some 0) ∧
    (∃ b, save { game with players := some [] } = .written b ["No players"]) ∧
    (∃ b, save { game with players := none } = .written b []) := by
  obtain ⟨⟨hm, r, g, v, k, e, s, kfs, chs, kb, hr, hg, hv, hk, he, hs, hkf, hkn, hch, hcn, hok,
    hb⟩, hw⟩ := (save_written_iff game buff warnings).1 h
  have hok' : EncodeOk r g v k kb e s [] kfs chs :=
    { regionId := hok.regionId, gameId := hok.gameId, v0 := hok.v0, v1 := hok.v1, v2 := hok.v2,
      key := hok.key, keyLen := hok.keyLen, endStartup := hok.endStartup,
      startGame := hok.startGame, playerCount := by simp, players := by simp,
      keyframeCount := hok.keyframeCount, chunkCount := hok.chunkCount,
      keyframes := hok.keyframes, chunks := hok.chunks }
  refine ⟨?_, ?_, ?_, ?_⟩
  · rw [hw]
    unfold playerWarnings
    simp
  · intro key hkey hp
    rw [hk] at hkey
    injection hkey with hkey
    subst hkey
    have hp' : game.players.getD [] = [] := by
      rcases hp with hp | hp <;> rw [hp] <;> rfl
    rw [hb, hp', base64ByteLength_of_decode _ _ hok.key]
    unfold encodedLayout
    rw [layout_player_count]
    rfl
  · refine ⟨_, (save_written_iff { game with players := some [] } _ _).2
      ⟨⟨hm, r, g, v, k, e, s, kfs, chs, kb, hr, hg, hv, hk, he, hs, hkf, hkn, hch, hcn, hok',
        rfl⟩, ?_⟩⟩
    simp [playerWarnings]
  · refine ⟨_, (save_written_iff { game with players := none } _ _).2
      ⟨⟨hm, r, g, v, k, e, s, kfs, chs, kb, hr, hg, hv, hk, he, hs, hkf, hkn, hch, hcn, hok',
        rfl⟩, ?_⟩⟩
    simp [playerWarnings]

theorem save_player_warnings_witness :
    (["No players"] : List String)
      = (if ({ exampleGame with players := some [] } : Game).players = some []
          then ["No players"] else []) ∧
    emptyRosterBytes[17 + base64ByteLength "YWJj".toList]? = some 0 ∧
    (∃ b, save { ({ exampleGame with players := some [] } : Game) with players := some [] }
      = .written b ["No players"]) ∧
    (∃ b, save { ({ exampleGame with players := some [] } : Game) with players := none }
      = .written b []) :=
  ⟨(save_player_warnings { exampleGame with players := some [] } emptyRosterBytes
      ["No players"] (by decide)).1,
   (save_player_warnings { exampleGame with players := some [] } emptyRosterBytes
      ["No players"] (by decide)).2.1 "YWJj" rfl (Or.inr rfl),
   (save_player_warnings { exampleGame with players := some [] } emptyRosterBytes
      ["No players"] (by decide)).2.2⟩

/-- C18, counterexample: `save` writes the record `spacedKeyGame`, whose key
`Y W J j` has the byte length 5 and decodes to 3 bytes; the key write stores
these 3 bytes at offsets 14 to 16 and the cursor advances by 5, so the bytes at
offsets 17 and 18 of the output are never written: they hold whatever the
buffer held when it was allocated (0 for a zero-filled buffer, 7 for a buffer
filled with 7), while the cursor still ends at the buffer length 76. -/
theorem save_leaves_key_bytes_unwritten :
    save spacedKeyGame = .written spacedKeyBytes [] ∧
    base64ByteLength "Y W J j".toList = 5 ∧ (base64Decode "Y W J j".toList).length = 3 ∧
    encodeWith 0 1 5000000000 "7.x.1" "Y W J j" 1 1
        [{ id := 42, name := "Ahri", teamNr := 0, leagueId := 3, leagueRank := 1,
           championId := 103, spell1Id := 4, spell2Id := 14 }]
        [none, some { id := 1, data := [1, 2, 3] }]
        [none, some { id := 1, data := [0, 1, 2, 3, 4, 5, 6, 7, 8, 9] }]
      = .ok (spacedKeyBytes, 76) ∧
    encodeWith 7 1 5000000000 "7.x.1" "Y W J j" 1 1
        [{ id := 42, name := "Ahri", teamNr := 0, leagueId := 3, leagueRank := 1,
           championId := 103, spell1Id := 4, spell2Id := 14 }]
        [none, some { id := 1, data := [1, 2, 3] }]
        [none, some { id := 1, data := [0, 1, 2, 3, 4, 5, 6, 7, 8, 9] }]
      = .ok ((spacedKeyBytes.set 17 7).set 18 7, 76) ∧
    spacedKeyBytes.length = 76 ∧
    spacedKeyBytes[17]? = some 0 ∧ ((spacedKeyBytes.set 17 7).set 18 7)[17]? = some 7 :=
  ⟨by decide, by decide, by decide, rfl, rfl, by decide, by decide, by decide⟩

/-- C18, amended: whenever `save` writes a record, the buffer has exactly the
length 18 + key length + the sum over the players of (20 + name byte length) + 4
+ the total data length of the populated fragments + 6 for each populated
fragment, and the run of `save` that produced it (every write of which is
checked against the buffer as it is sized at that point) ends with the write
cursor equal to the buffer length; and if the key decodes to exactly as many
bytes as its byte length `Buffer.byteLength(key, 'base64')`, no byte of the
output is left unwritten: whatever the buffers `save` allocates hold when they
are allocated, the run produces the same bytes. -/
theorem save_buffer_sizing (game : Game) (buff : List Nat) (warnings : List String)
    (h : save game = .written buff warnings) :
    ∃ regionId gameId riotVersion key endStartupChunkId startGameChunkId keyframes chunks,
      game.regionId = some regionId ∧ game.gameId = some gameId ∧
      game.riotVersion = some riotVersion ∧ game.key = some key ∧
      game.endStartupChunkId = some endStartupChunkId ∧
      game.startGameChunkId = some startGameChunkId ∧
      game.keyframes = some keyframes ∧ game.chunks = some chunks ∧
      encode regionId gameId riotVersion key endStartupChunkId startGameChunkId
        (game.players.getD []) keyframes chunks = .ok (buff, buff.length) ∧
      buff.length = 18 + base64ByteLength key.toList
        + ((game.players.getD []).map (fun p => 20 + utf8ByteLength p.name)).sum + 4
        + (dataLengthSum (populated keyframes) + dataLengthSum (populated chunks))
        + 6 * ((populated keyframes).length + (populated chunks).length) ∧
      ((base64Decode key.toList).length = base64ByteLength key.toList →
        ∀ fill, encodeWith fill regionId gameId riotVersion key endStartupChunkId
          startGameChunkId (game.players.getD []) keyframes chunks = .ok (buff, buff.length)) := by
  obtain ⟨⟨hm, r, g, v, k, e, s, kfs, chs, kb, hr, hg, hv, hk, he, hs, hkf, hkn, hch, hcn, hok,
    hb⟩, hw⟩ := (save_written_iff game buff warnings).1 h
  refine ⟨r, g, v, k, e, s, kfs, chs, hr, hg, hv, hk, he, hs, hkf, hch, ?_, ?_, ?_⟩
  · rw [hb]
    exact encode_ok r g v k kb e s _ kfs chs hok
  · rw [hb, base64ByteLength_of_decode _ _ hok.key]
    unfold encodedLayout
    rw [layout_length]
  · intro hfull fill
    have hkey : keyField fill k.toList = kb := by
      rw [← hok.key, keyField_eq, keyField_eq, hfull, Nat.sub_self]
      rfl
    rw [encodeWith_ok fill r g v k kb e s _ kfs chs hok, hkey, hb]

theorem save_buffer_sizing_witness :
    ∃ regionId gameId riotVersion key endStartupChunkId startGameChunkId keyframes chunks,
      exampleGame.regionId = some regionId ∧ exampleGame.gameId = some gameId ∧
      exampleGame.riotVersion = some riotVersion ∧ exampleGame.key = some key ∧
      exampleGame.endStartupChunkId = some endStartupChunkId ∧
      exampleGame.startGameChunkId = some startGameChunkId ∧
      exampleGame.keyframes = some keyframes ∧ exampleGame.chunks = some chunks ∧
      encode regionId gameId riotVersion key endStartupChunkId startGameChunkId
        (exampleGame.players.getD []) keyframes chunks = .ok (exampleBytes, exampleBytes.length) ∧
      exampleBytes.length = 18 + base64ByteLength key.toList
        + ((exampleGame.players.getD []).map (fun p => 20 + utf8ByteLength p.name)).sum + 4
        + (dataLengthSum (populated keyframes) + dataLengthSum (populated chunks))
        + 6 * ((populated keyframes).length + (populated chunks).length) ∧
      ((base64Decode key.toList).length = base64ByteLength key.toList →
        ∀ fill, encodeWith fill regionId gameId riotVersion key endStartupChunkId
          startGameChunkId (exampleGame.players.getD []) keyframes chunks
            = .ok (exampleBytes, exampleBytes.length)) :=
  save_buffer_sizing exampleGame exampleBytes [] (by decide)

/-- C20: for every record that `save` writes in which index 0 of both fragment
collections is unpopulated, with `K + 1` the nominal length of the keyframe
collection and `C + 1` that of the chunk collection (so that `K` and `C` are the
highest populated indices whenever the last entries are populated), the
completeness byte (at offset 14 + key length) is 1 if every index `1..K` of the
keyframes and every index `1..C` of the chunks is populated, and 0 if there is a
gap in either collection. -/
theorem complete_byte_iff_no_gaps (game : Game) (buff : List Nat) (warnings : List String)
    (key : String) (keyframes chunks : List (Option Fragment)) (K C : Nat)
    (h : save game = .written buff warnings) (hk : game.key = some key)
    (hkf : game.keyframes = some keyframes) (hch : game.chunks = some chunks)
    (hk0 : keyframes[0]? = some none) (hc0 : chunks[0]? = some none)
    (hK : keyframes.length = K + 1) (hC : chunks.length = C + 1) :
    (((∀ i : Nat, 1 ≤ i → i ≤ K → ∃ f, keyframes[i]? = some (some f)) ∧
        (∀ i : Nat, 1 ≤ i → i ≤ C → ∃ f, chunks[i]? = some (some f))) →
      buff[14 + base64ByteLength key.toList]? = some 1) ∧
    (¬ ((∀ i : Nat, 1 ≤ i → i ≤ K → ∃ f, keyframes[i]? = some (some f)) ∧
        (∀ i : Nat, 1 ≤ i → i ≤ C → ∃ f, chunks[i]? = some (some f))) →
      buff[14 + base64ByteLength key.toList]? = some 0) := by
  obtain ⟨⟨-, r, g, v, k, e, s, kfs, chs, kb, -, -, -, hk', -, -, hkf', -, hch', -, hok, hb⟩, -⟩ :=
    (save_written_iff game buff warnings).1 h
  rw [hk] at hk'; rw [hkf] at hkf'; rw [hch] at hch'
  injection hk' with hk'; injection hkf' with hkf'; injection hch' with hch'
  subst hk' hkf' hch' hb
  rw [base64ByteLength_of_decode _ _ hok.key]
  unfold encodedLayout
  rw [layout_complete_byte]
  unfold completeByte
  have e1 := populated_complete_iff keyframes K hk0 hK
  have e2 := populated_complete_iff chunks C hc0 hC
  constructor
  · intro hall
    rw [if_pos ⟨e1.2 hall.1, e2.2 hall.2⟩]
  · intro hgap
    rw [if_neg (fun hc => hgap ⟨e1.1 hc.1, e2.1 hc.2⟩)]

theorem complete_byte_iff_no_gaps_witness :
    exampleBytes[14 + base64ByteLength "YWJj".toList]? = some 1 ∧
    gapBytes[14 + base64ByteLength "YWJj".toList]? = some 0 :=
  ⟨(complete_byte_iff_no_gaps exampleGame exampleBytes [] "YWJj" _ _ 1 1
      (by decide) rfl rfl rfl rfl rfl rfl rfl).1
      ⟨fun i h1 h2 => by
          obtain rfl : i = 1 := by omega
          exact ⟨_, rfl⟩,
        fun i h1 h2 => by
          obtain rfl : i = 1 := by omega
          exact ⟨_, rfl⟩⟩,
   (complete_byte_iff_no_gaps gapGame gapBytes [] "YWJj" _ _ 2 1
      (by decide) rfl rfl rfl rfl rfl rfl rfl).2
      (fun hall => by
        obtain ⟨f, hf⟩ := hall.1 1 (by omega) (by omega)
        cases hf)⟩

theorem load_exampleBytes : load exampleBytes = .ok exampleMetadata exampleData := by
  decide

theorem load_ok_run (buff : List Nat) (md : ReplayMetadata) (rd : ReplayData)
    (h : load buff = .ok md rd) : ∃ c, loadRun buff = .ok (.ok (md, rd), c) := by
  unfold load at h
  split at h
  · rename_i md' rd' c hrun
    injection h with h1 h2
    subst h1 h2
    exact ⟨c, hrun⟩
  · cases h
  · cases h

theorem load_of_run_ok (buff : List Nat) (md : ReplayMetadata) (rd : ReplayData) (c : Nat)
    (h : loadRun buff = .ok (.ok (md, rd), c)) : load buff = .ok md rd := by
  unfold load
  rw [h]

theorem load_of_run_failed (buff : List Nat) (msg : String) (c : Nat)
    (h : loadRun buff = .ok (.error msg, c)) : load buff = .failed msg := by
  unfold load
  rw [h]

theorem load_fault (buff : List Nat) : load buff ≠ .thrown .typeError := by
  unfold load
  split
  · intro h; cases h
  · intro h; cases h
  · rename_i fault hrun
    intro h
    injection h with h
    subst h
    exact loadRun_fault buff hrun

theorem fragmentIdOf_nonneg (fileVersion : Int) (i : Nat) (idField : List Nat) :
    0 ≤ fragmentIdOf fileVersion i idField := by
  unfold fragmentIdOf
  split
  · omega
  · split <;> omega

theorem storeItems_length_le (fileVersion : Int) (items : List (List Nat × List Nat)) (i : Nat)
    (arr : List (Option Fragment)) : arr.length ≤ (storeItems fileVersion i items arr).length := by
  induction items generalizing i arr with
  | nil => exact le_refl _
  | cons it items ih =>
    rw [storeItems]
    refine le_trans ?_ (ih _ _)
    rw [setSparse_length]
    omega

theorem storeItems_ids_lt (fileVersion : Int) (items : List (List Nat × List Nat)) (i : Nat)
    (arr : List (Option Fragment)) :
    ∀ id ∈ streamIds fileVersion i items,
      id.toNat < (storeItems fileVersion i items arr).length := by
  induction items generalizing i arr with
  | nil =>
    intro id hid
    simp [streamIds] at hid
  | cons it items ih =>
    intro id hid
    rw [streamIds, List.mem_cons] at hid
    rw [storeItems]
    rcases hid with hid | hid
    · subst hid
      refine lt_of_lt_of_le ?_ (storeItems_length_le _ _ _ _)
      rw [setSparse_length]
      omega
    · exact ih _ _ id hid

theorem mem_setSparse (arr : List (Option Fragment)) (k : Nat) (v f : Fragment)
    (h : some f ∈ setSparse arr k v) : f = v ∨ some f ∈ arr := by
  unfold setSparse at h
  split at h
  · rcases List.mem_or_eq_of_mem_set h with h | h
    · exact Or.inr h
    · injection h with h
      exact Or.inl h
  · simp only [List.mem_append, List.mem_replicate, List.mem_singleton] at h
    rcases h with (h | ⟨-, h⟩) | h
    · exact Or.inr h
    · cases h
    · injection h with h
      exact Or.inl h

theorem storeItems_mem (fileVersion : Int) (items : List (List Nat × List Nat)) (i : Nat)
    (arr : List (Option Fragment)) (f : Fragment)
    (h : some f ∈ storeItems fileVersion i items arr) :
    some f ∈ arr ∨ f.id ∈ streamIds fileVersion i items := by
  induction items generalizing i arr with
  | nil => exact Or.inl h
  | cons it items ih =>
    rw [storeItems] at h
    rw [streamIds, List.mem_cons]
    rcases ih _ _ h with h1 | h1
    · rcases mem_setSparse _ _ _ _ h1 with h2 | h2
      · subst h2
        exact Or.inr (Or.inl rfl)
      · exact Or.inl h2
    · exact Or.inr (Or.inr h1)

theorem storeItems_indexed (fileVersion : Int) (items : List (List Nat × List Nat)) (i : Nat)
    (arr : List (Option Fragment)) (h : IndexedById arr) :
    IndexedById (storeItems fileVersion i items arr) := by
  induction items generalizing i arr with
  | nil => exact h
  | cons it items ih =>
    rw [storeItems]
    exact ih _ _ (setSparse_indexed arr
      { id := fragmentIdOf fileVersion i it.1, data := it.2 } (fragmentIdOf_nonneg _ _ _) h)

/-- The id of the last entry of a decoded section is one of the ids of the stream
and no id of the stream exceeds it. -/
theorem storeItems_last_max (fileVersion : Int) (items : List (List Nat × List Nat))
    (last : Fragment) (h : (storeItems fileVersion 0 items []).getLast? = some (some last)) :
    last.id ∈ streamIds fileVersion 0 items ∧
    ∀ id ∈ streamIds fileVersion 0 items, id ≤ last.id := by
  have hidx := storeItems_indexed fileVersion items 0 [] indexedById_nil
  obtain ⟨h1, -⟩ := indexed_last _ _ hidx h
  constructor
  · have hmem : some last ∈ storeItems fileVersion 0 items [] := by
      rw [List.getLast?_eq_getElem?] at h
      exact List.mem_iff_getElem?.2 ⟨_, h⟩
    rcases storeItems_mem _ _ _ _ _ hmem with h2 | h2
    · simp at h2
    · exact h2
  · intro id hid
    have := storeItems_ids_lt fileVersion items 0 [] id hid
    omega

theorem streamOk_10_example :
    StreamOk 10 5000000000 [] [([1], [1, 2, 3])] [([5], [9]), ([2], [8, 8])] :=
  ⟨by decide, by decide, by decide, by decide, by decide, by decide, by decide⟩

theorem readCount_nonneg (fileVersion : Int) (buff : List Nat) (c : Nat) (num : Int) (c1 : Nat)
    (h : readCount fileVersion buff c = .ok (num, c1)) : 0 ≤ num := by
  unfold readCount at h
  split at h
  · simp only [bind_eq_ok] at h
    obtain ⟨v, hv, h⟩ := h
    obtain ⟨b, rest, -, hb⟩ := readUInt8_inv _ _ _ hv
    simp only [pure, Except.pure] at h
    injection h with h
    injection h with h1 h2
    omega
  · simp only [bind_eq_ok] at h
    obtain ⟨v, hv, h⟩ := h
    obtain ⟨b0, b1, rest, -, hb⟩ := readUInt16BE_inv _ _ _ hv
    simp only [pure, Except.pure] at h
    injection h with h
    injection h with h1 h2
    omega

/-- C14: the dereference of the last entry of the chunk collection never fails
(`load` never throws a type error); on every buffer on which `load` succeeds the
entry at index `length - 1` of the chunk collection is populated,
`endGameChunkId` is its id, and every populated entry sits at the index equal to
its id, which is at most `endGameChunkId`; and on a well-formed stream of any
accepted revision `endGameChunkId` is one of the chunk ids read from (or made up
for) the stream and none of them exceeds it. -/
theorem endGameChunkId_is_greatest_id :
    (∀ buff, load buff ≠ .thrown .typeError) ∧
    (∀ buff md rd, load buff = .ok md rd →
      (∃ last, rd.chunks[rd.chunks.length - 1]? = some (some last) ∧
        md.endGameChunkId = last.id) ∧
      (∀ (i : Nat) (f : Fragment), rd.chunks[i]? = some (some f) →
        f.id = (i : Int) ∧ f.id ≤ md.endGameChunkId)) ∧
    (∀ (fileVersion regionId gameId v0 v1 v2 : Nat) (keyBytes : List Nat)
        (complete endStartupChunkId startGameChunkId : Nat) (players : List Player)
        (keyframes chunks : List (List Nat × List Nat)) (extra : List Nat),
      StreamOk fileVersion gameId players keyframes chunks → keyframes ≠ [] → chunks ≠ [] →
      ∃ md rd, load (replayStream fileVersion regionId gameId v0 v1 v2 keyBytes complete
            endStartupChunkId startGameChunkId players keyframes chunks ++ extra) = .ok md rd ∧
        md.endGameChunkId ∈ streamIds (fileVersion : Int) 0 chunks ∧
        ∀ id ∈ streamIds (fileVersion : Int) 0 chunks, id ≤ md.endGameChunkId) := by
  refine ⟨load_fault, ?_, ?_⟩
  · intro buff md rd h
    obtain ⟨c, hrun⟩ := load_ok_run buff md rd h
    have hd := loadRun_ok_inv buff md rd c hrun
    obtain ⟨cK, numK, c1, c2, numC, c3, -, -, -, hch⟩ := hd.sections
    obtain ⟨last, hlast, hend⟩ := hd.lastChunk
    obtain ⟨hidx, -, -⟩ := readFragments_inv _ _ _ _ _ _ _ _ hch indexedById_nil (Or.inl rfl)
    obtain ⟨-, hmax⟩ := indexed_last _ _ hidx hlast
    refine ⟨⟨last, ?_, hend⟩, ?_⟩
    · rw [← List.getLast?_eq_getElem?]
      exact hlast
    · intro i f hf
      rw [hend]
      exact ⟨hidx i f hf, hmax i f hf⟩
  · intro fileVersion regionId gameId v0 v1 v2 keyBytes complete endStartupChunkId
      startGameChunkId players keyframes chunks extra hok hk hc
    obtain ⟨last, hlast, hrun⟩ := loadRun_stream fileVersion regionId gameId v0 v1 v2 keyBytes
      complete endStartupChunkId startGameChunkId players keyframes chunks extra hok hk hc
    obtain ⟨h1, h2⟩ := storeItems_last_max _ _ _ hlast
    exact ⟨_, _, load_of_run_ok _ _ _ _ hrun, h1, h2⟩

theorem endGameChunkId_is_greatest_id_witness :
    ((∃ last, exampleData.chunks[exampleData.chunks.length - 1]? = some (some last) ∧
        exampleMetadata.endGameChunkId = last.id) ∧
      ((1 : Int) = ((1 : Nat) : Int) ∧ (1 : Int) ≤ exampleMetadata.endGameChunkId)) ∧
    (∃ md rd, load (replayStream 10 1 5000000000 7 10 154 [97, 98, 99] 0 1 1 []
          [([1], [1, 2, 3])] [([5], [9]), ([2], [8, 8])] ++ []) = .ok md rd ∧
      md.endGameChunkId ∈ streamIds ((10 : Nat) : Int) 0 [([5], [9]), ([2], [8, 8])] ∧
      ∀ id ∈ streamIds ((10 : Nat) : Int) 0 [([5], [9]), ([2], [8, 8])],
        id ≤ md.endGameChunkId) :=
  ⟨⟨(endGameChunkId_is_greatest_id.2.1 exampleBytes exampleMetadata exampleData
        load_exampleBytes).1,
     (endGameChunkId_is_greatest_id.2.1 exampleBytes exampleMetadata exampleData
        load_exampleBytes).2 1 { id := 1, data := [0, 1, 2, 3, 4, 5, 6, 7, 8, 9] } rfl⟩,
   endGameChunkId_is_greatest_id.2.2 10 1 5000000000 7 10 154 [97, 98, 99] 0 1 1 []
     [([1], [1, 2, 3])] [([5], [9]), ([2], [8, 8])] [] streamOk_10_example (by decide)
     (by decide)⟩

/-- C17: on every buffer on which `load` succeeds, every populated entry of the
returned keyframe collection and of the returned chunk collection sits at the
index equal to its id, so two populated entries of one collection with the same
id are the same entry; and each collection is what the fragment loop builds
from the empty collection with the count read from the stream just before it,
the number of its populated entries being at most that count. -/
theorem load_entries_at_their_ids (buff : List Nat) (md : ReplayMetadata) (rd : ReplayData)
    (h : load buff = .ok md rd) :
    (∀ (i : Nat) (f : Fragment), rd.keyframes[i]? = some (some f) → f.id = (i : Int)) ∧
    (∀ (i : Nat) (f : Fragment), rd.chunks[i]? = some (some f) → f.id = (i : Int)) ∧
    (∀ (i j : Nat) (f g : Fragment), rd.keyframes[i]? = some (some f) →
      rd.keyframes[j]? = some (some g) → f.id = g.id → i = j) ∧
    (∀ (i j : Nat) (f g : Fragment), rd.chunks[i]? = some (some f) →
      rd.chunks[j]? = some (some g) → f.id = g.id → i = j) ∧
    ∃ (cK : Nat) (numK : Int) (c1 c2 : Nat) (numC : Int) (c3 c : Nat),
      readCount md.fileVersion buff cK = .ok (numK, c1) ∧
      readFragments md.fileVersion buff numK.toNat 0 c1 [] = .ok (rd.keyframes, c2) ∧
      readCount md.fileVersion buff c2 = .ok (numC, c3) ∧
      readFragments md.fileVersion buff numC.toNat 0 c3 [] = .ok (rd.chunks, c) ∧
      ((populated rd.keyframes).length : Int) ≤ numK ∧
      ((populated rd.chunks).length : Int) ≤ numC := by
  obtain ⟨c, hrun⟩ := load_ok_run buff md rd h
  have hd := loadRun_ok_inv buff md rd c hrun
  obtain ⟨cK, numK, c1, c2, numC, c3, hnk, hkf, hnc, hch⟩ := hd.sections
  obtain ⟨hik, -, hck⟩ := readFragments_inv _ _ _ _ _ _ _ _ hkf indexedById_nil (Or.inl rfl)
  obtain ⟨hic, -, hcc⟩ := readFragments_inv _ _ _ _ _ _ _ _ hch indexedById_nil (Or.inl rfl)
  have h0k := readCount_nonneg _ _ _ _ _ hnk
  have h0c := readCount_nonneg _ _ _ _ _ hnc
  refine ⟨hik, hic, indexed_unique _ hik, indexed_unique _ hic,
    cK, numK, c1, c2, numC, c3, c, hnk, hkf, hnc, hch, ?_, ?_⟩
  · simp only [populated, List.filterMap_nil, List.length_nil, Nat.zero_add] at hck
    unfold populated
    omega
  · simp only [populated, List.filterMap_nil, List.length_nil, Nat.zero_add] at hcc
    unfold populated
    omega

theorem load_entries_at_their_ids_witness :
    (∀ (i : Nat) (f : Fragment), exampleData.keyframes[i]? = some (some f) → f.id = (i : Int)) ∧
    (∀ (i : Nat) (f : Fragment), exampleData.chunks[i]? = some (some f) → f.id = (i : Int)) ∧
    (∀ (i j : Nat) (f g : Fragment), exampleData.keyframes[i]? = some (some f) →
      exampleData.keyframes[j]? = some (some g) → f.id = g.id → i = j) ∧
    (∀ (i j : Nat) (f g : Fragment), exampleData.chunks[i]? = some (some f) →
      exampleData.chunks[j]? = some (some g) → f.id = g.id → i = j) ∧
    ∃ (cK : Nat) (numK : Int) (c1 c2 : Nat) (numC : Int) (c3 c : Nat),
      readCount exampleMetadata.fileVersion exampleBytes cK = .ok (numK, c1) ∧
      readFragments exampleMetadata.fileVersion exampleBytes numK.toNat 0 c1 []
        = .ok (exampleData.keyframes, c2) ∧
      readCount exampleMetadata.fileVersion exampleBytes c2 = .ok (numC, c3) ∧
      readFragments exampleMetadata.fileVersion exampleBytes numC.toNat 0 c3 []
        = .ok (exampleData.chunks, c) ∧
      ((populated exampleData.keyframes).length : Int) ≤ numK ∧
      ((populated exampleData.chunks).length : Int) ≤ numC :=
  load_entries_at_their_ids exampleBytes exampleMetadata exampleData load_exampleBytes

theorem lastSome_populated (arr : List (Option Fragment)) (h : LastSome arr) :
    populated arr ≠ [] := by
  obtain ⟨last, h⟩ := h
  rw [List.getLast?_eq_getElem?] at h
  have hmem : some last ∈ arr := List.mem_iff_getElem?.2 ⟨_, h⟩
  have : last ∈ populated arr := by
    unfold populated
    exact List.mem_filterMap.2 ⟨some last, hmem, rfl⟩
  exact List.ne_nil_of_mem this

theorem populated_storeItems_nil (fileVersion : Int) (items : List (List Nat × List Nat)) :
    populated (storeItems fileVersion 0 items []) = [] ↔ items = [] := by
  constructor
  · intro h
    by_contra hne
    exact lastSome_populated _ (storeItems_lastSome fileVersion items 0 [] (Or.inl ⟨rfl, hne⟩)) h
  · intro h
    subst h
    rfl

theorem load_stream_cases (fileVersion regionId gameId v0 v1 v2 : Nat) (keyBytes : List Nat)
    (complete endStartupChunkId startGameChunkId : Nat) (players : List Player)
    (keyframes chunks : List (List Nat × List Nat)) (extra : List Nat)
    (hok : StreamOk fileVersion gameId players keyframes chunks) :
    (keyframes = [] → ∀ rest, load (streamHead fileVersion regionId gameId v0 v1 v2 keyBytes
        complete endStartupChunkId startGameChunkId players keyframes ++ rest)
      = .failed "No keyframes") ∧
    (keyframes ≠ [] → chunks = [] →
      load (replayStream fileVersion regionId gameId v0 v1 v2 keyBytes complete
        endStartupChunkId startGameChunkId players keyframes chunks ++ extra)
      = .failed "No chunks") ∧
    (keyframes ≠ [] → chunks ≠ [] →
      ∃ md, load (replayStream fileVersion regionId gameId v0 v1 v2 keyBytes complete
        endStartupChunkId startGameChunkId players keyframes chunks ++ extra)
      = .ok md { keyframes := storeItems (fileVersion : Int) 0 keyframes [],
                 chunks := storeItems (fileVersion : Int) 0 chunks [] }) := by
  refine ⟨?_, ?_, ?_⟩
  · intro hk rest
    have hhead := loadRun_head fileVersion regionId gameId v0 v1 v2 keyBytes complete
      endStartupChunkId startGameChunkId players keyframes rest
      hok.revision hok.gameId hok.players hok.keyframeCount hok.keyframes
    rw [if_pos hk] at hhead
    exact load_of_run_failed _ _ _ hhead
  · intro hk hc
    have hhead := loadRun_head fileVersion regionId gameId v0 v1 v2 keyBytes complete
      endStartupChunkId startGameChunkId players keyframes
      (countField fileVersion chunks.length ++ chunks.flatMap itemBytes ++ extra)
      hok.revision hok.gameId hok.players hok.keyframeCount hok.keyframes
    rw [if_neg hk] at hhead
    have hd : (streamHead fileVersion regionId gameId v0 v1 v2 keyBytes complete
        endStartupChunkId startGameChunkId players keyframes
        ++ (countField fileVersion chunks.length ++ chunks.flatMap itemBytes ++ extra)).drop
          (streamHead fileVersion regionId gameId v0 v1 v2 keyBytes complete
            endStartupChunkId startGameChunkId players keyframes).length
        = countField fileVersion chunks.length ++ (chunks.flatMap itemBytes ++ extra) := by
      rw [List.drop_left, List.append_assoc]
    have hch := (loadChunks_stream fileVersion _ _ chunks extra
      (storeItems (fileVersion : Int) 0 keyframes [])
      (streamMetadata fileVersion regionId gameId v0 v1 v2 keyBytes complete
        endStartupChunkId startGameChunkId players) hd hok.chunkCount hok.chunks).1 hc
    rw [hch] at hhead
    rw [replayStream_eq_head, List.append_assoc]
    exact load_of_run_failed _ _ _ hhead
  · intro hk hc
    obtain ⟨last, -, hrun⟩ := loadRun_stream fileVersion regionId gameId v0 v1 v2 keyBytes
      complete endStartupChunkId startGameChunkId players keyframes chunks extra hok hk hc
    exact ⟨_, load_of_run_ok _ _ _ _ hrun⟩

/-- C13: on a well-formed stream of any accepted revision (followed by any bytes),
`load` fails with `No keyframes` exactly when the decoded keyframe collection has no
populated entry, and it does so whatever follows the keyframe section, even
nothing at all; when the keyframe collection has a populated entry, `load` fails
with `No chunks` exactly when the decoded chunk collection has no populated entry;
and when both have one, `load` succeeds and returns these two collections.  A
failure carries the message alone. -/
theorem load_empty_sections (fileVersion regionId gameId v0 v1 v2 : Nat) (keyBytes : List Nat)
    (complete endStartupChunkId startGameChunkId : Nat) (players : List Player)
    (keyframes chunks : List (List Nat × List Nat)) (extra : List Nat)
    (hok : StreamOk fileVersion gameId players keyframes chunks) :
    (load (replayStream fileVersion regionId gameId v0 v1 v2 keyBytes complete
        endStartupChunkId startGameChunkId players keyframes chunks ++ extra)
      = .failed "No keyframes" ↔
      populated (storeItems (fileVersion : Int) 0 keyframes []) = []) ∧
    (populated (storeItems (fileVersion : Int) 0 keyframes []) = [] →
      ∀ rest, load (streamHead fileVersion regionId gameId v0 v1 v2 keyBytes complete
        endStartupChunkId startGameChunkId players keyframes ++ rest)
      = .failed "No keyframes") ∧
    (populated (storeItems (fileVersion : Int) 0 keyframes []) ≠ [] →
      (load (replayStream fileVersion regionId gameId v0 v1 v2 keyBytes complete
          endStartupChunkId startGameChunkId players keyframes chunks ++ extra)
        = .failed "No chunks" ↔
        populated (storeItems (fileVersion : Int) 0 chunks []) = [])) ∧
    (populated (storeItems (fileVersion : Int) 0 keyframes []) ≠ [] →
      populated (storeItems (fileVersion : Int) 0 chunks []) ≠ [] →
      ∃ md, load (replayStream fileVersion regionId gameId v0 v1 v2 keyBytes complete
          endStartupChunkId startGameChunkId players keyframes chunks ++ extra)
        = .ok md { keyframes := storeItems (fileVersion : Int) 0 keyframes [],
                   chunks := storeItems (fileVersion : Int) 0 chunks [] }) := by
  obtain ⟨h1, h2, h3⟩ := load_stream_cases fileVersion regionId gameId v0 v1 v2 keyBytes complete
    endStartupChunkId startGameChunkId players keyframes chunks extra hok
  simp only [populated_storeItems_nil, ne_eq]
  refine ⟨?_, h1, ?_, h3⟩
  · constructor
    · intro h
      by_contra hk
      by_cases hc : chunks = []
      · rw [h2 hk hc] at h
        injection h with h
        exact absurd h (by decide)
      · obtain ⟨md, h4⟩ := h3 hk hc
        rw [h4] at h
        cases h
    · intro hk
      have := h1 hk (countField fileVersion chunks.length ++ chunks.flatMap itemBytes ++ extra)
      rw [replayStream_eq_head, List.append_assoc]
      exact this
  · intro hk
    constructor
    · intro h
      by_contra hc
      obtain ⟨md, h4⟩ := h3 hk hc
      rw [h4] at h
      cases h
    · intro hc
      exact h2 hk hc

theorem load_empty_sections_witness :
    (∀ rest, load (streamHead 10 1 5000000000 7 10 154 [97, 98, 99] 0 1 1 [] [] ++ rest)
      = .failed "No keyframes") ∧
    load (replayStream 10 1 5000000000 7 10 154 [97, 98, 99] 0 1 1 [] [([1], [1, 2, 3])] []
      ++ [4, 4]) = .failed "No chunks" ∧
    (∃ md, load (replayStream 10 1 5000000000 7 10 154 [97, 98, 99] 0 1 1 []
          [([1], [1, 2, 3])] [([5], [9]), ([2], [8, 8])] ++ [])
        = .ok md { keyframes := storeItems ((10 : Nat) : Int) 0 [([1], [1, 2, 3])] [],
                   chunks := storeItems ((10 : Nat) : Int) 0 [([5], [9]), ([2], [8, 8])] [] }) :=
  ⟨(load_empty_sections 10 1 5000000000 7 10 154 [97, 98, 99] 0 1 1 [] [] [([5], [9])] []
      ⟨by decide, by decide, by decide, by decide, by decide, by decide, by decide⟩).2.1 rfl,
   ((load_empty_sections 10 1 5000000000 7 10 154 [97, 98, 99] 0 1 1 [] [([1], [1, 2, 3])] []
      [4, 4] ⟨by decide, by decide, by decide, by decide, by decide, by decide, by decide⟩).2.2.1
      (by decide)).2 rfl,
   (load_empty_sections 10 1 5000000000 7 10 154 [97, 98, 99] 0 1 1 [] [([1], [1, 2, 3])]
      [([5], [9]), ([2], [8, 8])] [] streamOk_10_example).2.2.2 (by decide) (by decide)⟩

theorem flatMap_legacyItem (fs : List Fragment) :
    (fs.map legacyItem).flatMap itemBytes = fs.flatMap legacyBytes := by
  induction fs with
  | nil => rfl
  | cons f fs ih =>
    rw [List.map_cons, List.flatMap_cons, List.flatMap_cons, ih]
    rfl

theorem storeItems_legacy (fileVersion : Int) (hv : fileVersion < 11) (fs : List Fragment)
    (h : ∀ f ∈ fs, 0 ≤ f.id) (n : Nat) (arr : List (Option Fragment)) :
    storeItems fileVersion n (fs.map legacyItem) arr = storeFragments fs arr := by
  induction fs generalizing n arr with
  | nil => rfl
  | cons f fs ih =>
    have h0 := h f (List.mem_cons_self _ _)
    have hfid : fragmentIdOf fileVersion n (legacyItem f).1 = f.id := by
      unfold fragmentIdOf
      rw [if_pos hv]
      simp only [legacyItem, List.headD_cons]
      omega
    have hf : ({ id := f.id, data := (legacyItem f).2 } : Fragment) = f := by
      cases f; rfl
    rw [List.map_cons, storeItems, hfid, hf, ih (fun g hg => h g (List.mem_cons_of_mem _ hg))]
    rfl

theorem load_legacy_stream (fileVersion regionId gameId v0 v1 v2 : Nat) (keyBytes : List Nat)
    (complete endStartupChunkId startGameChunkId : Nat) (players : List Player)
    (keyframes chunks : List Fragment) (extra : List Nat)
    (hv : fileVersion = 8 ∨ fileVersion = 10)
    (hg : gameId < (if fileVersion = 8 then 4294967296 else 18446744073709551616))
    (hplayers : ∀ p ∈ players, PlayerOk p)
    (hk : keyframes ≠ []) (hc : chunks ≠ [])
    (hkn : keyframes.length ≤ 255) (hcn : chunks.length ≤ 255)
    (hfr : ∀ f ∈ keyframes ++ chunks, 0 ≤ f.id ∧ f.id ≤ 255 ∧ f.data.length ≤ 2147483647) :
    ∃ last, (storeFragments chunks []).getLast? = some (some last) ∧
      load (replayStream fileVersion regionId gameId v0 v1 v2 keyBytes complete
          endStartupChunkId startGameChunkId players (keyframes.map legacyItem)
          (chunks.map legacyItem) ++ extra)
        = .ok { fileVersion := (fileVersion : Int), regionId := (regionId : Int),
                gameId := decodedGameId fileVersion gameId,
                riotVersion := versionText v0 v1 v2,
                key := String.mk (base64Encode keyBytes), complete := (complete : Int),
                endStartupChunkId := (endStartupChunkId : Int),
                startGameChunkId := (startGameChunkId : Int), players := players,
                endGameChunkId := last.id }
              { keyframes := storeFragments keyframes [], chunks := storeFragments chunks [] } := by
  have hlt : (fileVersion : Int) < 11 := by omega
  have hw : idFieldWidth (fileVersion : Int) = 1 := by
    unfold idFieldWidth
    rw [if_pos (by omega)]
  have hok : StreamOk fileVersion gameId players (keyframes.map legacyItem)
      (chunks.map legacyItem) :=
    { revision := by omega
      gameId := hg
      players := hplayers
      keyframeCount := by rw [List.length_map]; omega
      chunkCount := by rw [List.length_map]; omega
      keyframes := by
        intro it hit
        obtain ⟨f, hf, rfl⟩ := List.mem_map.1 hit
        exact ⟨by rw [hw]; rfl, (hfr f (List.mem_append_left _ hf)).2.2⟩
      chunks := by
        intro it hit
        obtain ⟨f, hf, rfl⟩ := List.mem_map.1 hit
        exact ⟨by rw [hw]; rfl, (hfr f (List.mem_append_right _ hf)).2.2⟩ }
  obtain ⟨last, hlast, hrun⟩ := loadRun_stream fileVersion regionId gameId v0 v1 v2 keyBytes
    complete endStartupChunkId startGameChunkId players _ _ extra hok
    (by simpa using hk) (by simpa using hc)
  rw [storeItems_legacy _ hlt chunks
    (fun f hf => (hfr f (List.mem_append_right _ hf)).1)] at hlast hrun
  rw [storeItems_legacy _ hlt keyframes
    (fun f hf => (hfr f (List.mem_append_left _ hf)).1)] at hrun
  exact ⟨last, hlast, load_of_run_ok _ _ _ _ hrun⟩

/-- C11: `load` reads a revision-8 buffer with the game id as the single big-endian
32-bit value at offsets 2..5 and the engine version starting at offset 6, and a
revision-10 buffer with the game id as two 32-bit halves at offsets 2..9; in both
the keyframe count and the chunk count are 1 byte each and every fragment id is
1 byte, stored as read; from revision 11 on the game id is two halves and the two
counts are 2 bytes big-endian.  In each case `load` returns exactly the fields
laid out this way, the game id returned for two halves being the number
`high * 2^32 + low` that line 177 computes from them. -/
theorem legacy_field_widths (regionId gameId v0 v1 v2 : Nat) (keyBytes : List Nat)
    (complete endStartupChunkId startGameChunkId : Nat) (players : List Player)
    (keyframes chunks : List Fragment) (extra : List Nat)
    (hplayers : ∀ p ∈ players, PlayerOk p)
    (hk : keyframes ≠ []) (hc : chunks ≠ [])
    (hkn : keyframes.length ≤ 255) (hcn : chunks.length ≤ 255)
    (hfr : ∀ f ∈ keyframes ++ chunks, 0 ≤ f.id ∧ f.id ≤ 255 ∧ f.data.length ≤ 2147483647) :
    (gameId < 4294967296 →
      ∃ last, (storeFragments chunks []).getLast? = some (some last) ∧
        load ([8, regionId] ++ be32 gameId ++ [v0, v1, v2]
            ++ [keyBytes.length] ++ keyBytes
            ++ [complete, endStartupChunkId, startGameChunkId]
            ++ [players.length] ++ players.flatMap playerBytes
            ++ [keyframes.length] ++ keyframes.flatMap legacyBytes
            ++ [chunks.length] ++ chunks.flatMap legacyBytes ++ extra)
          = .ok { fileVersion := 8, regionId := (regionId : Int), gameId := (gameId : Int),
                  riotVersion := versionText v0 v1 v2, key := String.mk (base64Encode keyBytes),
                  complete := (complete : Int), endStartupChunkId := (endStartupChunkId : Int),
                  startGameChunkId := (startGameChunkId : Int), players := players,
                  endGameChunkId := last.id }
                { keyframes := storeFragments keyframes [],
                  chunks := storeFragments chunks [] }) ∧
    (gameId < 18446744073709551616 →
      ∃ last, (storeFragments chunks []).getLast? = some (some last) ∧
        load ([10, regionId] ++ be32 (gameId / 4294967296) ++ be32 (gameId % 4294967296)
            ++ [v0, v1, v2] ++ [keyBytes.length] ++ keyBytes
            ++ [complete, endStartupChunkId, startGameChunkId]
            ++ [players.length] ++ players.flatMap playerBytes
            ++ [keyframes.length] ++ keyframes.flatMap legacyBytes
            ++ [chunks.length] ++ chunks.flatMap legacyBytes ++ extra)
          = .ok { fileVersion := 10, regionId := (regionId : Int),
                  gameId := joinGameId ((gameId / 4294967296 : Nat) : Int)
                    ((gameId % 4294967296 : Nat) : Int),
                  riotVersion := versionText v0 v1 v2, key := String.mk (base64Encode keyBytes),
                  complete := (complete : Int), endStartupChunkId := (endStartupChunkId : Int),
                  startGameChunkId := (startGameChunkId : Int), players := players,
                  endGameChunkId := last.id }
                { keyframes := storeFragments keyframes [],
                  chunks := storeFragments chunks [] }) ∧
    (∀ (fileVersion : Nat) (items11 chunks11 : List (List Nat × List Nat)),
      11 ≤ fileVersion → StreamOk fileVersion gameId players items11 chunks11 →
      items11 ≠ [] → chunks11 ≠ [] →
      ∃ md, load ([fileVersion, regionId] ++ be32 (gameId / 4294967296)
            ++ be32 (gameId % 4294967296)
            ++ [v0, v1, v2] ++ [keyBytes.length] ++ keyBytes
            ++ [complete, endStartupChunkId, startGameChunkId]
            ++ [players.length] ++ players.flatMap playerBytes
            ++ be16 items11.length ++ items11.flatMap itemBytes
            ++ be16 chunks11.length ++ chunks11.flatMap itemBytes ++ extra)
          = .ok md { keyframes := storeItems (fileVersion : Int) 0 items11 [],
                     chunks := storeItems (fileVersion : Int) 0 chunks11 [] } ∧
        md.fileVersion = (fileVersion : Int) ∧
        md.gameId = joinGameId ((gameId / 4294967296 : Nat) : Int)
          ((gameId % 4294967296 : Nat) : Int) ∧
        md.riotVersion = versionText v0 v1 v2) := by
  refine ⟨?_, ?_, ?_⟩
  · intro hg
    obtain ⟨last, hlast, hload⟩ := load_legacy_stream 8 regionId gameId v0 v1 v2 keyBytes complete
      endStartupChunkId startGameChunkId players keyframes chunks extra (Or.inl rfl)
      (by simpa using hg) hplayers hk hc hkn hcn hfr
    refine ⟨last, hlast, ?_⟩
    have hs : replayStream 8 regionId gameId v0 v1 v2 keyBytes complete endStartupChunkId
          startGameChunkId players (keyframes.map legacyItem) (chunks.map legacyItem) ++ extra
        = [8, regionId] ++ be32 gameId ++ [v0, v1, v2]
            ++ [keyBytes.length] ++ keyBytes
            ++ [complete, endStartupChunkId, startGameChunkId]
            ++ [players.length] ++ players.flatMap playerBytes
            ++ [keyframes.length] ++ keyframes.flatMap legacyBytes
            ++ [chunks.length] ++ chunks.flatMap legacyBytes ++ extra := by
      simp [replayStream, gameIdField, countField, flatMap_legacyItem]
    rw [hs] at hload
    exact hload
  · intro hg
    have hj : decodedGameId 10 gameId = joinGameId ((gameId / 4294967296 : Nat) : Int)
        ((gameId % 4294967296 : Nat) : Int) := by
      unfold decodedGameId
      rw [if_neg (by decide), joinGameId_halves gameId hg]
    obtain ⟨last, hlast, hload⟩ := load_legacy_stream 10 regionId gameId v0 v1 v2 keyBytes
      complete endStartupChunkId startGameChunkId players keyframes chunks extra (Or.inr rfl)
      (by simpa using hg) hplayers hk hc hkn hcn hfr
    refine ⟨last, hlast, ?_⟩
    have hs : replayStream 10 regionId gameId v0 v1 v2 keyBytes complete endStartupChunkId
          startGameChunkId players (keyframes.map legacyItem) (chunks.map legacyItem) ++ extra
        = [10, regionId] ++ be32 (gameId / 4294967296) ++ be32 (gameId % 4294967296)
            ++ [v0, v1, v2] ++ [keyBytes.length] ++ keyBytes
            ++ [complete, endStartupChunkId, startGameChunkId]
            ++ [players.length] ++ players.flatMap playerBytes
            ++ [keyframes.length] ++ keyframes.flatMap legacyBytes
            ++ [chunks.length] ++ chunks.flatMap legacyBytes ++ extra := by
      simp [replayStream, gameIdField, countField, flatMap_legacyItem]
    rw [hs, hj] at hload
    exact hload
  · intro fileVersion items11 chunks11 hv hok hk11 hc11
    obtain ⟨last, -, hrun⟩ := loadRun_stream fileVersion regionId gameId v0 v1 v2 keyBytes
      complete endStartupChunkId startGameChunkId players items11 chunks11 extra hok hk11 hc11
    have hload := load_of_run_ok _ _ _ _ hrun
    have hne8 : ¬ fileVersion = 8 := by omega
    have hnlt : ¬ fileVersion < 11 := by omega
    have hs : replayStream fileVersion regionId gameId v0 v1 v2 keyBytes complete
          endStartupChunkId startGameChunkId players items11 chunks11 ++ extra
        = [fileVersion, regionId] ++ be32 (gameId / 4294967296)
            ++ be32 (gameId % 4294967296)
            ++ [v0, v1, v2] ++ [keyBytes.length] ++ keyBytes
            ++ [complete, endStartupChunkId, startGameChunkId]
            ++ [players.length] ++ players.flatMap playerBytes
            ++ be16 items11.length ++ items11.flatMap itemBytes
            ++ be16 chunks11.length ++ chunks11.flatMap itemBytes ++ extra := by
      simp [replayStream, gameIdField, countField, hne8, hnlt]
    rw [hs] at hload
    have hg := hok.gameId
    rw [if_neg hne8] at hg
    have hj : decodedGameId fileVersion gameId = joinGameId ((gameId / 4294967296 : Nat) : Int)
        ((gameId % 4294967296 : Nat) : Int) := by
      unfold decodedGameId
      rw [if_neg hne8, joinGameId_halves gameId hg]
    exact ⟨_, hload, rfl, hj, rfl⟩

theorem legacy_field_widths_witness :
    (∃ last, (storeFragments [{ id := 5, data := [9] }, { id := 2, data := [8, 8] }]
          []).getLast? = some (some last) ∧
      load ([8, 1] ++ be32 123456 ++ [7, 10, 154] ++ [([97, 98, 99] : List Nat).length]
          ++ [97, 98, 99] ++ [0, 1, 1] ++ [([] : List Player).length]
          ++ ([] : List Player).flatMap playerBytes
          ++ [([{ id := 1, data := [1, 2, 3] }] : List Fragment).length]
          ++ ([{ id := 1, data := [1, 2, 3] }] : List Fragment).flatMap legacyBytes
          ++ [([{ id := 5, data := [9] }, { id := 2, data := [8, 8] }] : List Fragment).length]
          ++ ([{ id := 5, data := [9] }, { id := 2, data := [8, 8] }] : List Fragment).flatMap
              legacyBytes
          ++ [])
        = .ok { fileVersion := 8, regionId := ((1 : Nat) : Int), gameId := ((123456 : Nat) : Int),
                riotVersion := versionText 7 10 154,
                key := String.mk (base64Encode [97, 98, 99]), complete := ((0 : Nat) : Int),
                endStartupChunkId := ((1 : Nat) : Int), startGameChunkId := ((1 : Nat) : Int),
                players := [], endGameChunkId := last.id }
              { keyframes := storeFragments [{ id := 1, data := [1, 2, 3] }] [],
                chunks := storeFragments
                  [{ id := 5, data := [9] }, { id := 2, data := [8, 8] }] [] }) ∧
    (∃ last, (storeFragments [{ id := 5, data := [9] }, { id := 2, data := [8, 8] }]
          []).getLast? = some (some last) ∧
      load ([10, 1] ++ be32 (18446744073709551615 / 4294967296)
          ++ be32 (18446744073709551615 % 4294967296)
          ++ [7, 10, 154] ++ [([97, 98, 99] : List Nat).length]
          ++ [97, 98, 99] ++ [0, 1, 1] ++ [([] : List Player).length]
          ++ ([] : List Player).flatMap playerBytes
          ++ [([{ id := 1, data := [1, 2, 3] }] : List Fragment).length]
          ++ ([{ id := 1, data := [1, 2, 3] }] : List Fragment).flatMap legacyBytes
          ++ [([{ id := 5, data := [9] }, { id := 2, data := [8, 8] }] : List Fragment).length]
          ++ ([{ id := 5, data := [9] }, { id := 2, data := [8, 8] }] : List Fragment).flatMap
              legacyBytes
          ++ [])
        = .ok { fileVersion := 10, regionId := ((1 : Nat) : Int),
                gameId := 18446744073709551616,
                riotVersion := versionText 7 10 154,
                key := String.mk (base64Encode [97, 98, 99]), complete := ((0 : Nat) : Int),
                endStartupChunkId := ((1 : Nat) : Int), startGameChunkId := ((1 : Nat) : Int),
                players := [], endGameChunkId := last.id }
              { keyframes := storeFragments [{ id := 1, data := [1, 2, 3] }] [],
                chunks := storeFragments
                  [{ id := 5, data := [9] }, { id := 2, data := [8, 8] }] [] }) ∧
    (∃ md, load ([11, 1] ++ be32 (5000000000 / 4294967296) ++ be32 (5000000000 % 4294967296)
          ++ [7, 10, 154] ++ [([97, 98, 99] : List Nat).length]
          ++ [97, 98, 99] ++ [0, 1, 1] ++ [([] : List Player).length]
          ++ ([] : List Player).flatMap playerBytes
          ++ be16 ([([200], [1, 2, 3]), ([0], [4])] : List (List Nat × List Nat)).length
          ++ ([([200], [1, 2, 3]), ([0], [4])] : List (List Nat × List Nat)).flatMap itemBytes
          ++ be16 ([([77], [9, 9])] : List (List Nat × List Nat)).length
          ++ ([([77], [9, 9])] : List (List Nat × List Nat)).flatMap itemBytes ++ [])
        = .ok md { keyframes := storeItems ((11 : Nat) : Int) 0 [([200], [1, 2, 3]), ([0], [4])] [],
                   chunks := storeItems ((11 : Nat) : Int) 0 [([77], [9, 9])] [] } ∧
      md.fileVersion = ((11 : Nat) : Int) ∧
      md.gameId = 5000000000 ∧
      md.riotVersion = versionText 7 10 154) :=
  ⟨(legacy_field_widths 1 123456 7 10 154 [97, 98, 99] 0 1 1 []
      [{ id := 1, data := [1, 2, 3] }] [{ id := 5, data := [9] }, { id := 2, data := [8, 8] }] []
      (by decide) (by decide) (by decide) (by decide) (by decide) (by decide)).1 (by decide),
   (legacy_field_widths 1 18446744073709551615 7 10 154 [97, 98, 99] 0 1 1 []
      [{ id := 1, data := [1, 2, 3] }] [{ id := 5, data := [9] }, { id := 2, data := [8, 8] }] []
      (by decide) (by decide) (by decide) (by decide) (by decide) (by decide)).2.1 (by decide),
   (legacy_field_widths 1 5000000000 7 10 154 [97, 98, 99] 0 1 1 []
      [{ id := 1, data := [1, 2, 3] }] [{ id := 5, data := [9] }, { id := 2, data := [8, 8] }] []
      (by decide) (by decide) (by decide) (by decide) (by decide) (by decide)).2.2
      11 [([200], [1, 2, 3]), ([0], [4])] [([77], [9, 9])] (by decide) streamOk_11_example
      (by decide) (by decide)⟩

theorem fragmentIdOf_ge12 (fileVersion : Int) (h : 12 ≤ fileVersion) (i : Nat)
    (idField : List Nat) : fragmentIdOf fileVersion i idField = fragmentIdOf 12 i idField := by
  unfold fragmentIdOf
  rw [if_neg (by omega), if_neg (by omega), if_neg (by decide), if_neg (by decide)]

theorem storeItems_ge12 (fileVersion : Int) (h : 12 ≤ fileVersion)
    (items : List (List Nat × List Nat)) (i : Nat) (arr : List (Option Fragment)) :
    storeItems fileVersion i items arr = storeItems 12 i items arr := by
  induction items generalizing i arr with
  | nil => rfl
  | cons it items ih =>
    rw [storeItems, storeItems, fragmentIdOf_ge12 fileVersion h, ih]

theorem streamOk_ge12 (fileVersion gameId : Nat) (h : 12 ≤ fileVersion) (players : List Player)
    (keyframes chunks : List (List Nat × List Nat))
    (hok : StreamOk 12 gameId players keyframes chunks) :
    StreamOk fileVersion gameId players keyframes chunks := by
  have hw : idFieldWidth (fileVersion : Int) = idFieldWidth ((12 : Nat) : Int) := by
    unfold idFieldWidth
    rw [if_neg (by omega), if_neg (by decide)]
  have hg := hok.gameId
  rw [if_neg (by decide)] at hg
  exact
    { revision := by omega
      gameId := by rw [if_neg (by omega)]; exact hg
      players := hok.players
      keyframeCount := hok.keyframeCount
      chunkCount := hok.chunkCount
      keyframes := by rw [hw]; exact hok.keyframes
      chunks := by rw [hw]; exact hok.chunks }

theorem streamOk_minimal (fileVersion : Nat) (h : 8 ≤ fileVersion ∧ fileVersion ≠ 9) :
    StreamOk fileVersion 0 [] [(List.replicate (idFieldWidth (fileVersion : Int)) 0, [])]
      [(List.replicate (idFieldWidth (fileVersion : Int)) 0, [])] :=
  { revision := h
    gameId := by split <;> omega
    players := by simp
    keyframeCount := by simp
    chunkCount := by simp
    keyframes := by simp
    chunks := by simp }

/-- C12, counterexample: a buffer whose revision byte is 13 is decoded successfully;
`revision13Bytes` is `exampleBytes` with 13 in place of 12, and `load` returns what
it returns for `exampleBytes`, with `fileVersion` 13. -/
theorem load_accepts_revision_13 :
    revision13Bytes.head? = some 13 ∧
    load revision13Bytes = .ok
      { fileVersion := 13, regionId := 1, gameId := 5000000000, riotVersion := "7.10.154",
        key := "YWJj", complete := 1, endStartupChunkId := 1, startGameChunkId := 1,
        players := [{ id := 42, name := "Ahri", teamNr := 0, leagueId := 3, leagueRank := 1,
                      championId := 103, spell1Id := 4, spell2Id := 14 }],
        endGameChunkId := 1 }
      { keyframes := [none, some { id := 1, data := [1, 2, 3] }],
        chunks := [none, some { id := 1, data := [0, 1, 2, 3, 4, 5, 6, 7, 8, 9] }] } := by
  decide

/-- C12, amended: the readable revisions are exactly 8 and every revision from 10
up: `load` returns a successful result only for buffers whose first byte is at
least 8 and is not 9, the revision it reports being that byte; for each such byte
there is a buffer starting with it on which `load` succeeds; and a well-formed
revision-12 stream whose revision byte is replaced by a greater one is decoded
to the same result, but for the `fileVersion` reported. -/
theorem load_readable_revisions :
    (∀ buff md rd, load buff = .ok md rd →
      ∃ b rest, buff = b :: rest ∧ md.fileVersion = (b : Int) ∧ 8 ≤ b ∧ b ≠ 9) ∧
    (∀ b : Nat, 8 ≤ b → b ≠ 9 →
      ∃ rest md rd, load (b :: rest) = .ok md rd ∧ md.fileVersion = (b : Int)) ∧
    (∀ (fileVersion regionId gameId v0 v1 v2 : Nat) (keyBytes : List Nat)
        (complete endStartupChunkId startGameChunkId : Nat) (players : List Player)
        (keyframes chunks : List (List Nat × List Nat)) (extra : List Nat),
      12 ≤ fileVersion → StreamOk 12 gameId players keyframes chunks →
      keyframes ≠ [] → chunks ≠ [] →
      load (replayStream fileVersion regionId gameId v0 v1 v2 keyBytes complete
          endStartupChunkId startGameChunkId players keyframes chunks ++ extra)
        = withFileVersion (fileVersion : Int)
            (load (replayStream 12 regionId gameId v0 v1 v2 keyBytes complete
              endStartupChunkId startGameChunkId players keyframes chunks ++ extra))) := by
  refine ⟨?_, ?_, ?_⟩
  · intro buff md rd h
    obtain ⟨c, hrun⟩ := load_ok_run buff md rd h
    exact (loadRun_ok_inv buff md rd c hrun).revision
  · intro b h8 h9
    obtain ⟨last, -, hrun⟩ := loadRun_stream b 0 0 0 0 0 [] 0 0 0 []
      [(List.replicate (idFieldWidth (b : Int)) 0, [])]
      [(List.replicate (idFieldWidth (b : Int)) 0, [])] []
      (streamOk_minimal b ⟨h8, h9⟩) (by simp) (by simp)
    have hload := load_of_run_ok _ _ _ _ hrun
    have hs : replayStream b 0 0 0 0 0 [] 0 0 0 []
        [(List.replicate (idFieldWidth (b : Int)) 0, [])]
        [(List.replicate (idFieldWidth (b : Int)) 0, [])] ++ []
        = b :: ((replayStream b 0 0 0 0 0 [] 0 0 0 []
          [(List.replicate (idFieldWidth (b : Int)) 0, [])]
          [(List.replicate (idFieldWidth (b : Int)) 0, [])]).tail ++ []) := rfl
    rw [hs] at hload
    exact ⟨_, _, _, hload, rfl⟩
  · intro fileVersion regionId gameId v0 v1 v2 keyBytes complete endStartupChunkId
      startGameChunkId players keyframes chunks extra hv hok hk hc
    obtain ⟨last, hlast, hrun⟩ := loadRun_stream fileVersion regionId gameId v0 v1 v2 keyBytes
      complete endStartupChunkId startGameChunkId players keyframes chunks extra
      (streamOk_ge12 fileVersion gameId hv players keyframes chunks hok) hk hc
    obtain ⟨last12, hlast12, hrun12⟩ := loadRun_stream 12 regionId gameId v0 v1 v2 keyBytes
      complete endStartupChunkId startGameChunkId players keyframes chunks extra hok hk hc
    have h12 : ((12 : Nat) : Int) = 12 := rfl
    simp only [storeItems_ge12 (fileVersion : Int) (by omega)] at hlast hrun
    rw [h12] at hlast12 hrun12
    rw [hlast12] at hlast
    have hl : last12 = last := Option.some.inj (Option.some.inj hlast)
    subst hl
    have hg : decodedGameId fileVersion gameId = decodedGameId 12 gameId := by
      unfold decodedGameId
      rw [if_neg (by omega), if_neg (by decide)]
    rw [load_of_run_ok _ _ _ _ hrun, load_of_run_ok _ _ _ _ hrun12, hg]
    rfl

theorem load_readable_revisions_witness :
    (∃ b rest, exampleBytes = b :: rest ∧ exampleMetadata.fileVersion = (b : Int) ∧ 8 ≤ b
      ∧ b ≠ 9) ∧
    (∃ rest md rd, load (200 :: rest) = .ok md rd ∧ md.fileVersion = ((200 : Nat) : Int)) ∧
    load (replayStream 13 1 5000000000 7 10 154 [97, 98, 99] 0 1 1 []
        (([{ id := 7, data := [1, 2, 3] }, { id := 2, data := [4] }] : List Fragment).map
          fragmentItem)
        (([{ id := 300, data := [9, 9] }] : List Fragment).map fragmentItem) ++ [])
      = withFileVersion ((13 : Nat) : Int)
          (load (replayStream 12 1 5000000000 7 10 154 [97, 98, 99] 0 1 1 []
            (([{ id := 7, data := [1, 2, 3] }, { id := 2, data := [4] }] : List Fragment).map
              fragmentItem)
            (([{ id := 300, data := [9, 9] }] : List Fragment).map fragmentItem) ++ [])) :=
  ⟨load_readable_revisions.1 exampleBytes exampleMetadata exampleData load_exampleBytes,
   load_readable_revisions.2.1 200 (by decide) (by decide),
   load_readable_revisions.2.2 13 1 5000000000 7 10 154 [97, 98, 99] 0 1 1 [] _ _ []
     (by decide) streamOk_12_example (by decide) (by decide)⟩

end AOF
